import Mathlib

/-!
# Rollout Engine of `internal/service/capsule/rollout.go`

A shallow embedding of the rollout service (`newRollout`, `AbortRollout`,
`rolloutJob.Run`, `rolloutJob.run`, `updateContinue`, `updateError`,
`queueRolloutJob`, `isRolloutTerminated`) as state-passing functions over a
`World` that holds the state of the external collaborators (capsule
repository, secret store, service-account registry, cluster gateway, event
log, job queue, clock).

Every collaborator call first consumes one entry of `World.faults`: an entry
`some e` makes that call fail with `e` and leaves the collaborator state
untouched; `none` (or an exhausted list) lets the call proceed on the stored
state.  Quantifying over worlds therefore quantifies over every outcome of
every collaborator call.

`time.Now()` reads `World.now`; the clock stands still during one call of the
service and moves between calls (`Step.env`).  Time is counted in seconds, so
the retry delay `3 * time.Second` is `+ 3`.
-/

namespace Rig

/-! ## Data model -/

/-- Time stamps, in seconds. -/
abbrev Time := Nat

/-- `uuid.UUID` is a string type in the source (`uuid.UUID(s)` converts). -/
abbrev UUID := String

/-- Error kinds of `pkg/errors`, following the taxonomy of the specification. -/
inductive ErrKind
  | InvalidArgument
  | NotFound
  | AlreadyExists
  | FailedPrecondition
  | StaleVersion
  | Unavailable
  | Aborted
  | Internal
  deriving DecidableEq, Repr

/-- An error value: its kind and the text `errors.MessageOf` returns. -/
structure Err where
  kind : ErrKind
  msg : String
  deriving DecidableEq, Repr

/-- `capsule.RolloutState`.  The enum is an open integer type in the source:
`other n` stands for every value that is none of the seven named states. -/
inductive RolloutState
  | PENDING
  | PREPARING
  | DEPLOYING
  | OBSERVING
  | DONE
  | FAILED
  | ABORTED
  | other (n : Nat)
  deriving DecidableEq, Repr

/-- `rollout.ServiceAccountCredentials`. -/
structure ServiceAccountCredentials where
  ClientId : String
  ClientSecretKey : String
  deriving DecidableEq, Repr

/-- `rollout.Status` with its embedded `capsule.RolloutStatus` flattened:
`State`, `Message`, `UpdatedAt` are the fields of `Status.Status`. -/
structure Status where
  State : RolloutState
  Message : String
  UpdatedAt : Option Time
  ScheduledAt : Option Time
  RigServiceAccount : Option ServiceAccountCredentials
  deriving DecidableEq, Repr

/-- `capsule.Network`, kept abstract. -/
structure Network where
  tag : Nat
  deriving DecidableEq, Repr

/-- `capsule.ContainerSettings`: the environment map and the remaining
settings (command, arguments, resources) kept abstract. -/
structure ContainerSettings where
  EnvironmentVariables : List (String × String)
  rest : Nat
  deriving DecidableEq, Repr

/-- `capsule.Change`: the five kinds `newRollout` handles, the config-file
change built by the mount command, and every further kind. -/
inductive Change
  | Replicas (n : Nat)
  | BuildId (b : String)
  | Network (n : Network)
  | ContainerSettings (cs : ContainerSettings)
  | AutoAddRigServiceAccounts (b : Bool)
  | SetConfigFile (path : String) (content : List Nat) (isSecret : Bool)
  | unknown (tag : Nat)
  deriving DecidableEq, Repr

/-- `capsule.RolloutConfig`. -/
structure RolloutConfig where
  Replicas : Nat
  BuildId : String
  Network : Option Network
  ContainerSettings : Option ContainerSettings
  AutoAddRigServiceAccounts : Bool
  Changes : List Change
  CreatedAt : Option Time
  CreatedBy : Option String
  deriving DecidableEq, Repr

/-- `capsule.Capsule`: identity, name and the pointer to the current rollout
(0 when there is none). -/
structure Capsule where
  CapsuleId : UUID
  Name : String
  CurrentRollout : Nat
  deriving DecidableEq, Repr

/-- A rollout row of the repository: key, immutable config, mutable status and
the version used for compare-and-set. -/
structure RolloutRow where
  capsuleID : UUID
  rolloutID : Nat
  config : RolloutConfig
  status : Status
  version : Nat
  deriving DecidableEq, Repr

/-- A build row: the engine only reads its image. -/
structure Build where
  capsuleID : UUID
  BuildId : String
  Image : String
  deriving DecidableEq, Repr

/-- An entry of the service-account registry. -/
structure ServiceAccountEntry where
  ServiceAccountId : UUID
  Name : String
  ClientId : String
  deriving DecidableEq, Repr

/-- Instance states reported by the cluster gateway (`capsule.State`). -/
inductive InstanceState
  | PENDING
  | RUNNING
  | FAILED
  | other (n : Nat)
  deriving DecidableEq, Repr

/-- An instance as listed by the cluster gateway. -/
structure Instance where
  InstanceId : String
  BuildId : String
  State : InstanceState
  deriving DecidableEq, Repr

/-- `proxy.JWTMethod`. -/
inductive JWTMethod
  | Secret (key : String)
  | Certificate (key : String)
  deriving DecidableEq, Repr

/-- The signing method tag returned by `GetJWTMethod`. -/
inductive SigningMethod
  | HMAC
  | otherMethod
  deriving DecidableEq, Repr

/-- `cluster.Capsule`: the desired state handed to `UpsertCapsule`. -/
structure ClusterCapsule where
  CapsuleID : String
  Image : String
  ContainerSettings : ContainerSettings
  BuildID : String
  Replicas : Nat
  Namespace : String
  Network : Option Network
  JWTMethod : JWTMethod
  deriving DecidableEq, Repr

/-- Kinds of `capsule.EventData`. -/
inductive EventKind
  | Rollout
  | Abort
  | Error
  deriving DecidableEq, Repr

/-- An entry of the event log. -/
structure Event where
  capsuleID : UUID
  rolloutID : Nat
  message : String
  kind : EventKind
  createdAt : Time
  deriving DecidableEq, Repr

/-- A queued job: the fields of `rolloutJob` and its due time. -/
structure QueuedJob where
  projectID : UUID
  capsuleID : UUID
  rolloutID : Nat
  due : Time
  deriving DecidableEq, Repr

/-- The fields of `rolloutJob` (the service pointer is the world). -/
structure rolloutJob where
  projectID : UUID
  capsuleID : UUID
  rolloutID : Nat
  deriving DecidableEq, Repr

/-- The request context: the project identity read by `auth.GetProjectID` and
the caller identity read by `GetAuthor`. -/
structure Ctx where
  projectID : Option UUID
  author : String
  deriving DecidableEq, Repr

/-- State of all external collaborators. -/
structure World where
  capsules : List Capsule
  rollouts : List RolloutRow
  builds : List Build
  secrets : List (UUID × String)
  accounts : List ServiceAccountEntry
  instances : List (String × Instance)
  cluster : List (String × ClusterCapsule)
  signing : SigningMethod × String
  events : List Event
  queue : List QueuedJob
  now : Time
  uuidCounter : Nat
  faults : List (Option Err)
  deriving DecidableEq, Repr

/-! ## Collaborators

The storage backends, the secret store, the registry, the gateway, the event
log, the queue and the `auth`/`errors`/`uuid` helpers are interfaces of the
engine; their code is not part of `rollout.go`. -/

/-- The fault entry the next collaborator call meets. -/
def World.nextFault (w : World) : Option Err :=
  match w.faults with
  | [] => none
  | f :: _ => f

/-- The world after one collaborator call consumed its fault entry. -/
def World.tick (w : World) : World :=
  { w with faults := w.faults.tail }

/-- Modelled from the spec: `errors.IsInvalidArgument` of `pkg/errors`
(not under src/) tests the kind of a possibly absent error. -/
def IsInvalidArgument (err : Option Err) : Bool :=
  match err with
  | some e => e.kind == ErrKind.InvalidArgument
  | none => false

/-- Modelled from the spec: `errors.IsNotFound` of `pkg/errors`. -/
def IsNotFound (e : Err) : Bool := e.kind == ErrKind.NotFound

/-- Modelled from the spec: `errors.IsAlreadyExists` of `pkg/errors`. -/
def IsAlreadyExists (e : Err) : Bool := e.kind == ErrKind.AlreadyExists

/-- Modelled from the spec: `uuid.New` of `pkg/uuid` returns an identifier
not handed out before; the world counts the identifiers handed out. -/
def mkUUID (n : Nat) : UUID := "uuid-" ++ toString n

/-- Modelled from the spec: repository `Get(capsule_id) → Capsule | NotFound`. -/
def Get (capsuleID : UUID) (w : World) : Except Err Capsule × World :=
  match w.nextFault with
  | some e => (.error e, w.tick)
  | none =>
    match w.capsules.find? (fun c => c.CapsuleId == capsuleID) with
    | some c => (.ok c, w.tick)
    | none => (.error ⟨.NotFound, "capsule not found"⟩, w.tick)

/-- Modelled from the spec: repository `Update(capsule) → ok | Conflict`;
the row with the same id is replaced. -/
def Update (c : Capsule) (w : World) : Option Err × World :=
  match w.nextFault with
  | some e => (some e, w.tick)
  | none =>
    if w.capsules.any (fun x => x.CapsuleId == c.CapsuleId) then
      (none, { w.tick with
        capsules := w.capsules.map (fun x => if x.CapsuleId == c.CapsuleId then c else x) })
    else (some ⟨.NotFound, "capsule not found"⟩, w.tick)

/-- Modelled from the spec: repository
`GetBuild(capsule_id, build_id) → Build | NotFound`. -/
def GetBuild (capsuleID : UUID) (buildID : String) (w : World) : Except Err Build × World :=
  match w.nextFault with
  | some e => (.error e, w.tick)
  | none =>
    match w.builds.find? (fun b => b.capsuleID == capsuleID && b.BuildId == buildID) with
    | some b => (.ok b, w.tick)
    | none => (.error ⟨.NotFound, "build not found"⟩, w.tick)

/-- The rollout row stored under a key. -/
def findRollout (rows : List RolloutRow) (capsuleID : UUID) (rolloutID : Nat) :
    Option RolloutRow :=
  rows.find? (fun r => r.capsuleID == capsuleID && r.rolloutID == rolloutID)

/-- Modelled from the spec: rollout ids are per-capsule monotonically
increasing integers assigned at creation; 0 is never assigned. -/
def nextRolloutID (rows : List RolloutRow) (capsuleID : UUID) : Nat :=
  ((rows.filter (fun r => r.capsuleID == capsuleID)).map (fun r => r.rolloutID)).foldr max 0 + 1

/-- Modelled from the spec: repository
`CreateRollout(capsule_id, config, status) → rollout_id`. -/
def CreateRollout (capsuleID : UUID) (rc : RolloutConfig) (rs : Status) (w : World) :
    Except Err Nat × World :=
  match w.nextFault with
  | some e => (.error e, w.tick)
  | none =>
    let id := nextRolloutID w.rollouts capsuleID
    (.ok id, { w.tick with rollouts := w.rollouts ++ [⟨capsuleID, id, rc, rs, 0⟩] })

/-- Modelled from the spec: repository
`GetRollout(capsule_id, rollout_id) → (config, status, version) | NotFound`. -/
def GetRollout (capsuleID : UUID) (rolloutID : Nat) (w : World) :
    Except Err (RolloutConfig × Status × Nat) × World :=
  match w.nextFault with
  | some e => (.error e, w.tick)
  | none =>
    match findRollout w.rollouts capsuleID rolloutID with
    | some r => (.ok (r.config, r.status, r.version), w.tick)
    | none => (.error ⟨.NotFound, "rollout not found"⟩, w.tick)

/-- The rows after a status write on the row of a key. -/
def setStatus (rows : List RolloutRow) (capsuleID : UUID) (rolloutID : Nat) (rs : Status) :
    List RolloutRow :=
  rows.map (fun r =>
    if r.capsuleID == capsuleID && r.rolloutID == rolloutID
    then { r with status := rs, version := r.version + 1 } else r)

/-- Modelled from the spec: repository `UpdateRolloutStatus(capsule_id,
rollout_id, version, status) → ok | StaleVersion | NotFound`: the writer
provides the version it read and the store rejects stale writes. -/
def UpdateRolloutStatus (capsuleID : UUID) (rolloutID : Nat) (version : Nat) (rs : Status)
    (w : World) : Option Err × World :=
  match w.nextFault with
  | some e => (some e, w.tick)
  | none =>
    match findRollout w.rollouts capsuleID rolloutID with
    | none => (some ⟨.NotFound, "rollout not found"⟩, w.tick)
    | some r =>
      if r.version = version then
        (none, { w.tick with rollouts := setStatus w.rollouts capsuleID rolloutID rs })
      else (some ⟨.StaleVersion, "stale version"⟩, w.tick)

/-- Modelled from the spec: secret store `Create(id, bytes)`. -/
def SecretCreate (id : UUID) (secret : String) (w : World) : Option Err × World :=
  match w.nextFault with
  | some e => (some e, w.tick)
  | none => (none, { w.tick with secrets := (id, secret) :: w.secrets.filter (fun s => s.1 != id) })

/-- Modelled from the spec: secret store `Get(id) → bytes | NotFound`. -/
def SecretGet (id : UUID) (w : World) : Except Err String × World :=
  match w.nextFault with
  | some e => (.error e, w.tick)
  | none =>
    match w.secrets.find? (fun s => s.1 == id) with
    | some s => (.ok s.2, w.tick)
    | none => (.error ⟨.NotFound, "secret not found"⟩, w.tick)

/-- Modelled from the spec: secret store `Delete(id) → ok | NotFound`. -/
def SecretDelete (id : UUID) (w : World) : Option Err × World :=
  match w.nextFault with
  | some e => (some e, w.tick)
  | none =>
    if w.secrets.any (fun s => s.1 == id) then
      (none, { w.tick with secrets := w.secrets.filter (fun s => s.1 != id) })
    else (some ⟨.NotFound, "secret not found"⟩, w.tick)

/-- Modelled from the spec: registry `CreateServiceAccount(name, system=true)
→ (id, client_id, client_secret) | AlreadyExists`, the latter on a name
collision. -/
def CreateServiceAccount (name : String) (_system : Bool) (w : World) :
    Except Err (UUID × String × String) × World :=
  match w.nextFault with
  | some e => (.error e, w.tick)
  | none =>
    if w.accounts.any (fun a => a.Name == name) then
      (.error ⟨.AlreadyExists, "service account already exists"⟩, w.tick)
    else
      let id := mkUUID w.uuidCounter
      let clientID := mkUUID (w.uuidCounter + 1)
      let secret := mkUUID (w.uuidCounter + 2)
      (.ok (id, clientID, secret),
        { w.tick with
          accounts := w.accounts ++ [⟨id, name, clientID⟩]
          uuidCounter := w.uuidCounter + 3 })

/-- Modelled from the spec: registry `ListServiceAccounts() → iterator`; the
iterator walks the accounts present when it was opened. -/
def ListServiceAccounts (w : World) : Except Err (List ServiceAccountEntry) × World :=
  match w.nextFault with
  | some e => (.error e, w.tick)
  | none => (.ok w.accounts, w.tick)

/-- Modelled from the spec: registry `DeleteServiceAccount(id)`. -/
def DeleteServiceAccount (id : UUID) (w : World) : Option Err × World :=
  match w.nextFault with
  | some e => (some e, w.tick)
  | none => (none, { w.tick with accounts := w.accounts.filter (fun a => a.ServiceAccountId != id) })

/-- Modelled from the spec: registry `GetJWTMethod() → (method_tag, key_bytes)`. -/
def GetJWTMethod (w : World) : SigningMethod × String := w.signing

/-- Modelled from the spec: registry `GetAuthor(ctx) → author`. -/
def GetAuthor (ctx : Ctx) (w : World) : Except Err String × World :=
  match w.nextFault with
  | some e => (.error e, w.tick)
  | none => (.ok ctx.author, w.tick)

/-- Modelled from the spec: gateway `UpsertCapsule(name, desired) → ok | Error`. -/
def UpsertCapsule (name : String) (cc : ClusterCapsule) (w : World) : Option Err × World :=
  match w.nextFault with
  | some e => (some e, w.tick)
  | none => (none, { w.tick with cluster := (name, cc) :: w.cluster.filter (fun x => x.1 != name) })

/-- Modelled from the spec: gateway `ListInstances(name) → iterator of
{instance_id, state, build_id}`. -/
def ListInstances (name : String) (w : World) : Except Err (List Instance) × World :=
  match w.nextFault with
  | some e => (.error e, w.tick)
  | none => (.ok ((w.instances.filter (fun x => x.1 == name)).map (fun x => x.2)), w.tick)

/-- Modelled from the spec: `Service.CreateEvent` (not under src/) appends
`(capsule_id, rollout_id, message, kind, timestamp)` to the event log. -/
def CreateEvent (capsuleID : UUID) (rolloutID : Nat) (message : String) (kind : EventKind)
    (w : World) : Option Err × World :=
  match w.nextFault with
  | some e => (some e, w.tick)
  | none => (none, { w.tick with events := w.events ++ [⟨capsuleID, rolloutID, message, kind, w.now⟩] })

/-- Modelled from the spec: queue `AddJob(job, due_at)` is idempotent by
`(capsule_id, rollout_id)`: re-adding replaces the due time. -/
def AddJob (job : rolloutJob) (ts : Time) (w : World) : World :=
  { w with
    queue := w.queue.filter (fun q => !(q.capsuleID == job.capsuleID && q.rolloutID == job.rolloutID))
      ++ [⟨job.projectID, job.capsuleID, job.rolloutID, ts⟩] }

/-- Modelled from the spec: `auth.GetProjectID` (not under src/) reads the
project identity carried by the context and fails when there is none. -/
def GetProjectID (ctx : Ctx) : Except Err UUID :=
  match ctx.projectID with
  | some p => .ok p
  | none => .error ⟨.Internal, "no project id in context"⟩

/-- Modelled from the spec: `auth.WithProjectID` (not under src/). -/
def WithProjectID (ctx : Ctx) (projectID : UUID) : Ctx :=
  { ctx with projectID := some projectID }

/-! ## The rollout service (`rollout.go`) -/

/-- `isRolloutTerminated` (lines 521-532). -/
def isRolloutTerminated (r : Status) : Bool :=
  match r.State with
  | .ABORTED => true
  | .DONE => true
  | .FAILED => true
  | _ => false

/-- `rs.GetRigServiceAccount().GetClientId()`: empty when there is no binding. -/
def Status.GetClientId (rs : Status) : String :=
  match rs.RigServiceAccount with
  | some sa => sa.ClientId
  | none => ""

/-- `rs.GetRigServiceAccount().GetClientSecretKey()`: empty when there is no binding. -/
def Status.GetClientSecretKey (rs : Status) : String :=
  match rs.RigServiceAccount with
  | some sa => sa.ClientSecretKey
  | none => ""

/-- `Service.queueRolloutJob` (lines 125-140). -/
def queueRolloutJob (ctx : Ctx) (capsuleID : UUID) (rolloutID : Nat) (ts : Time) (w : World) :
    Option Err × World :=
  match GetProjectID ctx with
  | .error e => (some e, w)
  | .ok projectID => (none, AddJob ⟨projectID, capsuleID, rolloutID⟩ ts w)

/-- `Service.AbortRollout` (lines 33-46). -/
def AbortRollout (capsuleID : UUID) (rolloutID : Nat) (w : World) : Option Err × World :=
  match GetRollout capsuleID rolloutID w with
  | (.error e, w1) => (some e, w1)
  | (.ok (_, rs, version), w1) =>
    let rs := { rs with State := .ABORTED }
    let rs := { rs with ScheduledAt := none }
    match UpdateRolloutStatus capsuleID rolloutID version rs w1 with
    | (some e, w2) => (some e, w2)
    | (none, w2) => CreateEvent capsuleID rolloutID "rollout aborted" .Abort w2

/-- The name `reflect.TypeOf` prints for the variant of a change. -/
def Change.typeName : Change → String
  | .Replicas _ => "*capsule.Change_Replicas"
  | .BuildId _ => "*capsule.Change_BuildId"
  | .Network _ => "*capsule.Change_Network"
  | .ContainerSettings _ => "*capsule.Change_ContainerSettings"
  | .AutoAddRigServiceAccounts _ => "*capsule.Change_AutoAddRigServiceAccounts"
  | .SetConfigFile _ _ _ => "*capsule.Change_SetConfigFile"
  | .unknown n => "*capsule.Change_" ++ toString n

/-- The loop over the changes in `newRollout` (lines 78-93): every change
overwrites its field; a change of any other kind ends the call. -/
def applyChanges : List Change → RolloutConfig → Except Err RolloutConfig
  | [], rc => .ok rc
  | c :: cs, rc =>
    match c with
    | .Replicas n => applyChanges cs { rc with Replicas := n }
    | .BuildId b => applyChanges cs { rc with BuildId := b }
    | .Network n => applyChanges cs { rc with Network := some n }
    | .ContainerSettings s => applyChanges cs { rc with ContainerSettings := some s }
    | .AutoAddRigServiceAccounts b => applyChanges cs { rc with AutoAddRigServiceAccounts := b }
    | v => .error ⟨.InvalidArgument, "unhandled change field \x27" ++ v.typeName ++ "\x27"⟩

/-- The start of `newRollout` (lines 54-69): the config the new rollout starts
from, after the check that no rollout is in progress. -/
def newRollout_base (capsuleID : UUID) (c : Capsule) (w : World) :
    Except Err RolloutConfig × World :=
  if c.CurrentRollout != 0 then
    match GetRollout capsuleID c.CurrentRollout w with
    | (.error e, w1) => (.error e, w1)
    | (.ok (pRC, ps, _), w1) =>
      if !isRolloutTerminated ps then
        (.error ⟨.FailedPrecondition, "rollout already in progress"⟩, w1)
      else (.ok pRC, w1)
  else
    (.ok { Replicas := 1, BuildId := "", Network := none, ContainerSettings := none,
           AutoAddRigServiceAccounts := false, Changes := [], CreatedAt := none,
           CreatedBy := none }, w)

/-- `Service.newRollout` (lines 48-123). -/
def newRollout (ctx : Ctx) (capsuleID : UUID) (cs : List Change) (w : World) :
    Except Err Nat × World :=
  match Get capsuleID w with
  | (.error e, w1) => (.error e, w1)
  | (.ok c, w1) =>
    match newRollout_base capsuleID c w1 with
    | (.error e, w2) => (.error e, w2)
    | (.ok rc, w2) =>
      let now := w2.now
      let rc := { rc with Changes := cs }
      let rc := { rc with CreatedAt := some now }
      match GetAuthor ctx w2 with
      | (.error e, w3) => (.error e, w3)
      | (.ok author, w3) =>
        let rc := { rc with CreatedBy := some author }
        match applyChanges cs rc with
        | .error e => (.error e, w3)
        | .ok rc =>
          match GetBuild capsuleID rc.BuildId w3 with
          | (.error e, w4) => (.error e, w4)
          | (.ok _, w4) =>
            let rs : Status :=
              { State := .PENDING, Message := "", UpdatedAt := some now,
                ScheduledAt := some now, RigServiceAccount := none }
            match CreateRollout capsuleID rc rs w4 with
            | (.error e, w5) => (.error e, w5)
            | (.ok rolloutID, w5) =>
              match Update { c with CurrentRollout := rolloutID } w5 with
              | (some e, w6) => (.error e, w6)
              | (none, w6) =>
                match queueRolloutJob ctx capsuleID rolloutID now w6 with
                | (some e, w7) => (.error e, w7)
                | (none, w7) => (.ok rolloutID, w7)

/-- The loop `for { sa, err := it.Next() ... }` over the listed service
accounts (lines 332-345 and again lines 385-400): every `Next` may fail,
also the one that would report the end; an account of the target name is
deleted. -/
def deleteNamed (ccName : String) : List ServiceAccountEntry → World → Option Err × World
  | [], w =>
    match w.nextFault with
    | some e => (some e, w.tick)
    | none => (none, w.tick)
  | sa :: rest, w =>
    match w.nextFault with
    | some e => (some e, w.tick)
    | none =>
      if sa.Name == ccName then
        match DeleteServiceAccount sa.ServiceAccountId w.tick with
        | (some e, w1) => (some e, w1)
        | (none, w1) => deleteNamed ccName rest w1
      else deleteNamed ccName rest w.tick

/-- The account creation of PREPARING (lines 323-353): create, and on
`AlreadyExists` delete the accounts of the name and create again.  Returns
the client id and the client secret. -/
def createAccount (ccName : String) (w : World) : Except Err (String × String) × World :=
  match CreateServiceAccount ccName true w with
  | (.error err, w1) =>
    if IsAlreadyExists err then
      match ListServiceAccounts w1 with
      | (.error e, w2) => (.error e, w2)
      | (.ok it, w2) =>
        match deleteNamed ccName it w2 with
        | (some e, w3) => (.error e, w3)
        | (none, w3) =>
          match CreateServiceAccount ccName true w3 with
          | (.error e, w4) => (.error e, w4)
          | (.ok (_, id, secret), w4) => (.ok (id, secret), w4)
    else (.error err, w1)
  | (.ok (_, id, secret), w1) => (.ok (id, secret), w1)

/-- The end of the teardown branch of PREPARING (lines 378-402): delete the
accounts of the name, then clear the binding. -/
def teardown (ccName : String) (rs : Status) (w : World) : (Status × Option Err) × World :=
  match ListServiceAccounts w with
  | (.error e, w1) => ((rs, some e), w1)
  | (.ok it, w1) =>
    match deleteNamed ccName it w1 with
    | (some e, w2) => ((rs, some e), w2)
    | (none, w2) => (({ rs with RigServiceAccount := none }, none), w2)

/-- The reconciliation of the service-account binding in PREPARING
(lines 316-404): the status after it and the error it returned with. -/
def reconcile (j : rolloutJob) (c : Capsule) (rc : RolloutConfig) (rs : Status) (w : World) :
    (Status × Option Err) × World :=
  let ccName := "rig-capsule-" ++ c.Name
  if rc.AutoAddRigServiceAccounts then
    if rs.GetClientId == "" then
      match CreateEvent j.capsuleID j.rolloutID "creating service-account" .Rollout w with
      | (some e, w1) => ((rs, some e), w1)
      | (none, w1) =>
        match createAccount ccName w1 with
        | (.error e, w2) => ((rs, some e), w2)
        | (.ok (id, secret), w2) =>
          let secretID := mkUUID w2.uuidCounter
          let w3 := { w2 with uuidCounter := w2.uuidCounter + 1 }
          match SecretCreate secretID secret w3 with
          | (some e, w4) => ((rs, some e), w4)
          | (none, w4) =>
            (({ rs with RigServiceAccount := some ⟨id, secretID⟩ }, none), w4)
    else ((rs, none), w)
  else
    if rs.GetClientId != "" then
      match CreateEvent j.capsuleID j.rolloutID "deleting service-account" .Rollout w with
      | (some e, w1) => ((rs, some e), w1)
      | (none, w1) =>
        let sid := rs.GetClientSecretKey
        match SecretDelete sid w1 with
        | (some e, w2) =>
          if IsNotFound e then teardown ccName rs w2 else ((rs, some e), w2)
        | (none, w2) => teardown ccName rs w2
    else ((rs, none), w)

/-- Assignment `m[k] = v` on an environment map. -/
def setEnv (m : List (String × String)) (k v : String) : List (String × String) :=
  (k, v) :: m.filter (fun kv => kv.1 != k)

/-- Reading `m[k]` on an environment map. -/
def getEnv (m : List (String × String)) (k : String) : Option String :=
  (m.find? (fun kv => kv.1 == k)).map (fun kv => kv.2)

/-- The environment of the desired capsule in DEPLOYING (lines 428-446). -/
def deployEnv (j : rolloutJob) (rc : RolloutConfig) (rs : Status) (w : World) :
    Except Err ContainerSettings × World :=
  let settings : ContainerSettings :=
    match rc.ContainerSettings with
    | some s => s
    | none => { EnvironmentVariables := [], rest := 0 }
  let env := setEnv settings.EnvironmentVariables "RIG_PROJECT_ID" j.projectID
  if rc.AutoAddRigServiceAccounts then
    let sid := rs.GetClientSecretKey
    match SecretGet sid w with
    | (.error e, w1) => (.error e, w1)
    | (.ok secretKey, w1) =>
      let env := setEnv env "RIG_CLIENT_ID" rs.GetClientId
      let env := setEnv env "RIG_CLIENT_SECRET" secretKey
      (.ok { settings with EnvironmentVariables := env }, w1)
  else (.ok { settings with EnvironmentVariables := env }, w)

/-- The DEPLOYING case of `rolloutJob.run` (lines 410-467). -/
def deploy (j : rolloutJob) (c : Capsule) (rc : RolloutConfig) (rs : Status) (w : World) :
    (Status × Option Err) × World :=
  match GetBuild j.capsuleID rc.BuildId w with
  | (.error err, w1) =>
    if IsNotFound err then ((rs, some ⟨.Aborted, "build not available"⟩), w1)
    else ((rs, some err), w1)
  | (.ok b, w1) =>
    match deployEnv j rc rs w1 with
    | (.error e, w2) => ((rs, some e), w2)
    | (.ok settings, w2) =>
      let method : JWTMethod :=
        match GetJWTMethod w2 with
        | (.HMAC, key) => .Secret key
        | (_, key) => .Certificate key
      let cc : ClusterCapsule :=
        { CapsuleID := j.capsuleID, Image := b.Image, ContainerSettings := settings,
          BuildID := rc.BuildId, Replicas := rc.Replicas, Namespace := j.projectID,
          Network := rc.Network, JWTMethod := method }
      match CreateEvent j.capsuleID j.rolloutID "configuring cluster resources" .Rollout w2 with
      | (some e, w3) => ((rs, some e), w3)
      | (none, w3) =>
        match UpsertCapsule c.Name cc w3 with
        | (some e, w4) => ((rs, some e), w4)
        | (none, w4) =>
          (({ rs with State := .OBSERVING, Message := "waiting for new instances" }, none), w4)

/-- The loop over the listed instances in OBSERVING (lines 475-493): the
count of instances seen, or the error the loop returned with. -/
def countInstances (rc : RolloutConfig) : List Instance → Nat → World → Except Err Nat × World
  | [], c, w =>
    match w.nextFault with
    | some e => (.error e, w.tick)
    | none => (.ok c, w.tick)
  | i :: rest, c, w =>
    match w.nextFault with
    | some e => (.error e, w.tick)
    | none =>
      if i.BuildId != rc.BuildId then
        (.error ⟨.Unavailable, "instance \x27" ++ i.InstanceId ++ "\x27 is wrong build"⟩, w.tick)
      else if i.State != .RUNNING then
        (.error ⟨.Unavailable, "instance \x27" ++ i.InstanceId ++ "\x27 is running"⟩, w.tick)
      else countInstances rc rest (c + 1) w.tick

/-- The OBSERVING case of `rolloutJob.run` (lines 469-506). -/
def observe (j : rolloutJob) (c : Capsule) (rc : RolloutConfig) (rs : Status) (w : World) :
    (Status × Option Err) × World :=
  match ListInstances c.Name w with
  | (.error e, w1) => ((rs, some e), w1)
  | (.ok it, w1) =>
    match countInstances rc it 0 w1 with
    | (.error e, w2) => ((rs, some e), w2)
    | (.ok n, w2) =>
      if n < rc.Replicas then
        ((rs, some ⟨.Unavailable, "only " ++ toString n ++ " instances running, should be \x27"
            ++ toString rc.Replicas ++ "\x27"⟩), w2)
      else
        match CreateEvent j.capsuleID j.rolloutID "cluster resources created" .Rollout w2 with
        | (some e, w3) => ((rs, some e), w3)
        | (none, w3) =>
          (({ rs with State := .DONE, Message := "rollout done", ScheduledAt := none }, none), w3)

/-- `rolloutJob.run` (lines 297-519): the dispatch on the state.  Returns the
status as the call left it and the error it returned. -/
def run (j : rolloutJob) (c : Capsule) (rc : RolloutConfig) (rs : Status) (_version : Nat)
    (w : World) : (Status × Option Err) × World :=
  match rs.State with
  | .PENDING =>
    match CreateEvent j.capsuleID j.rolloutID "new rollout initiated" .Rollout w with
    | (some e, w1) => ((rs, some e), w1)
    | (none, w1) => (({ rs with State := .PREPARING, Message := "preparing rollout" }, none), w1)
  | .PREPARING =>
    match reconcile j c rc rs w with
    | ((rs1, some e), w1) => ((rs1, some e), w1)
    | ((rs1, none), w1) =>
      (({ rs1 with State := .DEPLOYING, Message := "deploying rollout to cluster" }, none), w1)
  | .DEPLOYING => deploy j c rc rs w
  | .OBSERVING => observe j c rc rs w
  | .ABORTED => (({ rs with ScheduledAt := none }, none), w)
  | .DONE => (({ rs with ScheduledAt := none }, none), w)
  | .FAILED => (({ rs with ScheduledAt := none }, none), w)
  | .other n => ((rs, some ⟨.InvalidArgument, "invalid state " ++ toString n⟩), w)

/-- `rolloutJob.updateContinue` (lines 272-283): the status as left and the
error returned. -/
def updateContinue (j : rolloutJob) (_rc : RolloutConfig) (rs : Status) (version : Nat)
    (w : World) : (Status × Option Err) × World :=
  let rs := if isRolloutTerminated rs then { rs with ScheduledAt := none }
            else { rs with ScheduledAt := some w.now }
  match UpdateRolloutStatus j.capsuleID j.rolloutID version rs w with
  | (some e, w1) => ((rs, some e), w1)
  | (none, w1) => ((rs, none), w1)

/-- `rolloutJob.updateError` (lines 285-295): both failures are only logged. -/
def updateError (j : rolloutJob) (_rc : RolloutConfig) (rs : Status) (version : Nat) (err : Err)
    (w : World) : Status × World :=
  let rs := { rs with ScheduledAt := some (w.now + 3) }
  let rs := { rs with Message := err.msg }
  let w1 := (UpdateRolloutStatus j.capsuleID j.rolloutID version rs w).2
  let w2 := (CreateEvent j.capsuleID j.rolloutID err.msg .Error w1).2
  (rs, w2)

/-- The end of `rolloutJob.Run` (lines 263-269): queue the next turn when the
status is scheduled, and return the error of the turn. -/
def Run_queue (ctx : Ctx) (j : rolloutJob) (rs : Status) (err : Option Err) (w : World) :
    Option Err × World :=
  match rs.ScheduledAt with
  | some ts =>
    match queueRolloutJob ctx j.capsuleID j.rolloutID ts w with
    | (some e, w1) => (some e, w1)
    | (none, w1) => (err, w1)
  | none => (err, w)

/-- The part of `rolloutJob.Run` after the two loads (lines 239-269): the
dispatch on a copy of the loaded status and the write of the outcome. -/
def Run_turn (ctx : Ctx) (j : rolloutJob) (c : Capsule) (rc : RolloutConfig) (oldRS : Status)
    (version : Nat) (w : World) : Option Err × World :=
  match run j c rc oldRS version w with
  | ((rs, err), w1) =>
    if rs = oldRS then
      let rs := { rs with ScheduledAt := some (w1.now + 3) }
      match UpdateRolloutStatus j.capsuleID j.rolloutID version rs w1 with
      | (some e, w2) => (some e, w2)
      | (none, w2) => Run_queue ctx j rs err w2
    else
      let rs := if IsInvalidArgument err then { rs with State := .FAILED, ScheduledAt := none }
                else rs
      match err with
      | none =>
        match updateContinue j rc rs version w1 with
        | ((rs, none), w2) => Run_queue ctx j rs none w2
        | ((rs, some e), w2) =>
          match updateError j rc rs version e w2 with
          | (rs, w3) => Run_queue ctx j rs (some e) w3
      | some e =>
        match updateError j rc rs version e w1 with
        | (rs, w2) => Run_queue ctx j rs (some e) w2

/-- The two loads at the start of `rolloutJob.Run` (lines 229-237). -/
def Run_load (j : rolloutJob) (w : World) :
    Except Err (Capsule × RolloutConfig × Status × Nat) × World :=
  match Get j.capsuleID w with
  | (.error e, w1) => (.error e, w1)
  | (.ok c, w1) =>
    match GetRollout j.capsuleID j.rolloutID w1 with
    | (.error e, w2) => (.error e, w2)
    | (.ok (rc, oldRS, version), w2) => (.ok (c, rc, oldRS, version), w2)

/-- `rolloutJob.Run` (lines 218-270). -/
def Run (ctx : Ctx) (j : rolloutJob) (w : World) : Option Err × World :=
  let ctx := WithProjectID ctx j.projectID
  match Run_load j w with
  | (.error e, w1) => (some e, w1)
  | (.ok (c, rc, oldRS, version), w1) => Run_turn ctx j c rc oldRS version w1

/-- The state after `s` on the path PENDING, PREPARING, DEPLOYING, OBSERVING,
DONE; every other state has no successor and is mapped to itself. -/
def nextState : RolloutState → RolloutState
  | .PENDING => .PREPARING
  | .PREPARING => .DEPLOYING
  | .DEPLOYING => .OBSERVING
  | .OBSERVING => .DONE
  | s => s

/-- The rows a turn may leave behind: the rows it found, or those rows with
the status `st` written on the row of the job, which then was stored at the
version the turn had loaded. -/
def TurnWrote (j : rolloutJob) (v : Nat) (rows rows' : List RolloutRow) (st : Status) : Prop :=
  (∃ r, findRollout rows j.capsuleID j.rolloutID = some r ∧ r.version = v) ∧
  rows' = setStatus rows j.capsuleID j.rolloutID st

/-- Position of a state in the order PENDING, PREPARING, DEPLOYING,
OBSERVING, DONE; FAILED, ABORTED and unknown states are not in the order. -/
def pathIndex : RolloutState → Option Nat
  | .PENDING => some 0
  | .PREPARING => some 1
  | .DEPLOYING => some 2
  | .OBSERVING => some 3
  | .DONE => some 4
  | _ => none

/-- The state `s'` is later than `s` in the order of `pathIndex`. -/
def Later (s s' : RolloutState) : Prop :=
  ∃ i k, pathIndex s = some i ∧ pathIndex s' = some k ∧ i < k

/-- The terminal states DONE, FAILED, ABORTED. -/
def Terminal (s : RolloutState) : Prop :=
  s = .DONE ∨ s = .FAILED ∨ s = .ABORTED

/-- A turn that has done its two loads: the job and what the loads returned. -/
structure Loaded where
  j : rolloutJob
  c : Capsule
  rc : RolloutConfig
  oldRS : Status
  version : Nat

/-- The service with turns in flight: the world and every load a turn has
done so far. -/
structure Sys where
  world : World
  loaded : List Loaded

/-- One atomic step of the service running concurrently.  A turn is two
steps, its loads (`load`) and the rest (`turn`), so that any other step may
fall between them; `turn` may run on any load done before.  Each step meets
an arbitrary fault list `f`; `env` is any change of the collaborators that
keeps the rollout rows. -/
inductive Step : Sys → Sys → Prop
  | load (s : Sys) (f : List (Option Err)) (l : Loaded) (w1 : World) :
      Run_load l.j { s.world with faults := f } = (.ok (l.c, l.rc, l.oldRS, l.version), w1) →
      Step s ⟨w1, l :: s.loaded⟩
  | turn (s : Sys) (f : List (Option Err)) (ctx : Ctx) (l : Loaded) :
      l ∈ s.loaded →
      Step s ⟨(Run_turn ctx l.j l.c l.rc l.oldRS l.version { s.world with faults := f }).2,
        s.loaded⟩
  | abort (s : Sys) (f : List (Option Err)) (capsuleID : UUID) (rolloutID : Nat) :
      Step s ⟨(AbortRollout capsuleID rolloutID { s.world with faults := f }).2, s.loaded⟩
  | create (s : Sys) (f : List (Option Err)) (ctx : Ctx) (capsuleID : UUID) (cs : List Change) :
      Step s ⟨(newRollout ctx capsuleID cs { s.world with faults := f }).2, s.loaded⟩
  | env (s : Sys) (w1 : World) :
      w1.rollouts = s.world.rollouts → Step s ⟨w1, s.loaded⟩

/-- Every load in flight is of a stored row, is not newer than that row, and
equals the row's status when it has the row's version. -/
def Sys.Consistent (s : Sys) : Prop :=
  ∀ l ∈ s.loaded, ∃ r,
    findRollout s.world.rollouts l.j.capsuleID l.j.rolloutID = some r ∧
    l.version ≤ r.version ∧ (l.version = r.version → l.oldRS = r.status)

/-- The error `newRollout` raises when a rollout is in progress. -/
def inProgress : Err := ⟨.FailedPrecondition, "rollout already in progress"⟩

/-- The kinds of change the specification lists as recognized: Replicas,
BuildId, Network, ContainerSettings, AutoAddRigServiceAccounts. -/
def Change.recognized : Change → Bool
  | .Replicas _ => true
  | .BuildId _ => true
  | .Network _ => true
  | .ContainerSettings _ => true
  | .AutoAddRigServiceAccounts _ => true
  | _ => false

/-- The first `n` collaborator calls meet no fault. -/
def World.calm (w : World) : Nat → Prop
  | 0 => True
  | n + 1 => w.nextFault = none ∧ w.tick.calm n

/-- No collaborator call meets a fault. -/
def World.quiet (w : World) : Prop := ∀ f ∈ w.faults, f = none

/-- The capsule row stored under an id. -/
def findCapsule (w : World) (capsuleID : UUID) : Option Capsule :=
  w.capsules.find? (fun c => c.CapsuleId == capsuleID)

/-- The config of the specification with `replicas = 1` and every other field
empty. -/
def emptyConfig : RolloutConfig :=
  { Replicas := 1, BuildId := "", Network := none, ContainerSettings := none,
    AutoAddRigServiceAccounts := false, Changes := [], CreatedAt := none, CreatedBy := none }

/-- The base config in the words of the specification: the previous rollout's
config when `current_rollout` is non-zero, otherwise `emptyConfig`. -/
def baseConfig (w : World) (capsuleID : UUID) : RolloutConfig :=
  match findCapsule w capsuleID with
  | none => emptyConfig
  | some c =>
    if c.CurrentRollout = 0 then emptyConfig
    else
      match findRollout w.rollouts capsuleID c.CurrentRollout with
      | some r => r.config
      | none => emptyConfig

/-- The value of the last Replicas change of a list. -/
def lastReplicas (cs : List Change) : Option Nat :=
  (cs.filterMap (fun c => match c with | .Replicas n => some n | _ => none)).getLast?

/-- The value of the last BuildId change of a list. -/
def lastBuildId (cs : List Change) : Option String :=
  (cs.filterMap (fun c => match c with | .BuildId b => some b | _ => none)).getLast?

/-- The value of the last Network change of a list. -/
def lastNetwork (cs : List Change) : Option Network :=
  (cs.filterMap (fun c => match c with | .Network n => some n | _ => none)).getLast?

/-- The value of the last ContainerSettings change of a list. -/
def lastContainerSettings (cs : List Change) : Option ContainerSettings :=
  (cs.filterMap (fun c => match c with | .ContainerSettings s => some s | _ => none)).getLast?

/-- The value of the last AutoAddRigServiceAccounts change of a list. -/
def lastAutoAdd (cs : List Change) : Option Bool :=
  (cs.filterMap
    (fun c => match c with | .AutoAddRigServiceAccounts b => some b | _ => none)).getLast?

/-- The status `newRollout` creates a rollout with at time `now`. -/
def initialStatus (now : Time) : Status :=
  { State := .PENDING, Message := "", UpdatedAt := some now, ScheduledAt := some now,
    RigServiceAccount := none }

/-- An error that is a fault of the environment or is not of kind
FailedPrecondition. -/
def Benign (w : World) (e : Err) : Prop :=
  some e ∈ w.faults ∨ e.kind ≠ .FailedPrecondition

/-! ## Concrete worlds -/

/-- The rollouts of a capsule whose state is outside DONE, FAILED, ABORTED. -/
def activeRollouts (w : World) (capsuleID : UUID) : List RolloutRow :=
  w.rollouts.filter (fun r => r.capsuleID == capsuleID && !isRolloutTerminated r.status)

/-- A world with the capsule "c1" named "web" that has no rollout, and one
build "b1" of it. -/
def world0 : World :=
  { capsules := [⟨"c1", "web", 0⟩], rollouts := [], builds := [⟨"c1", "b1", "img"⟩],
    secrets := [], accounts := [], instances := [], cluster := [],
    signing := (.HMAC, "k"), events := [], queue := [], now := 100, uuidCounter := 0,
    faults := [] }

/-- A request context of project "p1" and author "alice". -/
def ctx0 : Ctx := ⟨some "p1", "alice"⟩

/-- The job of rollout 1 of capsule "c1". -/
def job1 : rolloutJob := ⟨"p1", "c1", 1⟩

/-- The error the repository answers a capsule update with in `worldA`. -/
def conflict : Err := ⟨.Unavailable, "conflict"⟩

/-- The world after a `newRollout` on `world0` whose calls succeed up to and
including `CreateRollout` and whose capsule `Update` fails. -/
def worldA : World :=
  (newRollout ctx0 "c1" [.BuildId "b1"]
    { world0 with faults := [none, none, none, none, some conflict] }).2

/-- The world after a second `newRollout`, on `worldA`, with no fault. -/
def worldB : World := (newRollout ctx0 "c1" [.BuildId "b1"] worldA).2

/-- The world after a `newRollout` on `world0` with no fault: rollout 1 of
"c1" is PENDING and current. -/
def worldC : World := (newRollout ctx0 "c1" [.BuildId "b1"] world0).2

/-- The config of the rollout stored in the worlds below. -/
def config1 : RolloutConfig :=
  { Replicas := 1, BuildId := "b1", Network := none, ContainerSettings := none,
    AutoAddRigServiceAccounts := false, Changes := [.BuildId "b1"], CreatedAt := some 100,
    CreatedBy := some "alice" }

/-- A world whose rollout 1 of "c1" is stored OBSERVING at version 3, due at
100 and queued, with one running instance of the right build in the cluster. -/
def worldObserving : World :=
  { world0 with
    capsules := [⟨"c1", "web", 1⟩]
    rollouts := [⟨"c1", 1, config1,
      ⟨.OBSERVING, "waiting for new instances", some 100, some 100, none⟩, 3⟩]
    instances := [("web", ⟨"i1", "b1", .RUNNING⟩)]
    queue := [⟨"p1", "c1", 1, 100⟩]
    now := 200 }

/-- The world after `AbortRollout` on `worldObserving`. -/
def worldAborted : World := (AbortRollout "c1" 1 worldObserving).2

/-- A world whose rollout 1 of "c1" is stored DEPLOYING while its build "b1"
is gone from the repository. -/
def worldDeploying : World :=
  { world0 with
    capsules := [⟨"c1", "web", 1⟩]
    rollouts := [⟨"c1", 1, config1,
      ⟨.DEPLOYING, "deploying rollout to cluster", some 100, some 100, none⟩, 2⟩]
    builds := []
    now := 200 }

/-- The loads of a turn on rollout 1 done in `worldObserving`. -/
def loaded1 : Loaded :=
  { j := job1, c := ⟨"c1", "web", 1⟩, rc := config1,
    oldRS := ⟨.OBSERVING, "waiting for new instances", some 100, some 100, none⟩, version := 3 }

/-- The system in `worldObserving` with no turn in flight. -/
def sysStart : Sys := ⟨worldObserving, []⟩

/-- The system after a turn on rollout 1 has done its loads. -/
def sysLoaded : Sys := ⟨worldObserving, [loaded1]⟩

/-- The system after the abort of rollout 1 and then the rest of the turn
that had loaded before the abort. -/
def sysAfter : Sys :=
  ⟨(Run_turn ctx0 loaded1.j loaded1.c loaded1.rc loaded1.oldRS loaded1.version
      { (AbortRollout "c1" 1 { sysLoaded.world with faults := [] }).2 with faults := [] }).2,
    [loaded1]⟩

/-- The part of the world that only the service itself writes: the capsule
rows, the rollout rows, the queue and the clock. -/
def World.durable (w : World) : List Capsule × List RolloutRow × List QueuedJob × Time :=
  (w.capsules, w.rollouts, w.queue, w.now)

/-- The part of `rolloutJob.Run` after the loads as the atomicity of the
dispatch makes it behave: a dispatch error always goes with the loaded status
and takes the branch of the unchanged status, where only `scheduled_at` is
set to `now + 3`; the assignment of state FAILED is gone; `updateError` is
called only after the write of `updateContinue` failed. -/
def Run_turn_atomic (ctx : Ctx) (j : rolloutJob) (_c : Capsule) (rc : RolloutConfig)
    (oldRS : Status) (version : Nat) (rs : Status) (err : Option Err) (w1 : World) :
    Option Err × World :=
  match err with
  | some e =>
    let rs := { oldRS with ScheduledAt := some (w1.now + 3) }
    match UpdateRolloutStatus j.capsuleID j.rolloutID version rs w1 with
    | (some e1, w2) => (some e1, w2)
    | (none, w2) => Run_queue ctx j rs (some e) w2
  | none =>
    if rs = oldRS then
      let rs := { oldRS with ScheduledAt := some (w1.now + 3) }
      match UpdateRolloutStatus j.capsuleID j.rolloutID version rs w1 with
      | (some e1, w2) => (some e1, w2)
      | (none, w2) => Run_queue ctx j rs none w2
    else
      match updateContinue j rc rs version w1 with
      | ((rs, none), w2) => Run_queue ctx j rs none w2
      | ((rs, some e), w2) =>
        match updateError j rc rs version e w2 with
        | (rs, w3) => Run_queue ctx j rs (some e) w3

/-- Everything in the world but the rollout rows, the event log and the fault
list: what a status write and an event append leave alone. -/
def World.rest (w : World) :
    List Capsule × List Build × List (UUID × String) × List ServiceAccountEntry ×
      List (String × Instance) × List (String × ClusterCapsule) × (SigningMethod × String) ×
      List QueuedJob × Time × Nat :=
  (w.capsules, w.builds, w.secrets, w.accounts, w.instances, w.cluster, w.signing, w.queue,
    w.now, w.uuidCounter)

/-- A world whose rollout 1 of "c1" is stored with a state that is none of
the seven named states. -/
def worldUnknown : World :=
  { world0 with
    capsules := [⟨"c1", "web", 1⟩]
    rollouts := [⟨"c1", 1, config1, ⟨.other 0, "", some 100, some 100, none⟩, 1⟩]
    queue := []
    now := 200 }

/-- The error of a rejected compare-and-set write. -/
def stale : Err := ⟨.StaleVersion, "stale version"⟩

/-- The world `worldObserving` with no instance in the cluster. -/
def worldWaiting : World := { worldObserving with instances := [] }

/-- The world `worldWaiting` in which the listing succeeds and the status
write is rejected as stale. -/
def worldWaitingStale : World := { worldWaiting with faults := [none, none, some stale] }

/-- The world `worldC` after the loads of a turn, in which the event append
succeeds and both status writes are rejected as stale. -/
def worldPendingStale : World := { worldC with faults := [none, some stale, some stale] }

/-- The environment of the config: `rc.GetContainerSettings()
.GetEnvironmentVariables()`, empty when the settings are absent. -/
def configEnv (rc : RolloutConfig) : List (String × String) :=
  match rc.ContainerSettings with
  | some s => s.EnvironmentVariables
  | none => []

/-- The bytes the Secret Store holds under an id. -/
def storedSecret (w : World) (id : UUID) : Option String :=
  (w.secrets.find? (fun s => s.1 == id)).map (fun s => s.2)

/-- The environment of the desired capsule in the words of the specification,
key by key, with the two credential keys taken from the config's environment
when auto-binding is off: `RIG_CLIENT_SECRET` and `RIG_CLIENT_ID` come from
the status and the Secret Store when auto-binding is on, `RIG_PROJECT_ID` is
the project id always, every other key is the config's. -/
def specEnv (j : rolloutJob) (rc : RolloutConfig) (rs : Status) (w : World) (k : String) :
    Option String :=
  if rc.AutoAddRigServiceAccounts = true ∧ k = "RIG_CLIENT_SECRET" then
    storedSecret w rs.GetClientSecretKey
  else if rc.AutoAddRigServiceAccounts = true ∧ k = "RIG_CLIENT_ID" then some rs.GetClientId
  else if k = "RIG_PROJECT_ID" then some j.projectID
  else getEnv (configEnv rc) k

/-- A config without auto-binding whose environment sets `RIG_CLIENT_ID`. -/
def configUser : RolloutConfig :=
  { config1 with ContainerSettings := some ⟨[("RIG_CLIENT_ID", "mine")], 0⟩ }

/-- A world whose rollout 1 of "c1" is stored DEPLOYING with `configUser`. -/
def worldUser : World :=
  { world0 with
    capsules := [⟨"c1", "web", 1⟩]
    rollouts := [⟨"c1", 1, configUser,
      ⟨.DEPLOYING, "deploying rollout to cluster", some 100, some 100, none⟩, 2⟩]
    now := 200 }

/-- A config with auto-binding on. -/
def configBound : RolloutConfig := { config1 with AutoAddRigServiceAccounts := true }

/-- A DEPLOYING status bound to the client "client-1" and the secret "sec-1". -/
def statusBound : Status :=
  ⟨.DEPLOYING, "deploying rollout to cluster", some 100, some 100, some ⟨"client-1", "sec-1"⟩⟩

/-- A world whose rollout 1 of "c1" is stored DEPLOYING with `configBound`
and `statusBound`, the secret "sec-1" being in the Secret Store. -/
def worldBound : World :=
  { world0 with
    capsules := [⟨"c1", "web", 1⟩]
    rollouts := [⟨"c1", 1, configBound, statusBound, 2⟩]
    secrets := [("sec-1", "hush")]
    now := 200 }

/-- A PREPARING status without binding. -/
def statusPreparing : Status := ⟨.PREPARING, "preparing rollout", some 100, some 100, none⟩

/-- A world whose rollout 1 of "c1" is stored PREPARING with `configBound`
while the registry already holds an account named "rig-capsule-web" and one
of another name. -/
def worldCollision : World :=
  { world0 with
    capsules := [⟨"c1", "web", 1⟩]
    rollouts := [⟨"c1", 1, configBound, statusPreparing, 1⟩]
    accounts := [⟨"sa-1", "rig-capsule-web", "client-0"⟩, ⟨"sa-2", "ci-bot", "client-9"⟩]
    now := 200 }

/-- The invariant of the binding: a stored status has a client id only when
the config of its row asks for the binding; every load in flight has it too
and carries the config of the stored row of its job. -/
def Sys.BindingRequested (s : Sys) : Prop :=
  (∀ cid rid r, findRollout s.world.rollouts cid rid = some r →
    r.status.GetClientId ≠ "" → r.config.AutoAddRigServiceAccounts = true) ∧
  (∀ l ∈ s.loaded, (l.oldRS.GetClientId ≠ "" → l.rc.AutoAddRigServiceAccounts = true) ∧
    ∃ r, findRollout s.world.rollouts l.j.capsuleID l.j.rolloutID = some r ∧ r.config = l.rc)

/-- The system in `world0`, which has no rollout, with no turn in flight. -/
def sysEmpty : Sys := ⟨world0, []⟩

/-- The loads of a turn on rollout 1 done in `worldC`. -/
def loadedC : Loaded :=
  { j := job1, c := ⟨"c1", "web", 1⟩, rc := config1, oldRS := initialStatus 100, version := 0 }

/-- The system after a `newRollout` on `sysEmpty` with no fault. -/
def sysCreated : Sys :=
  ⟨(newRollout ctx0 "c1" [.BuildId "b1"] { sysEmpty.world with faults := [] }).2, []⟩

/-- The system after a turn on rollout 1 has done its loads in `sysCreated`. -/
def sysLoadedC : Sys :=
  ⟨(Run_load job1 { sysCreated.world with faults := [] }).2, [loadedC]⟩

/-- The Secret lifetime condition on a key: it is empty or the id of a row of
the Secret Store. -/
def SecretLive (w : World) (key : String) : Prop :=
  key = "" ∨ ∃ s ∈ w.secrets, s.1 = key

/-- A world whose rollout 1 of "c1" is stored PREPARING with auto-binding off
in the config and a binding in the status, its secret being in the Secret
Store; the loads, the event append and the secret deletion of the turn
succeed and the listing of the service accounts fails. -/
def worldTeardown : World :=
  { world0 with
    capsules := [⟨"c1", "web", 1⟩]
    rollouts := [⟨"c1", 1, config1,
      ⟨.PREPARING, "preparing rollout", some 100, some 100, some ⟨"client-1", "sec-1"⟩⟩, 1⟩]
    secrets := [("sec-1", "hush")]
    now := 200
    faults := [none, none, none, none, some conflict] }

/-- The error of a failing author lookup. -/
def authorDown : Err := ⟨.Unavailable, "registry unavailable"⟩

/-- The world `world0` in which the load of the capsule succeeds and the
author lookup fails. -/
def worldAuthorDown : World := { world0 with faults := [none, some authorDown] }

/-! ## Properties

### The dispatch never writes the repository, the queue or the clock -/

theorem tick_durable (w : World) : w.tick.durable = w.durable := rfl

theorem CreateEvent_durable (cid : UUID) (rid : Nat) (m : String) (k : EventKind) (w : World) :
    (CreateEvent cid rid m k w).2.durable = w.durable := by
  unfold CreateEvent; split <;> rfl

theorem GetBuild_durable (cid : UUID) (b : String) (w : World) :
    (GetBuild cid b w).2.durable = w.durable := by
  unfold GetBuild; split
  · rfl
  · split <;> rfl

theorem SecretCreate_durable (id : UUID) (x : String) (w : World) :
    (SecretCreate id x w).2.durable = w.durable := by
  unfold SecretCreate; split <;> rfl

theorem SecretGet_durable (id : UUID) (w : World) :
    (SecretGet id w).2.durable = w.durable := by
  unfold SecretGet; split
  · rfl
  · split <;> rfl

theorem SecretDelete_durable (id : UUID) (w : World) :
    (SecretDelete id w).2.durable = w.durable := by
  unfold SecretDelete; split
  · rfl
  · split <;> rfl

theorem CreateServiceAccount_durable (n : String) (b : Bool) (w : World) :
    (CreateServiceAccount n b w).2.durable = w.durable := by
  unfold CreateServiceAccount; split
  · rfl
  · split <;> rfl

theorem ListServiceAccounts_durable (w : World) :
    (ListServiceAccounts w).2.durable = w.durable := by
  unfold ListServiceAccounts; split <;> rfl

theorem DeleteServiceAccount_durable (id : UUID) (w : World) :
    (DeleteServiceAccount id w).2.durable = w.durable := by
  unfold DeleteServiceAccount; split <;> rfl

theorem UpsertCapsule_durable (n : String) (cc : ClusterCapsule) (w : World) :
    (UpsertCapsule n cc w).2.durable = w.durable := by
  unfold UpsertCapsule; split <;> rfl

theorem ListInstances_durable (n : String) (w : World) :
    (ListInstances n w).2.durable = w.durable := by
  unfold ListInstances; split <;> rfl

theorem deleteNamed_durable (ccName : String) (it : List ServiceAccountEntry) (w : World) :
    (deleteNamed ccName it w).2.durable = w.durable := by
  induction it generalizing w with
  | nil => unfold deleteNamed; split <;> rfl
  | cons sa rest ih =>
    unfold deleteNamed
    split
    · rfl
    · split
      · have hd := DeleteServiceAccount_durable sa.ServiceAccountId w.tick
        split
        · next h => rw [h] at hd; exact hd
        · next h => rw [h] at hd; rw [ih]; exact hd
      · rw [ih]; rfl

theorem countInstances_durable (rc : RolloutConfig) (it : List Instance) (n : Nat) (w : World) :
    (countInstances rc it n w).2.durable = w.durable := by
  induction it generalizing n w with
  | nil => unfold countInstances; split <;> rfl
  | cons i rest ih =>
    unfold countInstances
    split
    · rfl
    · split
      · rfl
      · split
        · rfl
        · rw [ih]; rfl

theorem createAccount_durable (ccName : String) (w : World) :
    (createAccount ccName w).2.durable = w.durable := by
  unfold createAccount
  have h1 := CreateServiceAccount_durable ccName true w
  split
  · next err w1 h =>
    rw [h] at h1
    split
    · have h2 := ListServiceAccounts_durable w1
      split
      · next e w2 ha => rw [ha] at h2; exact h2.trans h1
      · next it w2 ha =>
        rw [ha] at h2
        have h3 := deleteNamed_durable ccName it w2
        split
        · next e w3 hb => rw [hb] at h3; exact h3.trans (h2.trans h1)
        · next w3 hb =>
          rw [hb] at h3
          have h4 := CreateServiceAccount_durable ccName true w3
          split
          · next e w4 hc => rw [hc] at h4; exact h4.trans (h3.trans (h2.trans h1))
          · next a id secret w4 hc => rw [hc] at h4; exact h4.trans (h3.trans (h2.trans h1))
    · exact h1
  · next a id secret w1 h => rw [h] at h1; exact h1

/-- The teardown leaves the durable state alone, returns the status it was
given when it fails, and changes at most the binding. -/
theorem teardown_spec (ccName : String) (rs : Status) (w : World) :
    (teardown ccName rs w).2.durable = w.durable ∧
    ((teardown ccName rs w).1.2 ≠ none → (teardown ccName rs w).1.1 = rs) ∧
    (∃ b, (teardown ccName rs w).1.1 = { rs with RigServiceAccount := b }) := by
  unfold teardown
  have h1 := ListServiceAccounts_durable w
  split
  · next e w1 h => rw [h] at h1; exact ⟨h1, fun _ => rfl, ⟨rs.RigServiceAccount, rfl⟩⟩
  · next it w1 h =>
    rw [h] at h1
    have h2 := deleteNamed_durable ccName it w1
    split
    · next e w2 ha => rw [ha] at h2; exact ⟨h2.trans h1, fun _ => rfl, ⟨rs.RigServiceAccount, rfl⟩⟩
    · next w2 ha => rw [ha] at h2; exact ⟨h2.trans h1, fun hne => absurd rfl hne, ⟨none, rfl⟩⟩

/-- The reconciliation leaves the durable state alone, returns the status it
was given when it fails, and changes at most the binding. -/
theorem reconcile_spec (j : rolloutJob) (c : Capsule) (rc : RolloutConfig) (rs : Status)
    (w : World) :
    (reconcile j c rc rs w).2.durable = w.durable ∧
    ((reconcile j c rc rs w).1.2 ≠ none → (reconcile j c rc rs w).1.1 = rs) ∧
    (∃ b, (reconcile j c rc rs w).1.1 = { rs with RigServiceAccount := b }) := by
  unfold reconcile
  simp only []
  split
  · split
    · have h1 := CreateEvent_durable j.capsuleID j.rolloutID "creating service-account" .Rollout w
      split
      · next e w1 h => rw [h] at h1; exact ⟨h1, fun _ => rfl, ⟨rs.RigServiceAccount, rfl⟩⟩
      · next w1 h =>
        rw [h] at h1
        have h2 := createAccount_durable ("rig-capsule-" ++ c.Name) w1
        split
        · next e w2 ha => rw [ha] at h2; exact ⟨h2.trans h1, fun _ => rfl, ⟨rs.RigServiceAccount, rfl⟩⟩
        · next id secret w2 ha =>
          rw [ha] at h2
          have h3 := SecretCreate_durable (mkUUID w2.uuidCounter) secret
            { w2 with uuidCounter := w2.uuidCounter + 1 }
          split
          · next e w4 hb =>
            rw [hb] at h3
            exact ⟨h3.trans (h2.trans h1), fun _ => rfl, ⟨rs.RigServiceAccount, rfl⟩⟩
          · next w4 hb =>
            rw [hb] at h3
            exact ⟨h3.trans (h2.trans h1), fun hne => absurd rfl hne, ⟨_, rfl⟩⟩
    · exact ⟨rfl, fun _ => rfl, ⟨rs.RigServiceAccount, rfl⟩⟩
  · split
    · have h1 := CreateEvent_durable j.capsuleID j.rolloutID "deleting service-account" .Rollout w
      split
      · next e w1 h => rw [h] at h1; exact ⟨h1, fun _ => rfl, ⟨rs.RigServiceAccount, rfl⟩⟩
      · next w1 h =>
        rw [h] at h1
        have h2 := SecretDelete_durable rs.GetClientSecretKey w1
        split
        · next e w2 ha =>
          rw [ha] at h2
          split
          · have h3 := teardown_spec ("rig-capsule-" ++ c.Name) rs w2
            exact ⟨h3.1.trans (h2.trans h1), h3.2⟩
          · exact ⟨h2.trans h1, fun _ => rfl, ⟨rs.RigServiceAccount, rfl⟩⟩
        · next w2 ha =>
          rw [ha] at h2
          have h3 := teardown_spec ("rig-capsule-" ++ c.Name) rs w2
          exact ⟨h3.1.trans (h2.trans h1), h3.2⟩
    · exact ⟨rfl, fun _ => rfl, ⟨rs.RigServiceAccount, rfl⟩⟩

theorem deployEnv_durable (j : rolloutJob) (rc : RolloutConfig) (rs : Status) (w : World) :
    (deployEnv j rc rs w).2.durable = w.durable := by
  unfold deployEnv
  simp only []
  split
  · have h1 := SecretGet_durable rs.GetClientSecretKey w
    split
    · next e w1 h => rw [h] at h1; exact h1
    · next k w1 h => rw [h] at h1; exact h1
  · rfl

/-- DEPLOYING leaves the durable state alone, returns the status it was given
when it fails, and otherwise moves it to OBSERVING. -/
theorem deploy_spec (j : rolloutJob) (c : Capsule) (rc : RolloutConfig) (rs : Status)
    (w : World) :
    (deploy j c rc rs w).2.durable = w.durable ∧
    ((deploy j c rc rs w).1.2 ≠ none → (deploy j c rc rs w).1.1 = rs) ∧
    ((deploy j c rc rs w).1.2 = none → (deploy j c rc rs w).1.1 =
      { rs with State := .OBSERVING, Message := "waiting for new instances" }) := by
  unfold deploy
  have h1 := GetBuild_durable j.capsuleID rc.BuildId w
  split
  · next err w1 h =>
    rw [h] at h1
    split
    · exact ⟨h1, fun _ => rfl, fun hn => by simp at hn⟩
    · exact ⟨h1, fun _ => rfl, fun hn => by simp at hn⟩
  · next b w1 h =>
    rw [h] at h1
    have h2 := deployEnv_durable j rc rs w1
    split
    · next e w2 ha => rw [ha] at h2; exact ⟨h2.trans h1, fun _ => rfl, fun hn => by simp at hn⟩
    · next settings w2 ha =>
      rw [ha] at h2
      simp only []
      have h3 := CreateEvent_durable j.capsuleID j.rolloutID "configuring cluster resources"
        .Rollout w2
      split
      · next e w3 hb =>
        rw [hb] at h3
        exact ⟨h3.trans (h2.trans h1), fun _ => rfl, fun hn => by simp at hn⟩
      · next w3 hb =>
        rw [hb] at h3
        split
        · next e w4 hc =>
          have h4 : w4.durable = w3.durable :=
            (congrArg (fun p => p.2.durable) hc).symm.trans (UpsertCapsule_durable _ _ _)
          exact ⟨h4.trans (h3.trans (h2.trans h1)), fun _ => rfl, fun hn => by simp at hn⟩
        · next w4 hc =>
          have h4 : w4.durable = w3.durable :=
            (congrArg (fun p => p.2.durable) hc).symm.trans (UpsertCapsule_durable _ _ _)
          exact ⟨h4.trans (h3.trans (h2.trans h1)), fun hne => absurd rfl hne, fun _ => rfl⟩

/-- OBSERVING leaves the durable state alone, returns the status it was given
when it fails, and otherwise moves it to DONE and unschedules it. -/
theorem observe_spec (j : rolloutJob) (c : Capsule) (rc : RolloutConfig) (rs : Status)
    (w : World) :
    (observe j c rc rs w).2.durable = w.durable ∧
    ((observe j c rc rs w).1.2 ≠ none → (observe j c rc rs w).1.1 = rs) ∧
    ((observe j c rc rs w).1.2 = none → (observe j c rc rs w).1.1 =
      { rs with State := .DONE, Message := "rollout done", ScheduledAt := none }) := by
  unfold observe
  have h1 := ListInstances_durable c.Name w
  split
  · next e w1 h => rw [h] at h1; exact ⟨h1, fun _ => rfl, fun hn => by simp at hn⟩
  · next it w1 h =>
    rw [h] at h1
    have h2 := countInstances_durable rc it 0 w1
    split
    · next e w2 ha => rw [ha] at h2; exact ⟨h2.trans h1, fun _ => rfl, fun hn => by simp at hn⟩
    · next n w2 ha =>
      rw [ha] at h2
      split
      · exact ⟨h2.trans h1, fun _ => rfl, fun hn => by simp at hn⟩
      · have h3 := CreateEvent_durable j.capsuleID j.rolloutID "cluster resources created"
          .Rollout w2
        split
        · next e w3 hb =>
          rw [hb] at h3
          exact ⟨h3.trans (h2.trans h1), fun _ => rfl, fun hn => by simp at hn⟩
        · next w3 hb =>
          rw [hb] at h3
          exact ⟨h3.trans (h2.trans h1), fun hne => absurd rfl hne, fun _ => rfl⟩

/-- The dispatch never writes the capsule rows, the rollout rows, the queue or
the clock. -/
theorem run_durable (j : rolloutJob) (c : Capsule) (rc : RolloutConfig) (rs : Status)
    (v : Nat) (w : World) : (run j c rc rs v w).2.durable = w.durable := by
  unfold run
  split
  · have h1 := CreateEvent_durable j.capsuleID j.rolloutID "new rollout initiated" .Rollout w
    split
    · next e w1 h => rw [h] at h1; exact h1
    · next w1 h => rw [h] at h1; exact h1
  · have h1 := (reconcile_spec j c rc rs w).1
    split
    · next rs1 e w1 h => rw [h] at h1; exact h1
    · next rs1 w1 h => rw [h] at h1; exact h1
  · exact (deploy_spec j c rc rs w).1
  · exact (observe_spec j c rc rs w).1
  · rfl
  · rfl
  · rfl
  · rfl

/-- The dispatch is atomic on the status: when it returns an error, the
status is the one it was given. -/
theorem run_error_unchanged (j : rolloutJob) (c : Capsule) (rc : RolloutConfig) (rs : Status)
    (v : Nat) (w : World) (h : (run j c rc rs v w).1.2 ≠ none) :
    (run j c rc rs v w).1.1 = rs := by
  unfold run at h ⊢
  split at h
  · split
    · rfl
    · next w1 ha => rw [ha] at h; simp at h
  · have h1 := (reconcile_spec j c rc rs w).2.1
    split
    · next rs1 e w1 ha => rw [ha] at h1; exact h1 (by simp)
    · next rs1 w1 ha => rw [ha] at h; simp at h
  · exact (deploy_spec j c rc rs w).2.1 h
  · exact (observe_spec j c rc rs w).2.1 h
  · simp at h
  · simp at h
  · simp at h
  · rfl

/-- The state after the dispatch is the state before it or its successor. -/
theorem run_state (j : rolloutJob) (c : Capsule) (rc : RolloutConfig) (rs : Status)
    (v : Nat) (w : World) :
    (run j c rc rs v w).1.1.State = rs.State ∨
    (run j c rc rs v w).1.1.State = nextState rs.State := by
  by_cases h : (run j c rc rs v w).1.2 = none
  · right
    unfold run at h ⊢
    split
    · next hs =>
      rw [hs]
      split
      · next e w1 ha => simp [hs, ha] at h
      · rfl
    · next hs =>
      rw [hs]
      have h1 := (reconcile_spec j c rc rs w).2.2
      split
      · next rs1 e w1 ha => simp [hs, ha] at h
      · next rs1 w1 ha => rfl
    · next hs =>
      rw [hs]
      simp only [hs] at h
      rw [(deploy_spec j c rc rs w).2.2 h]; rfl
    · next hs =>
      rw [hs]
      simp only [hs] at h
      rw [(observe_spec j c rc rs w).2.2 h]; rfl
    · next hs => rw [hs]; rfl
    · next hs => rw [hs]; rfl
    · next hs => rw [hs]; rfl
    · next n hs => rw [hs]; rfl
  · left
    rw [run_error_unchanged j c rc rs v w h]

/-- On a terminated status the dispatch only clears `scheduled_at` and
returns no error. -/
theorem run_terminated (j : rolloutJob) (c : Capsule) (rc : RolloutConfig) (rs : Status)
    (v : Nat) (w : World) (h : isRolloutTerminated rs = true) :
    run j c rc rs v w = (({ rs with ScheduledAt := none }, none), w) := by
  unfold isRolloutTerminated at h
  unfold run
  split <;> simp_all

/-! ### Status writes -/

theorem findRollout_setStatus_same (rows : List RolloutRow) (cid : UUID) (rid : Nat)
    (st : Status) :
    findRollout (setStatus rows cid rid st) cid rid =
      (findRollout rows cid rid).map
        (fun r => { r with status := st, version := r.version + 1 }) := by
  induction rows with
  | nil => rfl
  | cons r rest ih =>
    unfold findRollout setStatus at *
    by_cases hk : (r.capsuleID == cid && r.rolloutID == rid) = true
    · simp [List.find?, hk]
    · simp only [Bool.not_eq_true] at hk
      simp only [List.map_cons, hk, List.find?, Bool.false_eq_true, if_false]
      exact ih

theorem findRollout_setStatus_other (rows : List RolloutRow) (cid cid' : UUID) (rid rid' : Nat)
    (st : Status) (hne : ¬ (cid' = cid ∧ rid' = rid)) :
    findRollout (setStatus rows cid rid st) cid' rid' = findRollout rows cid' rid' := by
  induction rows with
  | nil => rfl
  | cons r rest ih =>
    unfold findRollout setStatus at *
    by_cases hk : (r.capsuleID == cid && r.rolloutID == rid) = true
    · have hk' : (r.capsuleID == cid' && r.rolloutID == rid') = false := by
        simp only [Bool.and_eq_true, beq_iff_eq] at hk
        rcases hk with ⟨h1, h2⟩
        by_contra hcon
        simp only [Bool.not_eq_false, Bool.and_eq_true, beq_iff_eq] at hcon
        exact hne ⟨hcon.1.symm.trans h1, hcon.2.symm.trans h2⟩
      simp only [List.map_cons, hk, if_true, List.find?, hk']
      exact ih
    · simp only [Bool.not_eq_true] at hk
      simp only [List.map_cons, hk, Bool.false_eq_true, if_false, List.find?]
      split
      · rfl
      · exact ih

/-- A status write either is rejected and changes nothing durable, or finds
the row at the version given and replaces its status. -/
theorem UpdateRolloutStatus_spec (cid : UUID) (rid : Nat) (v : Nat) (st : Status) (w : World) :
    ((UpdateRolloutStatus cid rid v st w).1 ≠ none ∧
      (UpdateRolloutStatus cid rid v st w).2 = w.tick) ∨
    ((UpdateRolloutStatus cid rid v st w).1 = none ∧ w.nextFault = none ∧
      (∃ r, findRollout w.rollouts cid rid = some r ∧ r.version = v) ∧
      (UpdateRolloutStatus cid rid v st w).2 =
        { w.tick with rollouts := setStatus w.rollouts cid rid st }) := by
  unfold UpdateRolloutStatus
  split
  · left; simp
  · next hf =>
    split
    · left; simp
    · next r hr =>
      split
      · next hv => right; exact ⟨rfl, hf, ⟨r, hr, hv⟩, rfl⟩
      · left; simp

/-- Queueing the next turn writes the queue only. -/
theorem Run_queue_frame (ctx : Ctx) (j : rolloutJob) (rs : Status) (err : Option Err)
    (w : World) :
    (Run_queue ctx j rs err w).2.rollouts = w.rollouts ∧
    (Run_queue ctx j rs err w).2.capsules = w.capsules ∧
    (Run_queue ctx j rs err w).2.now = w.now ∧
    (Run_queue ctx j rs err w).2.events = w.events := by
  unfold Run_queue queueRolloutJob
  split
  · split
    · next e w1 h =>
      split at h
      · simp only [Prod.mk.injEq] at h; rw [← h.2]; exact ⟨rfl, rfl, rfl, rfl⟩
      · simp only [Prod.mk.injEq] at h; rw [← h.2]; exact ⟨rfl, rfl, rfl, rfl⟩
    · next w1 h =>
      split at h
      · simp only [Prod.mk.injEq] at h; rw [← h.2]; exact ⟨rfl, rfl, rfl, rfl⟩
      · simp only [Prod.mk.injEq] at h; rw [← h.2]; exact ⟨rfl, rfl, rfl, rfl⟩
  · exact ⟨rfl, rfl, rfl, rfl⟩

theorem durable_fields {w w' : World} (h : w'.durable = w.durable) :
    w'.capsules = w.capsules ∧ w'.rollouts = w.rollouts ∧ w'.queue = w.queue ∧ w'.now = w.now := by
  simpa [World.durable] using h

/-- What `updateError` leaves behind: the status it was given up to message
and schedule, and rows that are untouched or carry that status. -/
theorem updateError_spec (j : rolloutJob) (rc : RolloutConfig) (rs : Status) (v : Nat)
    (e : Err) (w : World) :
    (updateError j rc rs v e w).1 = { rs with ScheduledAt := some (w.now + 3), Message := e.msg } ∧
    (updateError j rc rs v e w).2.capsules = w.capsules ∧
    (updateError j rc rs v e w).2.now = w.now ∧
    ((updateError j rc rs v e w).2.rollouts = w.rollouts ∨
      TurnWrote j v w.rollouts (updateError j rc rs v e w).2.rollouts
        { rs with ScheduledAt := some (w.now + 3), Message := e.msg }) := by
  unfold updateError
  simp only []
  have hev := fun w1 => durable_fields (CreateEvent_durable j.capsuleID j.rolloutID e.msg .Error w1)
  refine ⟨?_, ?_, ?_, ?_⟩
  · first | rfl | trivial
  · rw [(hev _).1]
    rcases UpdateRolloutStatus_spec j.capsuleID j.rolloutID v
      { rs with ScheduledAt := some (w.now + 3), Message := e.msg } w with h | h
    · rw [h.2]; rfl
    · rw [h.2.2.2]; rfl
  · rw [(hev _).2.2.2]
    rcases UpdateRolloutStatus_spec j.capsuleID j.rolloutID v
      { rs with ScheduledAt := some (w.now + 3), Message := e.msg } w with h | h
    · rw [h.2]; rfl
    · rw [h.2.2.2]; rfl
  · rw [(hev _).2.1]
    rcases UpdateRolloutStatus_spec j.capsuleID j.rolloutID v
      { rs with ScheduledAt := some (w.now + 3), Message := e.msg } w with h | h
    · left; rw [h.2]; rfl
    · right; rw [h.2.2.2]; unfold TurnWrote; exact ⟨h.2.2.1, rfl⟩

/-- What a turn does to the repository after its loads: the capsule rows and
the clock stay; the rollout rows stay, or the row of the job, found at the
loaded version, gets a status whose state is the loaded state or its
successor. -/
theorem Run_turn_spec (ctx : Ctx) (j : rolloutJob) (c : Capsule) (rc : RolloutConfig)
    (oldRS : Status) (v : Nat) (w : World) :
    (Run_turn ctx j c rc oldRS v w).2.capsules = w.capsules ∧
    (Run_turn ctx j c rc oldRS v w).2.now = w.now ∧
    ((Run_turn ctx j c rc oldRS v w).2.rollouts = w.rollouts ∨
      ∃ st, TurnWrote j v w.rollouts (Run_turn ctx j c rc oldRS v w).2.rollouts st ∧
        (st.State = oldRS.State ∨ st.State = nextState oldRS.State)) := by
  unfold Run_turn
  have hd := durable_fields (run_durable j c rc oldRS v w)
  have hst := run_state j c rc oldRS v w
  have hat := run_error_unchanged j c rc oldRS v w
  rcases hrun : run j c rc oldRS v w with ⟨⟨rs, err⟩, w1⟩
  rw [hrun] at hd hst hat
  simp only [] at hd hst hat ⊢
  obtain ⟨hc, hr, -, hn⟩ := hd
  split
  · -- the status is unchanged
    next heq =>
    rcases UpdateRolloutStatus_spec j.capsuleID j.rolloutID v
      { rs with ScheduledAt := some (w1.now + 3) } w1 with h | h
    · rcases hu : UpdateRolloutStatus j.capsuleID j.rolloutID v
        { rs with ScheduledAt := some (w1.now + 3) } w1 with ⟨ue, w2⟩
      rw [hu] at h
      cases ue with
      | none => exact absurd rfl h.1
      | some e =>
        simp only [] at h ⊢
        rw [h.2]
        exact ⟨hc, hn, Or.inl hr⟩
    · rcases hu : UpdateRolloutStatus j.capsuleID j.rolloutID v
        { rs with ScheduledAt := some (w1.now + 3) } w1 with ⟨ue, w2⟩
      rw [hu] at h
      obtain ⟨hnone, -, hfound, hw⟩ := h
      simp only [] at hnone hw
      subst hnone
      simp only []
      have hq := Run_queue_frame ctx j { rs with ScheduledAt := some (w1.now + 3) } err w2
      rw [hq.1, hq.2.1, hq.2.2.1, hw]
      refine ⟨hc, hn, Or.inr ⟨{ rs with ScheduledAt := some (w1.now + 3) }, ?_, ?_⟩⟩
      unfold TurnWrote
      refine ⟨?_, ?_⟩
      · rw [← hr]; exact hfound
      · show setStatus w1.rollouts _ _ _ = _
        rw [hr]
      · left; rw [heq]
  · -- the status is changed: the dispatch returned no error
    next hneq =>
    cases err with
    | some e => exact absurd (hat (by simp)) hneq
    | none =>
      simp only [IsInvalidArgument, Bool.false_eq_true, if_false]
      unfold updateContinue
      simp only []
      generalize hrs2 : (if isRolloutTerminated rs = true then { rs with ScheduledAt := none }
        else { rs with ScheduledAt := some w1.now }) = rs2
      have hrs2s : rs2.State = rs.State := by
        rw [← hrs2]; split <;> rfl
      have hmono : rs2.State = oldRS.State ∨ rs2.State = nextState oldRS.State := by
        rw [hrs2s]; exact hst
      rcases UpdateRolloutStatus_spec j.capsuleID j.rolloutID v rs2 w1 with h | h
      · rcases hu : UpdateRolloutStatus j.capsuleID j.rolloutID v rs2 w1 with ⟨ue, w2⟩
        rw [hu] at h
        cases ue with
        | none => exact absurd rfl h.1
        | some e =>
          simp only [] at h ⊢
          have hw2 : w2 = w1.tick := h.2
          have hue := updateError_spec j rc rs2 v e w2
          rcases hue2 : updateError j rc rs2 v e w2 with ⟨rs3, w3⟩
          rw [hue2] at hue
          simp only [] at hue ⊢
          have hq := Run_queue_frame ctx j rs3 (some e) w3
          rw [hq.1, hq.2.1, hq.2.2.1, hue.2.1, hue.2.2.1, hw2]
          refine ⟨hc, hn, ?_⟩
          rcases hue.2.2.2 with h3 | h3
          · left; rw [h3, hw2]; exact hr
          · right
            unfold TurnWrote at h3
            refine ⟨{ rs2 with ScheduledAt := some (w2.now + 3), Message := e.msg }, ?_, ?_⟩
            unfold TurnWrote
            refine ⟨?_, ?_⟩
            · have := h3.1; rw [hw2] at this; rw [← hr]; exact this
            · have := h3.2; rw [this, hw2]
              show setStatus w1.rollouts _ _ _ = _
              rw [hr]
            · exact hmono
      · rcases hu : UpdateRolloutStatus j.capsuleID j.rolloutID v rs2 w1 with ⟨ue, w2⟩
        rw [hu] at h
        obtain ⟨hnone, -, hfound, hw⟩ := h
        simp only [] at hnone hw
        subst hnone
        simp only []
        have hq := Run_queue_frame ctx j rs2 none w2
        rw [hq.1, hq.2.1, hq.2.2.1, hw]
        refine ⟨hc, hn, Or.inr ⟨rs2, ?_, hmono⟩⟩
        unfold TurnWrote
        refine ⟨?_, ?_⟩
        · rw [← hr]; exact hfound
        · show setStatus w1.rollouts _ _ _ = _
          rw [hr]

/-! ### Whole turns -/

theorem Get_durable (cid : UUID) (w : World) : (Get cid w).2.durable = w.durable := by
  unfold Get; split
  · rfl
  · split <;> rfl

theorem GetRollout_durable (cid : UUID) (rid : Nat) (w : World) :
    (GetRollout cid rid w).2.durable = w.durable := by
  unfold GetRollout; split
  · rfl
  · split <;> rfl

theorem GetRollout_ok (cid : UUID) (rid : Nat) (w w1 : World) (rc : RolloutConfig)
    (rs : Status) (v : Nat) (h : GetRollout cid rid w = (.ok (rc, rs, v), w1)) :
    w1 = w.tick ∧ w.nextFault = none ∧
    ∃ r, findRollout w.rollouts cid rid = some r ∧ rc = r.config ∧ rs = r.status ∧
      v = r.version := by
  unfold GetRollout at h
  split at h
  · simp at h
  · next hf =>
    split at h
    · next r hr =>
      simp only [Prod.mk.injEq, Except.ok.injEq] at h
      exact ⟨h.2.symm, hf, r, hr, h.1.1.symm, h.1.2.1.symm, h.1.2.2.symm⟩
    · simp at h

/-- The loads of a turn write nothing durable, and what they return is the
stored row of the job. -/
theorem Run_load_spec (j : rolloutJob) (w : World) :
    (Run_load j w).2.durable = w.durable ∧
    ∀ c rc rs v, (Run_load j w).1 = .ok (c, rc, rs, v) →
      ∃ r, findRollout w.rollouts j.capsuleID j.rolloutID = some r ∧ rc = r.config ∧
        rs = r.status ∧ v = r.version := by
  unfold Run_load
  have h1 := Get_durable j.capsuleID w
  split
  · next e w1 h => rw [h] at h1; exact ⟨h1, fun _ _ _ _ hh => by simp at hh⟩
  · next c w1 h =>
    rw [h] at h1
    have h2 := GetRollout_durable j.capsuleID j.rolloutID w1
    split
    · next e w2 ha => rw [ha] at h2; exact ⟨h2.trans h1, fun _ _ _ _ hh => by simp at hh⟩
    · next rc oldRS version w2 ha =>
      rw [ha] at h2
      refine ⟨h2.trans h1, fun c' rc' rs' v' hh => ?_⟩
      simp only [Except.ok.injEq, Prod.mk.injEq] at hh
      obtain ⟨-, -, r, hr, h3, h4, h5⟩ := GetRollout_ok _ _ _ _ _ _ _ ha
      rw [(durable_fields h1).2.1] at hr
      exact ⟨r, hr, hh.2.1 ▸ h3, hh.2.2.1 ▸ h4, hh.2.2.2 ▸ h5⟩

/-- What a whole turn does to the rollout rows: they stay, or the row of the
job gets a status whose state is the stored state or its successor. -/
theorem Run_rows (ctx : Ctx) (j : rolloutJob) (w : World) :
    (Run ctx j w).2.rollouts = w.rollouts ∨
    ∃ st r, findRollout w.rollouts j.capsuleID j.rolloutID = some r ∧
      (Run ctx j w).2.rollouts = setStatus w.rollouts j.capsuleID j.rolloutID st ∧
      (st.State = r.status.State ∨ st.State = nextState r.status.State) := by
  unfold Run
  simp only []
  have hl := Run_load_spec j w
  rcases hload : Run_load j w with ⟨res, w1⟩
  rw [hload] at hl
  simp only [] at hl
  have hd := durable_fields hl.1
  cases res with
  | error e => left; exact hd.2.1
  | ok x =>
    obtain ⟨c, rc, oldRS, v⟩ := x
    obtain ⟨r, hr, -, hrs, hv⟩ := hl.2 c rc oldRS v rfl
    simp only []
    rcases (Run_turn_spec (WithProjectID ctx j.projectID) j c rc oldRS v w1).2.2 with h | h
    · left; rw [h]; exact hd.2.1
    · right
      obtain ⟨st, hw, hs⟩ := h
      unfold TurnWrote at hw
      refine ⟨st, r, hr, ?_, ?_⟩
      · rw [hw.2, hd.2.1]
      · rw [← hrs]; exact hs

theorem later_nextState (s : RolloutState)
    (hs : s = .PENDING ∨ s = .PREPARING ∨ s = .DEPLOYING ∨ s = .OBSERVING) :
    Later s (nextState s) := by
  rcases hs with h | h | h | h <;> subst h
  · exact ⟨0, 1, rfl, rfl, by decide⟩
  · exact ⟨1, 2, rfl, rfl, by decide⟩
  · exact ⟨2, 3, rfl, rfl, by decide⟩
  · exact ⟨3, 4, rfl, rfl, by decide⟩

theorem later_asymm {s s' : RolloutState} (h : Later s s') : ¬ Later s' s := by
  rintro ⟨i, k, hi, hk, hlt⟩
  obtain ⟨i', k', hi', hk', hlt'⟩ := h
  rw [hi'] at hk; rw [hk'] at hi
  simp only [Option.some.injEq] at hi hk
  omega

theorem later_irrefl (s : RolloutState) : ¬ Later s s := by
  rintro ⟨i, k, hi, hk, hlt⟩
  rw [hi] at hk
  simp only [Option.some.injEq] at hk
  omega

/-- C9 (FSM monotonicity): for every rollout stored in a non-terminal state
`s` of PENDING, PREPARING, DEPLOYING, OBSERVING and every outcome of the
collaborators (every world, every fault list), the state stored after one
turn `Run` is `s` itself, a state later than `s` in the order PENDING,
PREPARING, DEPLOYING, OBSERVING, DONE, or a terminal state, and it is never
a state earlier than `s` in that order. -/
theorem Run_monotone (ctx : Ctx) (j : rolloutJob) (w : World) (r : RolloutRow)
    (hr : findRollout w.rollouts j.capsuleID j.rolloutID = some r)
    (hs : r.status.State = .PENDING ∨ r.status.State = .PREPARING ∨
      r.status.State = .DEPLOYING ∨ r.status.State = .OBSERVING) :
    ∃ r', findRollout (Run ctx j w).2.rollouts j.capsuleID j.rolloutID = some r' ∧
      (r'.status.State = r.status.State ∨ Later r.status.State r'.status.State ∨
        Terminal r'.status.State) ∧
      ¬ Later r'.status.State r.status.State := by
  rcases Run_rows ctx j w with h | ⟨st, r0, hr0, hrows, hst⟩
  · rw [h]
    exact ⟨r, hr, Or.inl rfl, later_irrefl _⟩
  · rw [hr] at hr0
    simp only [Option.some.injEq] at hr0
    subst hr0
    rw [hrows, findRollout_setStatus_same, hr]
    refine ⟨_, rfl, ?_, ?_⟩
    · rcases hst with h | h
      · left; exact h
      · right; left
        show Later r.status.State st.State
        rw [h]; exact later_nextState _ hs
    · show ¬ Later st.State r.status.State
      rcases hst with h | h
      · rw [h]; exact later_irrefl _
      · rw [h]; exact later_asymm (later_nextState _ hs)

/-! ### Concurrent turns and abort -/

theorem findRollout_append (rows : List RolloutRow) (x : RolloutRow) (cid : UUID) (rid : Nat)
    (r : RolloutRow) (h : findRollout rows cid rid = some r) :
    findRollout (rows ++ [x]) cid rid = some r := by
  unfold findRollout at *
  rw [List.find?_append, h]; rfl

/-- What `AbortRollout` does to the rollout rows: they stay and the call
fails, or the stored row gets its status with state ABORTED and no schedule. -/
theorem AbortRollout_rows (cid : UUID) (rid : Nat) (w : World) :
    ((AbortRollout cid rid w).1 ≠ none ∧ (AbortRollout cid rid w).2.rollouts = w.rollouts) ∨
    ∃ r, findRollout w.rollouts cid rid = some r ∧
      (AbortRollout cid rid w).2.rollouts =
        setStatus w.rollouts cid rid { r.status with State := .ABORTED, ScheduledAt := none } := by
  unfold AbortRollout
  have h1 := durable_fields (GetRollout_durable cid rid w)
  rcases hg : GetRollout cid rid w with ⟨res, w1⟩
  rw [hg] at h1
  cases res with
  | error e => left; exact ⟨by simp, h1.2.1⟩
  | ok x =>
    obtain ⟨rc, rs, v⟩ := x
    obtain ⟨hw1, -, r, hr, -, hrs, hv⟩ := GetRollout_ok _ _ _ _ _ _ _ hg
    simp only []
    rcases UpdateRolloutStatus_spec cid rid v { rs with State := .ABORTED, ScheduledAt := none }
      w1 with h | h
    · rcases hu : UpdateRolloutStatus cid rid v { rs with State := .ABORTED, ScheduledAt := none }
        w1 with ⟨ue, w2⟩
      rw [hu] at h
      cases ue with
      | none => exact absurd rfl h.1
      | some e =>
        left
        simp only [] at h ⊢
        rw [h.2]
        exact ⟨by simp, h1.2.1⟩
    · rcases hu : UpdateRolloutStatus cid rid v { rs with State := .ABORTED, ScheduledAt := none }
        w1 with ⟨ue, w2⟩
      rw [hu] at h
      obtain ⟨hnone, -, -, hw⟩ := h
      simp only [] at hnone hw
      subst hnone
      right
      refine ⟨r, hr, ?_⟩
      simp only []
      rw [(durable_fields (CreateEvent_durable cid rid "rollout aborted" .Abort w2)).2.1, hw]
      show setStatus w1.rollouts _ _ _ = _
      rw [h1.2.1, hrs]

theorem Update_rollouts (c : Capsule) (w : World) : (Update c w).2.rollouts = w.rollouts := by
  unfold Update; split
  · rfl
  · split <;> rfl

theorem queueRolloutJob_rollouts (ctx : Ctx) (cid : UUID) (rid : Nat) (ts : Time) (w : World) :
    (queueRolloutJob ctx cid rid ts w).2.rollouts = w.rollouts := by
  unfold queueRolloutJob; split <;> rfl

theorem GetAuthor_durable (ctx : Ctx) (w : World) : (GetAuthor ctx w).2.durable = w.durable := by
  unfold GetAuthor; split <;> rfl

theorem newRollout_base_durable (cid : UUID) (c : Capsule) (w : World) :
    (newRollout_base cid c w).2.durable = w.durable := by
  unfold newRollout_base
  split
  · have h1 := GetRollout_durable cid c.CurrentRollout w
    split
    · next e w1 h => rw [h] at h1; exact h1
    · next pRC ps v w1 h => rw [h] at h1; split <;> exact h1
  · rfl

/-- What `newRollout` does to the rollout rows: they stay, or one row is
appended. -/
theorem newRollout_rows (ctx : Ctx) (cid : UUID) (cs : List Change) (w : World) :
    (newRollout ctx cid cs w).2.rollouts = w.rollouts ∨
    ∃ row, (newRollout ctx cid cs w).2.rollouts = w.rollouts ++ [row] := by
  unfold newRollout
  have h1 := durable_fields (Get_durable cid w)
  split
  · next e w1 h => rw [h] at h1; left; exact h1.2.1
  · next c w1 h =>
    rw [h] at h1
    have h2 := durable_fields (newRollout_base_durable cid c w1)
    split
    · next e w2 ha => rw [ha] at h2; left; exact h2.2.1.trans h1.2.1
    · next rc w2 ha =>
      rw [ha] at h2
      simp only []
      have h3 := durable_fields (GetAuthor_durable ctx w2)
      split
      · next e w3 hb => rw [hb] at h3; left; exact h3.2.1.trans (h2.2.1.trans h1.2.1)
      · next author w3 hb =>
        rw [hb] at h3
        have h123 : w3.rollouts = w.rollouts := h3.2.1.trans (h2.2.1.trans h1.2.1)
        split
        · left; exact h123
        · next rc2 hc =>
          have h4 := durable_fields (GetBuild_durable cid rc2.BuildId w3)
          split
          · next e w4 hd => rw [hd] at h4; left; exact h4.2.1.trans h123
          · next b w4 hd =>
            rw [hd] at h4
            have h1234 : w4.rollouts = w.rollouts := h4.2.1.trans h123
            split
            · next e w5 he =>
              unfold CreateRollout at he
              split at he
              · simp only [Prod.mk.injEq] at he; left; rw [← he.2]; exact h1234
              · simp at he
            · next rolloutID w5 he =>
              right
              have h5 : ∃ row, w5.rollouts = w.rollouts ++ [row] := by
                unfold CreateRollout at he
                split at he
                · simp at he
                · simp only [Prod.mk.injEq] at he
                  rw [← he.2]
                  exact ⟨_, by show w4.rollouts ++ _ = _; rw [h1234]⟩
              obtain ⟨row, hrow⟩ := h5
              refine ⟨row, ?_⟩
              have h6 := Update_rollouts { c with CurrentRollout := rolloutID } w5
              split
              · next e w6 hf => rw [hf] at h6; exact h6.trans hrow
              · next w6 hf =>
                rw [hf] at h6
                have h7 := queueRolloutJob_rollouts ctx cid rolloutID w2.now w6
                split
                · next e w7 hg => rw [hg] at h7; exact h7.trans (h6.trans hrow)
                · next w7 hg => rw [hg] at h7; exact h7.trans (h6.trans hrow)

/-- A status write on a stored row keeps every load consistent: the version
of the written row moves past every load of it. -/
theorem consistent_setStatus (rows : List RolloutRow) (cid cid' : UUID) (rid rid' : Nat)
    (st rs : Status) (v : Nat)
    (h : ∃ r, findRollout rows cid' rid' = some r ∧ v ≤ r.version ∧
      (v = r.version → rs = r.status)) :
    ∃ r, findRollout (setStatus rows cid rid st) cid' rid' = some r ∧ v ≤ r.version ∧
      (v = r.version → rs = r.status) := by
  obtain ⟨r, hr, hle, heq⟩ := h
  by_cases hk : cid' = cid ∧ rid' = rid
  · obtain ⟨h1, h2⟩ := hk
    subst h1; subst h2
    rw [findRollout_setStatus_same, hr]
    refine ⟨_, rfl, ?_, ?_⟩
    · show v ≤ r.version + 1
      omega
    · intro hv
      have : v = r.version + 1 := hv
      omega
  · rw [findRollout_setStatus_other _ _ _ _ _ _ hk]
    exact ⟨r, hr, hle, heq⟩

/-- Every step keeps the loads in flight consistent with the rows. -/
theorem Step.consistent {s s' : Sys} (h : Step s s') (hc : s.Consistent) : s'.Consistent := by
  cases h with
  | load f l w1 hl =>
    have hs := Run_load_spec l.j { s.world with faults := f }
    rw [hl] at hs
    have hrows : w1.rollouts = s.world.rollouts := (durable_fields hs.1).2.1
    obtain ⟨r, hr, -, hrs, hv⟩ := hs.2 _ _ _ _ rfl
    intro l' hl'
    simp only [List.mem_cons] at hl'
    show ∃ r, findRollout w1.rollouts _ _ = some r ∧ _
    rw [hrows]
    rcases hl' with h | h
    · subst h
      exact ⟨r, hr, by omega, fun _ => hrs⟩
    · exact hc l' h
  | turn f ctx l hl =>
    intro l' hl'
    have hl'' := hc l' hl'
    rcases (Run_turn_spec ctx l.j l.c l.rc l.oldRS l.version
      { s.world with faults := f }).2.2 with h | ⟨st, hw, -⟩
    · show ∃ r, findRollout (Run_turn _ _ _ _ _ _ _).2.rollouts _ _ = some r ∧ _
      rw [h]; exact hl''
    · show ∃ r, findRollout (Run_turn _ _ _ _ _ _ _).2.rollouts _ _ = some r ∧ _
      rw [hw.2]
      exact consistent_setStatus _ _ _ _ _ _ _ _ hl''
  | abort f cid rid =>
    intro l' hl'
    have hl'' := hc l' hl'
    rcases AbortRollout_rows cid rid { s.world with faults := f } with h | ⟨r, -, hw⟩
    · show ∃ r, findRollout (AbortRollout _ _ _).2.rollouts _ _ = some r ∧ _
      rw [h.2]; exact hl''
    · show ∃ r, findRollout (AbortRollout _ _ _).2.rollouts _ _ = some r ∧ _
      rw [hw]
      exact consistent_setStatus _ _ _ _ _ _ _ _ hl''
  | create f ctx cid cs =>
    intro l' hl'
    obtain ⟨r, hr, hle, heq⟩ := hc l' hl'
    rcases newRollout_rows ctx cid cs { s.world with faults := f } with h | ⟨row, h⟩
    · show ∃ r, findRollout (newRollout _ _ _ _).2.rollouts _ _ = some r ∧ _
      rw [h]; exact ⟨r, hr, hle, heq⟩
    · show ∃ r, findRollout (newRollout _ _ _ _).2.rollouts _ _ = some r ∧ _
      rw [h]
      exact ⟨r, findRollout_append _ _ _ _ _ hr, hle, heq⟩
  | env w1 hw =>
    intro l' hl'
    show ∃ r, findRollout w1.rollouts _ _ = some r ∧ _
    rw [hw]; exact hc l' hl'

theorem nextState_aborted : nextState .ABORTED = .ABORTED := rfl

/-- A step of a consistent system keeps an aborted row aborted. -/
theorem Step.aborted {s s' : Sys} (h : Step s s') (hc : s.Consistent) (cid : UUID) (rid : Nat)
    (hab : ∃ r, findRollout s.world.rollouts cid rid = some r ∧ r.status.State = .ABORTED) :
    ∃ r, findRollout s'.world.rollouts cid rid = some r ∧ r.status.State = .ABORTED := by
  obtain ⟨r, hr, hst⟩ := hab
  cases h with
  | load f l w1 hl =>
    have hs := Run_load_spec l.j { s.world with faults := f }
    rw [hl] at hs
    show ∃ r, findRollout w1.rollouts _ _ = some r ∧ _
    rw [(durable_fields hs.1).2.1]
    exact ⟨r, hr, hst⟩
  | turn f ctx l hl =>
    show ∃ r, findRollout (Run_turn _ _ _ _ _ _ _).2.rollouts _ _ = some r ∧ _
    rcases (Run_turn_spec ctx l.j l.c l.rc l.oldRS l.version
      { s.world with faults := f }).2.2 with h | ⟨st, hw, hmono⟩
    · rw [h]; exact ⟨r, hr, hst⟩
    · obtain ⟨⟨r1, hr1, hv1⟩, hrows⟩ := hw
      rw [hrows]
      by_cases hk : cid = l.j.capsuleID ∧ rid = l.j.rolloutID
      · obtain ⟨h1, h2⟩ := hk
        subst h1; subst h2
        have hr1' : findRollout s.world.rollouts l.j.capsuleID l.j.rolloutID = some r1 := hr1
        rw [hr] at hr1'
        simp only [Option.some.injEq] at hr1'
        subst hr1'
        obtain ⟨r2, hr2, -, heq⟩ := hc l hl
        rw [hr] at hr2
        simp only [Option.some.injEq] at hr2
        subst hr2
        have hold : l.oldRS.State = .ABORTED := by rw [heq hv1.symm]; exact hst
        rw [findRollout_setStatus_same, hr]
        refine ⟨_, rfl, ?_⟩
        show st.State = .ABORTED
        rcases hmono with h | h
        · rw [h, hold]
        · rw [h, hold]; rfl
      · rw [findRollout_setStatus_other _ _ _ _ _ _ hk]
        exact ⟨r, hr, hst⟩
  | abort f cid' rid' =>
    show ∃ r, findRollout (AbortRollout _ _ _).2.rollouts _ _ = some r ∧ _
    rcases AbortRollout_rows cid' rid' { s.world with faults := f } with h | ⟨r', -, hw⟩
    · rw [h.2]; exact ⟨r, hr, hst⟩
    · rw [hw]
      by_cases hk : cid = cid' ∧ rid = rid'
      · obtain ⟨h1, h2⟩ := hk
        subst h1; subst h2
        have hr' : findRollout s.world.rollouts cid rid = some r := hr
        rw [findRollout_setStatus_same]
        show ∃ r0, Option.map _ (findRollout s.world.rollouts cid rid) = some r0 ∧ _
        rw [hr']
        exact ⟨_, rfl, rfl⟩
      · rw [findRollout_setStatus_other _ _ _ _ _ _ hk]
        exact ⟨r, hr, hst⟩
  | create f ctx cid' cs =>
    show ∃ r, findRollout (newRollout _ _ _ _).2.rollouts _ _ = some r ∧ _
    rcases newRollout_rows ctx cid' cs { s.world with faults := f } with h | ⟨row, h⟩
    · rw [h]; exact ⟨r, hr, hst⟩
    · rw [h]; exact ⟨r, findRollout_append _ _ _ _ _ hr, hst⟩
  | env w1 hw =>
    show ∃ r, findRollout w1.rollouts _ _ = some r ∧ _
    rw [hw]; exact ⟨r, hr, hst⟩

theorem steps_consistent {s s' : Sys} (h : Relation.ReflTransGen Step s s')
    (hc : s.Consistent) : s'.Consistent := by
  induction h with
  | refl => exact hc
  | tail _ hstep ih => exact hstep.consistent ih

theorem steps_aborted {s s' : Sys} (h : Relation.ReflTransGen Step s s') (hc : s.Consistent)
    (cid : UUID) (rid : Nat)
    (hab : ∃ r, findRollout s.world.rollouts cid rid = some r ∧ r.status.State = .ABORTED) :
    ∃ r, findRollout s'.world.rollouts cid rid = some r ∧ r.status.State = .ABORTED := by
  induction h with
  | refl => exact hab
  | tail hpre hstep ih => exact hstep.aborted (steps_consistent hpre hc) cid rid ih

/-- C8 (abort is sticky): over the repository that rejects status writes
carrying a stale version, start from any world with no turn in flight and
run any steps (loads of turns, the rest of turns, aborts, new rollouts,
changes of the environment, each with arbitrary faults).  Once
`AbortRollout` has succeeded on a rollout, after any further steps the stored
state of that rollout is ABORTED; the further steps include the rest of a
turn whose loads were done before the abort. -/
theorem abort_sticky (s0 s1 s2 : Sys) (f : List (Option Err)) (capsuleID : UUID)
    (rolloutID : Nat)
    (h0 : s0.loaded = [])
    (h01 : Relation.ReflTransGen Step s0 s1)
    (hab : (AbortRollout capsuleID rolloutID { s1.world with faults := f }).1 = none)
    (h12 : Relation.ReflTransGen Step
      ⟨(AbortRollout capsuleID rolloutID { s1.world with faults := f }).2, s1.loaded⟩ s2) :
    ∃ r, findRollout s2.world.rollouts capsuleID rolloutID = some r ∧
      r.status.State = .ABORTED := by
  have hc0 : s0.Consistent := by
    intro l hl; rw [h0] at hl; simp at hl
  have hc1 : s1.Consistent := steps_consistent h01 hc0
  have hstep : Step s1
      ⟨(AbortRollout capsuleID rolloutID { s1.world with faults := f }).2, s1.loaded⟩ :=
    Step.abort s1 f capsuleID rolloutID
  have hc1' := hstep.consistent hc1
  refine steps_aborted h12 hc1' capsuleID rolloutID ?_
  rcases AbortRollout_rows capsuleID rolloutID { s1.world with faults := f } with h | ⟨r, hr, hw⟩
  · exact absurd hab h.1
  · show ∃ r, findRollout (AbortRollout _ _ _).2.rollouts _ _ = some r ∧ _
    rw [hw, findRollout_setStatus_same]
    have hr' : findRollout s1.world.rollouts capsuleID rolloutID = some r := hr
    rw [hr']
    exact ⟨_, rfl, rfl⟩

/-! ### `newRollout` -/

theorem isRolloutTerminated_iff (rs : Status) :
    isRolloutTerminated rs = true ↔ Terminal rs.State := by
  unfold isRolloutTerminated Terminal
  cases rs.State <;> simp

theorem Get_eq (cid : UUID) (w : World) (c : Capsule) (hf : w.nextFault = none)
    (hc : findCapsule w cid = some c) : Get cid w = (.ok c, w.tick) := by
  unfold findCapsule at hc
  unfold Get
  rw [hf, hc]

theorem GetRollout_eq (cid : UUID) (rid : Nat) (w : World) (r : RolloutRow)
    (hf : w.nextFault = none) (hr : findRollout w.rollouts cid rid = some r) :
    GetRollout cid rid w = (.ok (r.config, r.status, r.version), w.tick) := by
  unfold GetRollout
  rw [hf, hr]

theorem GetAuthor_eq (ctx : Ctx) (w : World) (hf : w.nextFault = none) :
    GetAuthor ctx w = (.ok ctx.author, w.tick) := by
  unfold GetAuthor
  rw [hf]

theorem Get_ok (cid : UUID) (w w1 : World) (c : Capsule) (h : Get cid w = (.ok c, w1)) :
    w1 = w.tick ∧ w.nextFault = none ∧ findCapsule w cid = some c := by
  unfold Get at h
  unfold findCapsule
  split at h
  · simp at h
  · next hf =>
    split at h
    · next c' hc =>
      simp only [Prod.mk.injEq, Except.ok.injEq] at h
      exact ⟨h.2.symm, hf, h.1 ▸ hc⟩
    · simp at h

theorem nextFault_mem {w : World} {e : Err} (h : w.nextFault = some e) : some e ∈ w.faults := by
  unfold World.nextFault at h
  split at h
  · simp at h
  · next f fs hf => rw [hf, h]; exact List.mem_cons_self _ _

theorem tick_faults_sub (w : World) : ∀ x ∈ w.tick.faults, x ∈ w.faults := by
  intro x hx
  exact List.mem_of_mem_tail hx

theorem Benign.mono {w w' : World} {e : Err} (h : Benign w' e)
    (hsub : ∀ x ∈ w'.faults, x ∈ w.faults) : Benign w e := by
  rcases h with h | h
  · exact Or.inl (hsub _ h)
  · exact Or.inr h

theorem Get_benign (cid : UUID) (w : World) :
    (∀ e, (Get cid w).1 = .error e → Benign w e) ∧
    (∀ x ∈ (Get cid w).2.faults, x ∈ w.faults) := by
  unfold Get
  split
  · next e hf =>
    refine ⟨fun e' h => ?_, tick_faults_sub w⟩
    simp only [Except.error.injEq] at h
    exact Or.inl (h ▸ nextFault_mem hf)
  · split
    · exact ⟨fun e' h => by simp at h, tick_faults_sub w⟩
    · refine ⟨fun e' h => ?_, tick_faults_sub w⟩
      simp only [Except.error.injEq] at h
      exact Or.inr (by rw [← h]; decide)

theorem GetRollout_benign (cid : UUID) (rid : Nat) (w : World) :
    (∀ e, (GetRollout cid rid w).1 = .error e → Benign w e) ∧
    (∀ x ∈ (GetRollout cid rid w).2.faults, x ∈ w.faults) := by
  unfold GetRollout
  split
  · next e hf =>
    refine ⟨fun e' h => ?_, tick_faults_sub w⟩
    simp only [Except.error.injEq] at h
    exact Or.inl (h ▸ nextFault_mem hf)
  · split
    · exact ⟨fun e' h => by simp at h, tick_faults_sub w⟩
    · refine ⟨fun e' h => ?_, tick_faults_sub w⟩
      simp only [Except.error.injEq] at h
      exact Or.inr (by rw [← h]; decide)

theorem GetAuthor_benign (ctx : Ctx) (w : World) :
    (∀ e, (GetAuthor ctx w).1 = .error e → Benign w e) ∧
    (∀ x ∈ (GetAuthor ctx w).2.faults, x ∈ w.faults) := by
  unfold GetAuthor
  split
  · next e hf =>
    refine ⟨fun e' h => ?_, tick_faults_sub w⟩
    simp only [Except.error.injEq] at h
    exact Or.inl (h ▸ nextFault_mem hf)
  · exact ⟨fun e' h => by simp at h, tick_faults_sub w⟩

theorem GetBuild_benign (cid : UUID) (b : String) (w : World) :
    (∀ e, (GetBuild cid b w).1 = .error e → Benign w e) ∧
    (∀ x ∈ (GetBuild cid b w).2.faults, x ∈ w.faults) := by
  unfold GetBuild
  split
  · next e hf =>
    refine ⟨fun e' h => ?_, tick_faults_sub w⟩
    simp only [Except.error.injEq] at h
    exact Or.inl (h ▸ nextFault_mem hf)
  · split
    · exact ⟨fun e' h => by simp at h, tick_faults_sub w⟩
    · refine ⟨fun e' h => ?_, tick_faults_sub w⟩
      simp only [Except.error.injEq] at h
      exact Or.inr (by rw [← h]; decide)

theorem CreateRollout_benign (cid : UUID) (rc : RolloutConfig) (rs : Status) (w : World) :
    (∀ e, (CreateRollout cid rc rs w).1 = .error e → Benign w e) ∧
    (∀ x ∈ (CreateRollout cid rc rs w).2.faults, x ∈ w.faults) := by
  unfold CreateRollout
  split
  · next e hf =>
    refine ⟨fun e' h => ?_, tick_faults_sub w⟩
    simp only [Except.error.injEq] at h
    exact Or.inl (h ▸ nextFault_mem hf)
  · exact ⟨fun e' h => by simp at h, tick_faults_sub w⟩

theorem Update_benign (c : Capsule) (w : World) :
    (∀ e, (Update c w).1 = some e → Benign w e) ∧
    (∀ x ∈ (Update c w).2.faults, x ∈ w.faults) := by
  unfold Update
  split
  · next e hf =>
    refine ⟨fun e' h => ?_, tick_faults_sub w⟩
    simp only [Option.some.injEq] at h
    exact Or.inl (h ▸ nextFault_mem hf)
  · split
    · exact ⟨fun e' h => by simp at h, tick_faults_sub w⟩
    · refine ⟨fun e' h => ?_, tick_faults_sub w⟩
      simp only [Option.some.injEq] at h
      exact Or.inr (by rw [← h]; decide)

theorem queueRolloutJob_benign (ctx : Ctx) (cid : UUID) (rid : Nat) (ts : Time) (w : World) :
    ∀ e, (queueRolloutJob ctx cid rid ts w).1 = some e → Benign w e := by
  intro e h
  unfold queueRolloutJob GetProjectID at h
  split at h
  · next e' he =>
    split at he
    · simp at he
    · simp only [Except.error.injEq] at he
      simp only [Option.some.injEq] at h
      exact Or.inr (by rw [← h, ← he]; decide)
  · simp at h

theorem applyChanges_error (cs : List Change) (rc : RolloutConfig) (e : Err)
    (h : applyChanges cs rc = .error e) : e.kind = .InvalidArgument := by
  induction cs generalizing rc with
  | nil => simp [applyChanges] at h
  | cons c rest ih =>
    unfold applyChanges at h
    split at h
    · exact ih _ h
    · exact ih _ h
    · exact ih _ h
    · exact ih _ h
    · exact ih _ h
    · simp only [Except.error.injEq] at h
      rw [← h]

/-- The start of `newRollout` fails with a benign error, or with the
in-progress error on a stored current rollout that is not terminated. -/
theorem newRollout_base_error (cid : UUID) (c : Capsule) (w : World) (e : Err)
    (h : (newRollout_base cid c w).1 = .error e) :
    Benign w e ∨ (c.CurrentRollout ≠ 0 ∧
      ∃ r, findRollout w.rollouts cid c.CurrentRollout = some r ∧ ¬ Terminal r.status.State) := by
  unfold newRollout_base at h
  split at h
  · next hcur =>
    have hb := GetRollout_benign cid c.CurrentRollout w
    rcases hg : GetRollout cid c.CurrentRollout w with ⟨res, w1⟩
    rw [hg] at h hb
    cases res with
    | error e' =>
      simp only [Except.error.injEq] at h
      exact Or.inl (hb.1 e (by rw [h]))
    | ok x =>
      obtain ⟨pRC, ps, v⟩ := x
      simp only [] at h
      split at h
      · next hnt =>
        right
        obtain ⟨-, -, r, hr, -, hps, -⟩ := GetRollout_ok _ _ _ _ _ _ _ hg
        refine ⟨by simpa using hcur, r, hr, ?_⟩
        rw [← hps, ← isRolloutTerminated_iff]
        simpa using hnt
      · simp at h
  · simp at h

theorem newRollout_base_sub (cid : UUID) (c : Capsule) (w : World) :
    ∀ x ∈ (newRollout_base cid c w).2.faults, x ∈ w.faults := by
  unfold newRollout_base
  split
  · have hb := (GetRollout_benign cid c.CurrentRollout w).2
    split
    · next e w1 h => rw [h] at hb; exact hb
    · next pRC ps v w1 h => rw [h] at hb; split <;> exact hb
  · exact fun x hx => hx

/-- Every error `newRollout` returns is benign, or the stored current rollout
of the capsule is not terminated. -/
theorem newRollout_error (ctx : Ctx) (cid : UUID) (cs : List Change) (w : World) (e : Err)
    (h : (newRollout ctx cid cs w).1 = .error e) :
    Benign w e ∨ ∃ c r, findCapsule w cid = some c ∧ c.CurrentRollout ≠ 0 ∧
      findRollout w.rollouts cid c.CurrentRollout = some r ∧ ¬ Terminal r.status.State := by
  unfold newRollout at h
  have b1 := Get_benign cid w
  rcases h1 : Get cid w with ⟨res1, w1⟩
  rw [h1] at h b1
  cases res1 with
  | error e1 =>
    simp only [Except.error.injEq] at h
    exact Or.inl (b1.1 e (by rw [h]))
  | ok c =>
    obtain ⟨hw1, -, hc⟩ := Get_ok _ _ _ _ h1
    simp only [] at h
    have b2 := newRollout_base_error cid c w1
    have s2 := newRollout_base_sub cid c w1
    rcases h2 : newRollout_base cid c w1 with ⟨res2, w2⟩
    rw [h2] at h b2 s2
    have sub2 : ∀ x ∈ w2.faults, x ∈ w.faults := fun x hx => b1.2 x (s2 x hx)
    cases res2 with
    | error e2 =>
      simp only [Except.error.injEq] at h
      rcases b2 e (by rw [h]) with hb | ⟨hcur, r, hr, hnt⟩
      · exact Or.inl (hb.mono b1.2)
      · right
        refine ⟨c, r, hc, hcur, ?_, hnt⟩
        rw [hw1] at hr; exact hr
    | ok rc =>
      simp only [] at h
      have b3 := GetAuthor_benign ctx w2
      rcases h3 : GetAuthor ctx w2 with ⟨res3, w3⟩
      rw [h3] at h b3
      have sub3 : ∀ x ∈ w3.faults, x ∈ w.faults := fun x hx => sub2 x (b3.2 x hx)
      cases res3 with
      | error e3 =>
        simp only [Except.error.injEq] at h
        exact Or.inl ((b3.1 e (by rw [h])).mono sub2)
      | ok author =>
        simp only [] at h
        split at h
        · next e4 h4 =>
          simp only [Except.error.injEq] at h
          exact Or.inl (Or.inr (by rw [← h, applyChanges_error _ _ _ h4]; decide))
        · next rc2 h4 =>
          have b5 := GetBuild_benign cid rc2.BuildId w3
          rcases h5 : GetBuild cid rc2.BuildId w3 with ⟨res5, w5⟩
          rw [h5] at h b5
          have sub5 : ∀ x ∈ w5.faults, x ∈ w.faults := fun x hx => sub3 x (b5.2 x hx)
          cases res5 with
          | error e5 =>
            simp only [Except.error.injEq] at h
            exact Or.inl ((b5.1 e (by rw [h])).mono sub3)
          | ok b =>
            simp only [] at h
            have b6 := CreateRollout_benign cid rc2
              { State := .PENDING, Message := "", UpdatedAt := some w2.now,
                ScheduledAt := some w2.now, RigServiceAccount := none } w5
            rcases h6 : CreateRollout cid rc2
              { State := .PENDING, Message := "", UpdatedAt := some w2.now,
                ScheduledAt := some w2.now, RigServiceAccount := none } w5 with ⟨res6, w6⟩
            rw [h6] at h b6
            have sub6 : ∀ x ∈ w6.faults, x ∈ w.faults := fun x hx => sub5 x (b6.2 x hx)
            cases res6 with
            | error e6 =>
              simp only [Except.error.injEq] at h
              exact Or.inl ((b6.1 e (by rw [h])).mono sub5)
            | ok rolloutID =>
              simp only [] at h
              have b7 := Update_benign { c with CurrentRollout := rolloutID } w6
              rcases h7 : Update { c with CurrentRollout := rolloutID } w6 with ⟨res7, w7⟩
              rw [h7] at h b7
              have sub7 : ∀ x ∈ w7.faults, x ∈ w.faults := fun x hx => sub6 x (b7.2 x hx)
              cases res7 with
              | some e7 =>
                simp only [Except.error.injEq] at h
                exact Or.inl ((b7.1 e (by rw [h])).mono sub6)
              | none =>
                simp only [] at h
                have b8 := queueRolloutJob_benign ctx cid rolloutID w2.now w7
                rcases h8 : queueRolloutJob ctx cid rolloutID w2.now w7 with ⟨res8, w8⟩
                rw [h8] at h b8
                cases res8 with
                | some e8 =>
                  simp only [Except.error.injEq] at h
                  exact Or.inl ((b8 e (by rw [h])).mono sub7)
                | none => simp at h

/-- C3 (double rollout): (1) for every capsule that loads with a non-zero
`current_rollout` whose rollout loads in a state outside DONE, FAILED,
ABORTED, and for every list of changes, `newRollout` fails with the
FailedPrecondition error "rollout already in progress", creates no rollout,
leaves the capsule rows (so `current_rollout`) unchanged and enqueues no job;
(2) when the stored current rollout is terminated, or there is none, this
error is never returned, unless a collaborator itself fails with it. -/
theorem newRollout_in_progress (ctx : Ctx) (capsuleID : UUID) (cs : List Change) (w : World) :
    (∀ c r, w.calm 2 → findCapsule w capsuleID = some c → c.CurrentRollout ≠ 0 →
      findRollout w.rollouts capsuleID c.CurrentRollout = some r →
      ¬ Terminal r.status.State →
      (newRollout ctx capsuleID cs w).1 = .error inProgress ∧
      (newRollout ctx capsuleID cs w).2.rollouts = w.rollouts ∧
      (newRollout ctx capsuleID cs w).2.capsules = w.capsules ∧
      (newRollout ctx capsuleID cs w).2.queue = w.queue) ∧
    ((∀ f ∈ w.faults, f ≠ some inProgress) →
      (∀ c r, findCapsule w capsuleID = some c → c.CurrentRollout ≠ 0 →
        findRollout w.rollouts capsuleID c.CurrentRollout = some r →
        Terminal r.status.State) →
      (newRollout ctx capsuleID cs w).1 ≠ .error inProgress) := by
  constructor
  · intro c r hcalm hc hcur hr hnt
    obtain ⟨hf1, hf2, -⟩ := hcalm
    have hnt' : isRolloutTerminated r.status = false := by
      rw [← Bool.not_eq_true, isRolloutTerminated_iff]; exact hnt
    have hbase : newRollout_base capsuleID c w.tick = (.error inProgress, w.tick.tick) := by
      unfold newRollout_base
      have : (c.CurrentRollout != 0) = true := by simpa using hcur
      rw [if_pos this, GetRollout_eq capsuleID c.CurrentRollout w.tick r hf2 hr]
      simp only [hnt', Bool.not_false, if_true]
      rfl
    have hres : newRollout ctx capsuleID cs w = (.error inProgress, w.tick.tick) := by
      unfold newRollout
      rw [Get_eq capsuleID w c hf1 hc]
      simp only [hbase]
    rw [hres]
    exact ⟨rfl, rfl, rfl, rfl⟩
  · intro hfaults hterm hres
    rcases newRollout_error ctx capsuleID cs w inProgress hres with hb | ⟨c, r, hc, hcur, hr, hnt⟩
    · rcases hb with hb | hb
      · exact hfaults _ hb rfl
      · exact hb rfl
    · exact hnt (hterm c r hc hcur hr)

theorem applyChanges_unknown (cs : List Change) (rc : RolloutConfig)
    (h : ∃ x ∈ cs, x.recognized = false) :
    ∃ msg, applyChanges cs rc = .error ⟨.InvalidArgument, msg⟩ := by
  induction cs generalizing rc with
  | nil => obtain ⟨x, hx, -⟩ := h; simp at hx
  | cons c rest ih =>
    have hrest : c.recognized = true → ∃ x ∈ rest, x.recognized = false := by
      intro hc
      obtain ⟨x, hx, hxr⟩ := h
      rcases List.mem_cons.mp hx with h1 | h1
      · subst h1; rw [hc] at hxr; simp at hxr
      · exact ⟨x, h1, hxr⟩
    unfold applyChanges
    cases c with
    | Replicas n => exact ih _ (hrest rfl)
    | BuildId b => exact ih _ (hrest rfl)
    | Network n => exact ih _ (hrest rfl)
    | ContainerSettings s => exact ih _ (hrest rfl)
    | AutoAddRigServiceAccounts b => exact ih _ (hrest rfl)
    | SetConfigFile p c s => exact ⟨_, rfl⟩
    | unknown t => exact ⟨_, rfl⟩

/-- The start of `newRollout` on a capsule without a rollout in progress. -/
theorem newRollout_base_eq (cid : UUID) (c : Capsule) (w : World)
    (hterm : c.CurrentRollout ≠ 0 →
      ∃ r, findRollout w.rollouts cid c.CurrentRollout = some r ∧ Terminal r.status.State)
    (hcalm : c.CurrentRollout ≠ 0 → w.nextFault = none) :
    newRollout_base cid c w =
      (.ok (match findRollout w.rollouts cid c.CurrentRollout with
            | some r => if c.CurrentRollout = 0 then emptyConfig else r.config
            | none => emptyConfig),
        if c.CurrentRollout = 0 then w else w.tick) := by
  unfold newRollout_base
  by_cases hcur : c.CurrentRollout = 0
  · have : (c.CurrentRollout != 0) = false := by simp [hcur]
    rw [this]
    simp only [Bool.false_eq_true, if_false, hcur, if_true]
    split <;> rfl
  · have : (c.CurrentRollout != 0) = true := by simpa using hcur
    rw [if_pos this]
    obtain ⟨r, hr, ht⟩ := hterm hcur
    rw [GetRollout_eq cid c.CurrentRollout w r (hcalm hcur) hr]
    have ht' : isRolloutTerminated r.status = true := (isRolloutTerminated_iff _).mpr ht
    simp only [ht', Bool.not_true, Bool.false_eq_true, if_false, hr, hcur]

/-- The author lookup comes before the loop over the changes: on a capsule
without a rollout in progress whose loads succeed, a failing author lookup
ends `newRollout` with its own error, whatever the change list holds. -/
theorem newRollout_author_error (ctx : Ctx) (cid : UUID) (cs : List Change) (w : World)
    (c : Capsule) (e : Err) (hc : findCapsule w cid = some c)
    (hterm : c.CurrentRollout ≠ 0 →
      ∃ r, findRollout w.rollouts cid c.CurrentRollout = some r ∧ Terminal r.status.State)
    (hcalm : w.calm (if c.CurrentRollout = 0 then 1 else 2))
    (hf : (if c.CurrentRollout = 0 then w.tick else w.tick.tick).nextFault = some e) :
    (newRollout ctx cid cs w).1 = .error e := by
  have hf1 : w.nextFault = none := by
    split at hcalm
    · exact hcalm.1
    · exact hcalm.1
  unfold newRollout
  rw [Get_eq cid w c hf1 hc]
  simp only []
  rw [newRollout_base_eq cid c w.tick hterm (fun hne => by
    rw [if_neg hne] at hcalm; exact hcalm.2.1)]
  simp only []
  unfold GetAuthor
  rw [hf]

/-- C4 as amended (invalid change): for every change list that contains a
change of a kind other than Replicas, BuildId, Network, ContainerSettings,
AutoAddRigServiceAccounts, `newRollout` returns an error, creates no rollout,
leaves the capsule rows (so `current_rollout`) unchanged and enqueues no job,
whatever the collaborators do; on a capsule with no rollout in progress,
when the calls before the loop over the changes (the load of the capsule,
the load of its current rollout if it has one, the author lookup) do not
fail, that error is an InvalidArgument error; and when the loads succeed and
the author lookup, which comes before the loop, fails, the error returned is
the error of the author lookup. -/
theorem newRollout_unknown_change (ctx : Ctx) (capsuleID : UUID) (cs : List Change) (w : World)
    (hunk : ∃ x ∈ cs, x.recognized = false) :
    (∃ e, (newRollout ctx capsuleID cs w).1 = .error e) ∧
    (newRollout ctx capsuleID cs w).2.rollouts = w.rollouts ∧
    (newRollout ctx capsuleID cs w).2.capsules = w.capsules ∧
    (newRollout ctx capsuleID cs w).2.queue = w.queue ∧
    (∀ c, findCapsule w capsuleID = some c →
      (c.CurrentRollout ≠ 0 →
        ∃ r, findRollout w.rollouts capsuleID c.CurrentRollout = some r ∧
          Terminal r.status.State) →
      w.calm (if c.CurrentRollout = 0 then 2 else 3) →
      ∃ msg, (newRollout ctx capsuleID cs w).1 = .error ⟨.InvalidArgument, msg⟩) ∧
    (∀ c e, findCapsule w capsuleID = some c →
      (c.CurrentRollout ≠ 0 →
        ∃ r, findRollout w.rollouts capsuleID c.CurrentRollout = some r ∧
          Terminal r.status.State) →
      w.calm (if c.CurrentRollout = 0 then 1 else 2) →
      (if c.CurrentRollout = 0 then w.tick else w.tick.tick).nextFault = some e →
      (newRollout ctx capsuleID cs w).1 = .error e) := by
  have key : (∃ e, (newRollout ctx capsuleID cs w).1 = .error e) ∧
      (newRollout ctx capsuleID cs w).2.durable = w.durable := by
    unfold newRollout
    have h1 := Get_durable capsuleID w
    split
    · next e w1 h => rw [h] at h1; exact ⟨⟨e, rfl⟩, h1⟩
    · next c w1 h =>
      rw [h] at h1
      have h2 := newRollout_base_durable capsuleID c w1
      split
      · next e w2 ha => rw [ha] at h2; exact ⟨⟨e, rfl⟩, h2.trans h1⟩
      · next rc w2 ha =>
        rw [ha] at h2
        simp only []
        have h3 := GetAuthor_durable ctx w2
        split
        · next e w3 hb => rw [hb] at h3; exact ⟨⟨e, rfl⟩, h3.trans (h2.trans h1)⟩
        · next author w3 hb =>
          rw [hb] at h3
          split
          · next e _ => exact ⟨⟨e, rfl⟩, h3.trans (h2.trans h1)⟩
          · next rc2 hc =>
            obtain ⟨msg, hmsg⟩ := applyChanges_unknown cs _ hunk
            rw [hmsg] at hc
            simp at hc
  obtain ⟨hd1, hd2, hd3, -⟩ := durable_fields key.2
  refine ⟨key.1, hd2, hd1, hd3, ?_, fun c e hc hterm hcalm hf =>
    newRollout_author_error ctx capsuleID cs w c e hc hterm hcalm hf⟩
  intro c hc hterm hcalm
  have hf1 : w.nextFault = none := by
    split at hcalm
    · exact hcalm.1
    · exact hcalm.1
  unfold newRollout
  rw [Get_eq capsuleID w c hf1 hc]
  simp only []
  rw [newRollout_base_eq capsuleID c w.tick hterm (fun hne => by
    rw [if_neg hne] at hcalm; exact hcalm.2.1)]
  simp only []
  have hf3 : (if c.CurrentRollout = 0 then w.tick else w.tick.tick).nextFault = none := by
    split
    · next h0 => rw [if_pos h0] at hcalm; exact hcalm.2.1
    · next h0 => rw [if_neg h0] at hcalm; exact hcalm.2.2.1
  rw [GetAuthor_eq ctx _ hf3]
  simp only []
  obtain ⟨msg, hmsg⟩ := applyChanges_unknown cs
    { (match findRollout w.tick.rollouts capsuleID c.CurrentRollout with
        | some r => if c.CurrentRollout = 0 then emptyConfig else r.config
        | none => emptyConfig) with
      Changes := cs
      CreatedAt := some (if c.CurrentRollout = 0 then w.tick else w.tick.tick).now
      CreatedBy := some ctx.author } hunk
  exact ⟨msg, by rw [hmsg]⟩

theorem quiet_nextFault {w : World} (h : w.quiet) : w.nextFault = none := by
  unfold World.nextFault
  split
  · rfl
  · next f fs hf => exact h f (by rw [hf]; exact List.mem_cons_self _ _)

theorem quiet_tick {w : World} (h : w.quiet) : w.tick.quiet :=
  fun f hf => h f (tick_faults_sub w f hf)

theorem GetBuild_eq (cid : UUID) (bid : String) (w : World) (b : Build)
    (hf : w.nextFault = none)
    (hb : w.builds.find? (fun b => b.capsuleID == cid && b.BuildId == bid) = some b) :
    GetBuild cid bid w = (.ok b, w.tick) := by
  unfold GetBuild
  rw [hf, hb]

theorem CreateRollout_eq (cid : UUID) (rc : RolloutConfig) (rs : Status) (w : World)
    (hf : w.nextFault = none) :
    CreateRollout cid rc rs w =
      (.ok (nextRolloutID w.rollouts cid),
        { w.tick with
          rollouts := w.rollouts ++ [⟨cid, nextRolloutID w.rollouts cid, rc, rs, 0⟩] }) := by
  unfold CreateRollout
  rw [hf]

theorem findCapsule_id {w : World} {cid : UUID} {c : Capsule}
    (h : findCapsule w cid = some c) : c.CapsuleId = cid := by
  unfold findCapsule at h
  have := List.find?_some h
  simpa using this

theorem Update_eq (c : Capsule) (w : World) (c0 : Capsule) (hf : w.nextFault = none)
    (hc : findCapsule w c.CapsuleId = some c0) :
    Update c w =
      (none, { w.tick with
        capsules := w.capsules.map (fun x => if x.CapsuleId == c.CapsuleId then c else x) }) := by
  unfold Update
  rw [hf]
  have hany : (w.capsules.any (fun x => x.CapsuleId == c.CapsuleId)) = true := by
    unfold findCapsule at hc
    rw [List.any_eq_true]
    exact ⟨c0, List.mem_of_find?_eq_some hc, by simpa using List.find?_some hc⟩
  simp only [hany, if_true]

theorem find_replace (l : List Capsule) (cid : UUID) (c0 c : Capsule)
    (h : l.find? (fun x => x.CapsuleId == cid) = some c0) (hc : c.CapsuleId = cid) :
    (l.map (fun x => if x.CapsuleId == cid then c else x)).find?
      (fun x => x.CapsuleId == cid) = some c := by
  induction l with
  | nil => simp at h
  | cons a rest ih =>
    by_cases ha : (a.CapsuleId == cid) = true
    · simp [List.find?, ha, hc]
    · simp only [Bool.not_eq_true] at ha
      simp only [List.find?, ha] at h
      simp only [List.map_cons, ha, Bool.false_eq_true, if_false, List.find?]
      exact ih h

theorem foldr_max_le (l : List Nat) (x : Nat) (h : x ∈ l) : x ≤ l.foldr max 0 := by
  induction l with
  | nil => simp at h
  | cons a rest ih =>
    simp only [List.foldr_cons]
    rcases List.mem_cons.mp h with h1 | h1
    · subst h1; exact Nat.le_max_left _ _
    · exact Nat.le_trans (ih h1) (Nat.le_max_right _ _)

/-- The id `CreateRollout` assigns is above every id stored for the capsule. -/
theorem nextRolloutID_fresh (rows : List RolloutRow) (cid : UUID) (r : RolloutRow)
    (hr : r ∈ rows) (hc : r.capsuleID = cid) : r.rolloutID < nextRolloutID rows cid := by
  unfold nextRolloutID
  have : r.rolloutID ∈ (rows.filter (fun r => r.capsuleID == cid)).map (fun r => r.rolloutID) := by
    rw [List.mem_map]
    exact ⟨r, List.mem_filter.mpr ⟨hr, by simpa using hc⟩, rfl⟩
  have := foldr_max_le _ _ this
  omega

/-- The row `CreateRollout` appends is the one stored under the id it returns. -/
theorem findRollout_created (rows : List RolloutRow) (cid : UUID) (rc : RolloutConfig)
    (rs : Status) :
    findRollout (rows ++ [⟨cid, nextRolloutID rows cid, rc, rs, 0⟩]) cid
      (nextRolloutID rows cid) = some ⟨cid, nextRolloutID rows cid, rc, rs, 0⟩ := by
  unfold findRollout
  rw [List.find?_append]
  have hnone : rows.find?
      (fun r => r.capsuleID == cid && r.rolloutID == nextRolloutID rows cid) = none := by
    rw [List.find?_eq_none]
    intro r hr hk
    simp only [Bool.and_eq_true, beq_iff_eq] at hk
    have := nextRolloutID_fresh rows cid r hr hk.1
    omega
  rw [hnone]
  simp [List.find?]

theorem baseConfig_eq (w : World) (cid : UUID) (c : Capsule)
    (hc : findCapsule w cid = some c) :
    (match findRollout w.rollouts cid c.CurrentRollout with
      | some r => if c.CurrentRollout = 0 then emptyConfig else r.config
      | none => emptyConfig) = baseConfig w cid := by
  unfold baseConfig
  rw [hc]
  simp only []
  by_cases h0 : c.CurrentRollout = 0
  · simp only [h0, if_true]; split <;> rfl
  · simp only [h0, if_false]

/-- The start of `newRollout` on a capsule without a rollout in progress, when
no collaborator fails: it returns the base config of the specification. -/
theorem newRollout_base_quiet (cid : UUID) (c : Capsule) (w : World) (hq : w.quiet)
    (hc : findCapsule w cid = some c)
    (hterm : c.CurrentRollout ≠ 0 →
      ∃ r, findRollout w.rollouts cid c.CurrentRollout = some r ∧ Terminal r.status.State) :
    ∃ wb, newRollout_base cid c w.tick = (.ok (baseConfig w cid), wb) ∧ wb.quiet ∧
      wb.durable = w.durable ∧ wb.builds = w.builds ∧ wb.events = w.events := by
  have h := newRollout_base_eq cid c w.tick hterm (fun _ => quiet_nextFault (quiet_tick hq))
  rw [show w.tick.rollouts = w.rollouts from rfl, baseConfig_eq w cid c hc] at h
  refine ⟨_, h, ?_, ?_, ?_, ?_⟩
  · split
    · exact quiet_tick hq
    · exact quiet_tick (quiet_tick hq)
  · split <;> rfl
  · split <;> rfl
  · split <;> rfl

/-- C5 (successful creation): when no collaborator call fails, the capsule
is stored without a rollout in progress, the changes all apply (to the base
config stamped with the change list, the time and the author), the build of
the resulting config exists and the context carries a project id,
`newRollout` returns the id assigned by `CreateRollout`, appends exactly one
rollout row under that id whose status is PENDING with `updated_at` and
`scheduled_at` equal to the time of the call and no service-account binding,
makes that id the capsule's `current_rollout`, and adds one job for the
capsule and that id due at the same time; the event log is not written. -/
theorem newRollout_success (ctx : Ctx) (capsuleID : UUID) (cs : List Change) (w : World)
    (c : Capsule) (rc : RolloutConfig) (b : Build) (p : UUID)
    (hq : w.quiet)
    (hc : findCapsule w capsuleID = some c)
    (hterm : c.CurrentRollout ≠ 0 →
      ∃ r, findRollout w.rollouts capsuleID c.CurrentRollout = some r ∧
        Terminal r.status.State)
    (hrc : applyChanges cs
      { baseConfig w capsuleID with
        Changes := cs, CreatedAt := some w.now, CreatedBy := some ctx.author } = .ok rc)
    (hb : w.builds.find?
      (fun b => b.capsuleID == capsuleID && b.BuildId == rc.BuildId) = some b)
    (hp : ctx.projectID = some p) :
    (newRollout ctx capsuleID cs w).1 = .ok (nextRolloutID w.rollouts capsuleID) ∧
    (newRollout ctx capsuleID cs w).2.rollouts =
      w.rollouts ++ [⟨capsuleID, nextRolloutID w.rollouts capsuleID, rc,
        initialStatus w.now, 0⟩] ∧
    findRollout (newRollout ctx capsuleID cs w).2.rollouts capsuleID
        (nextRolloutID w.rollouts capsuleID) =
      some ⟨capsuleID, nextRolloutID w.rollouts capsuleID, rc, initialStatus w.now, 0⟩ ∧
    findCapsule (newRollout ctx capsuleID cs w).2 capsuleID =
      some { c with CurrentRollout := nextRolloutID w.rollouts capsuleID } ∧
    (newRollout ctx capsuleID cs w).2.queue =
      w.queue.filter (fun q => !(q.capsuleID == capsuleID &&
        q.rolloutID == nextRolloutID w.rollouts capsuleID)) ++
      [⟨p, capsuleID, nextRolloutID w.rollouts capsuleID, w.now⟩] ∧
    (newRollout ctx capsuleID cs w).2.events = w.events := by
  obtain ⟨wb, e2, hwbq, hwbd, hwbb, hwbe⟩ := newRollout_base_quiet capsuleID c w hq hc hterm
  obtain ⟨hcap, hrows, hqueue, hnow⟩ := durable_fields hwbd
  have e1 := Get_eq capsuleID w c (quiet_nextFault hq) hc
  have e3 := GetAuthor_eq ctx wb (quiet_nextFault hwbq)
  have q1 := quiet_tick hwbq
  have e5 := GetBuild_eq capsuleID rc.BuildId wb.tick b (quiet_nextFault q1)
    (by rw [show wb.tick.builds = wb.builds from rfl, hwbb]; exact hb)
  have q2 := quiet_tick q1
  have e6 := CreateRollout_eq capsuleID rc (initialStatus wb.now) wb.tick.tick
    (quiet_nextFault q2)
  have q3 := quiet_tick q2
  have hcid := findCapsule_id hc
  have hres : newRollout ctx capsuleID cs w =
      (.ok (nextRolloutID w.rollouts capsuleID),
        AddJob ⟨p, capsuleID, nextRolloutID w.rollouts capsuleID⟩ w.now
          { wb.tick.tick.tick.tick with
            rollouts := w.rollouts ++ [⟨capsuleID, nextRolloutID w.rollouts capsuleID, rc,
              initialStatus w.now, 0⟩]
            capsules := w.capsules.map (fun x => if x.CapsuleId == capsuleID
              then { c with CurrentRollout := nextRolloutID w.rollouts capsuleID } else x) }) := by
    unfold newRollout
    rw [e1]
    simp only [e2, e3]
    rw [hnow, hrc]
    simp only [e5]
    have e6' := e6
    unfold initialStatus at e6'
    rw [hnow] at e6'
    rw [e6']
    simp only []
    rw [show wb.tick.tick.rollouts = wb.rollouts from rfl, hrows]
    have e7 := Update_eq { c with CurrentRollout := nextRolloutID w.rollouts capsuleID }
      { wb.tick.tick.tick with
        rollouts := w.rollouts ++ [⟨capsuleID, nextRolloutID w.rollouts capsuleID, rc,
          { State := .PENDING, Message := "", UpdatedAt := some w.now,
            ScheduledAt := some w.now, RigServiceAccount := none }, 0⟩] } c
      (quiet_nextFault q3)
      (by
        show List.find? _ wb.capsules = some c
        rw [hcap]
        simp only [hcid]
        exact hc)
    rw [e7]
    simp only [hcid]
    unfold queueRolloutJob GetProjectID
    rw [hp]
    simp only []
    rw [show wb.tick.tick.tick.capsules = wb.capsules from rfl, hcap]
    rfl
  rw [hres]
  refine ⟨rfl, rfl, ?_, ?_, ?_, ?_⟩
  · exact findRollout_created w.rollouts capsuleID rc (initialStatus w.now)
  · show List.find? _ (List.map _ w.capsules) = _
    exact find_replace w.capsules capsuleID c _ hc hcid
  · show List.filter _ wb.queue ++ _ = _
    rw [hqueue]
  · show wb.events = w.events
    exact hwbe

/-- The loop over the changes leaves in each field the value of the last
change of its kind, or the value it started from, and touches no other
field. -/
theorem applyChanges_fields (cs : List Change) (rc0 rc : RolloutConfig)
    (h : applyChanges cs rc0 = .ok rc) :
    rc.Replicas = (lastReplicas cs).getD rc0.Replicas ∧
    rc.BuildId = (lastBuildId cs).getD rc0.BuildId ∧
    rc.Network = ((lastNetwork cs).map some).getD rc0.Network ∧
    rc.ContainerSettings = ((lastContainerSettings cs).map some).getD rc0.ContainerSettings ∧
    rc.AutoAddRigServiceAccounts = (lastAutoAdd cs).getD rc0.AutoAddRigServiceAccounts ∧
    rc.Changes = rc0.Changes ∧ rc.CreatedAt = rc0.CreatedAt ∧ rc.CreatedBy = rc0.CreatedBy := by
  induction cs generalizing rc0 with
  | nil =>
    simp only [applyChanges, Except.ok.injEq] at h
    subst h
    simp [lastReplicas, lastBuildId, lastNetwork, lastContainerSettings, lastAutoAdd]
  | cons c rest ih =>
    unfold applyChanges at h
    cases c with
    | Replicas n =>
      obtain ⟨h1, h2, h3, h4, h5, h6, h7, h8⟩ := ih _ h
      refine ⟨?_, h2, h3, h4, h5, h6, h7, h8⟩
      rw [h1]
      simp [lastReplicas, List.filterMap_cons, List.getLast?_cons]
    | BuildId b =>
      obtain ⟨h1, h2, h3, h4, h5, h6, h7, h8⟩ := ih _ h
      refine ⟨h1, ?_, h3, h4, h5, h6, h7, h8⟩
      rw [h2]
      simp [lastBuildId, List.filterMap_cons, List.getLast?_cons]
    | Network n =>
      obtain ⟨h1, h2, h3, h4, h5, h6, h7, h8⟩ := ih _ h
      refine ⟨h1, h2, ?_, h4, h5, h6, h7, h8⟩
      rw [h3]
      simp only [lastNetwork, List.filterMap_cons, List.getLast?_cons]
      cases (List.filterMap (fun c => match c with | .Network n => some n | _ => none)
        rest).getLast? <;> rfl
    | ContainerSettings s =>
      obtain ⟨h1, h2, h3, h4, h5, h6, h7, h8⟩ := ih _ h
      refine ⟨h1, h2, h3, ?_, h5, h6, h7, h8⟩
      rw [h4]
      simp only [lastContainerSettings, List.filterMap_cons, List.getLast?_cons]
      cases (List.filterMap (fun c => match c with | .ContainerSettings s => some s | _ => none)
        rest).getLast? <;> rfl
    | AutoAddRigServiceAccounts b =>
      obtain ⟨h1, h2, h3, h4, h5, h6, h7, h8⟩ := ih _ h
      refine ⟨h1, h2, h3, h4, ?_, h6, h7, h8⟩
      rw [h5]
      simp [lastAutoAdd, List.filterMap_cons, List.getLast?_cons]
    | SetConfigFile p c s => simp at h
    | unknown t => simp at h

theorem applyChanges_recognized (cs : List Change) (rc0 rc : RolloutConfig)
    (h : applyChanges cs rc0 = .ok rc) : ∀ x ∈ cs, x.recognized = true := by
  intro x hx
  by_contra hne
  obtain ⟨msg, hmsg⟩ := applyChanges_unknown cs rc0 ⟨x, hx, by simpa using hne⟩
  rw [hmsg] at h
  simp at h

theorem newRollout_base_ok (cid : UUID) (c : Capsule) (w w1 : World) (rc : RolloutConfig)
    (h : newRollout_base cid c w = (.ok rc, w1)) :
    rc = (match findRollout w.rollouts cid c.CurrentRollout with
          | some r => if c.CurrentRollout = 0 then emptyConfig else r.config
          | none => emptyConfig) := by
  unfold newRollout_base at h
  split at h
  · next hcur =>
    have hcur' : c.CurrentRollout ≠ 0 := by simpa using hcur
    rcases hg : GetRollout cid c.CurrentRollout w with ⟨res, w2⟩
    rw [hg] at h
    cases res with
    | error e => simp at h
    | ok x =>
      obtain ⟨pRC, ps, v⟩ := x
      obtain ⟨-, -, r, hr, hrc, -, -⟩ := GetRollout_ok _ _ _ _ _ _ _ hg
      simp only [] at h
      split at h
      · simp at h
      · simp only [Prod.mk.injEq, Except.ok.injEq] at h
        rw [hr]
        simp only [hcur', if_false]
        rw [← h.1, hrc]
  · next hcur =>
    have hcur' : c.CurrentRollout = 0 := by simpa using hcur
    simp only [Prod.mk.injEq, Except.ok.injEq] at h
    rw [← h.1]
    simp only [hcur', if_true]
    split <;> rfl

/-- What `newRollout` stores: nothing, and then it fails; or exactly one row,
under the next id of the capsule, with the config the changes give on the
stamped base config and with the initial status. -/
theorem newRollout_stored (ctx : Ctx) (cid : UUID) (cs : List Change) (w : World) :
    ((newRollout ctx cid cs w).2.rollouts = w.rollouts ∧
      ∀ id, (newRollout ctx cid cs w).1 ≠ .ok id) ∨
    ∃ rc, applyChanges cs
        { baseConfig w cid with
          Changes := cs, CreatedAt := some w.now, CreatedBy := some ctx.author } = .ok rc ∧
      (newRollout ctx cid cs w).2.rollouts =
        w.rollouts ++ [⟨cid, nextRolloutID w.rollouts cid, rc, initialStatus w.now, 0⟩] ∧
      ∀ id, (newRollout ctx cid cs w).1 = .ok id → id = nextRolloutID w.rollouts cid := by
  unfold newRollout
  have d1 := durable_fields (Get_durable cid w)
  rcases h1 : Get cid w with ⟨res1, w1⟩
  rw [h1] at d1
  cases res1 with
  | error e1 => exact Or.inl ⟨d1.2.1, fun id h => by simp at h⟩
  | ok c =>
    obtain ⟨hw1, -, hc⟩ := Get_ok _ _ _ _ h1
    simp only []
    have d2 := durable_fields (newRollout_base_durable cid c w1)
    rcases h2 : newRollout_base cid c w1 with ⟨res2, w2⟩
    rw [h2] at d2
    have hnow : w2.now = w.now := by rw [d2.2.2.2, hw1]; rfl
    have hrows2 : w2.rollouts = w.rollouts := by rw [d2.2.1, hw1]; rfl
    cases res2 with
    | error e2 => exact Or.inl ⟨hrows2, fun id h => by simp at h⟩
    | ok rc0 =>
      have hrc0 := newRollout_base_ok _ _ _ _ _ h2
      rw [hw1, show w.tick.rollouts = w.rollouts from rfl, baseConfig_eq w cid c hc] at hrc0
      simp only []
      have d3 := durable_fields (GetAuthor_durable ctx w2)
      rcases h3 : GetAuthor ctx w2 with ⟨res3, w3⟩
      rw [h3] at d3
      have hrows3 : w3.rollouts = w.rollouts := by rw [d3.2.1, hrows2]
      cases res3 with
      | error e3 => exact Or.inl ⟨hrows3, fun id h => by simp at h⟩
      | ok author =>
        have hauthor : author = ctx.author := by
          unfold GetAuthor at h3
          split at h3
          · simp at h3
          · simp only [Prod.mk.injEq, Except.ok.injEq] at h3; exact h3.1.symm
        simp only []
        rw [hrc0, hnow, hauthor]
        rcases h4 : applyChanges cs
          { baseConfig w cid with
            Changes := cs, CreatedAt := some w.now, CreatedBy := some ctx.author } with e4 | rc
        · exact Or.inl ⟨hrows3, fun id h => by simp at h⟩
        · simp only []
          have d5 := durable_fields (GetBuild_durable cid rc.BuildId w3)
          rcases h5 : GetBuild cid rc.BuildId w3 with ⟨res5, w5⟩
          rw [h5] at d5
          have hrows5 : w5.rollouts = w.rollouts := by rw [d5.2.1, hrows3]
          cases res5 with
          | error e5 => exact Or.inl ⟨hrows5, fun id h => by simp at h⟩
          | ok b =>
            simp only []
            rcases h6 : CreateRollout cid rc
              { State := .PENDING, Message := "", UpdatedAt := some w.now,
                ScheduledAt := some w.now, RigServiceAccount := none } w5 with ⟨res6, w6⟩
            cases res6 with
            | error e6 =>
              refine Or.inl ⟨?_, fun id h => by simp at h⟩
              unfold CreateRollout at h6
              split at h6
              · simp only [Prod.mk.injEq] at h6; rw [← h6.2]; exact hrows5
              · simp at h6
            | ok rolloutID =>
              have hcr : rolloutID = nextRolloutID w.rollouts cid ∧ w6.rollouts = w.rollouts ++
                  [⟨cid, nextRolloutID w.rollouts cid, rc, initialStatus w.now, 0⟩] := by
                unfold CreateRollout at h6
                split at h6
                · simp at h6
                · simp only [Prod.mk.injEq, Except.ok.injEq] at h6
                  rw [← h6.2, ← h6.1, hrows5]
                  exact ⟨rfl, rfl⟩
              refine Or.inr ⟨rc, rfl, ?_, ?_⟩
              · simp only []
                have h7r := Update_rollouts { c with CurrentRollout := rolloutID } w6
                rcases h7 : Update { c with CurrentRollout := rolloutID } w6 with ⟨res7, w7⟩
                rw [h7] at h7r
                cases res7 with
                | some e7 => exact h7r.trans hcr.2
                | none =>
                  simp only []
                  have h8r := queueRolloutJob_rollouts ctx cid rolloutID w.now w7
                  rcases h8 : queueRolloutJob ctx cid rolloutID w.now w7 with ⟨res8, w8⟩
                  rw [h8] at h8r
                  cases res8 with
                  | some e8 => exact h8r.trans (h7r.trans hcr.2)
                  | none => exact h8r.trans (h7r.trans hcr.2)
              · intro id h
                simp only [] at h
                rcases h7 : Update { c with CurrentRollout := rolloutID } w6 with ⟨res7, w7⟩
                rw [h7] at h
                cases res7 with
                | some e7 => simp at h
                | none =>
                  simp only [] at h
                  rcases h8 : queueRolloutJob ctx cid rolloutID w.now w7 with ⟨res8, w8⟩
                  rw [h8] at h
                  cases res8 with
                  | some e8 => simp at h
                  | none =>
                    simp only [Except.ok.injEq] at h
                    rw [← h]; exact hcr.1

/-- C6 (config of the new rollout): whenever `newRollout` stores a rollout or
returns an id (which it does only for lists of recognized changes), it has
appended exactly one row, and that row carries the config obtained from the
base config (the config of the capsule's current rollout when
`current_rollout` is not 0, else the config with `replicas = 1` and all other
fields empty) by applying the changes in list order: each of replicas, build
id, network, container settings and auto-add equals the value of the last
change of its kind in the list, or the base value when the list has no such
change; and the stored change list is the given list. -/
theorem newRollout_config (ctx : Ctx) (capsuleID : UUID) (cs : List Change) (w : World)
    (h : (newRollout ctx capsuleID cs w).2.rollouts ≠ w.rollouts ∨
      ∃ id, (newRollout ctx capsuleID cs w).1 = .ok id) :
    (∀ x ∈ cs, x.recognized = true) ∧
    ∃ rc st, (newRollout ctx capsuleID cs w).2.rollouts =
        w.rollouts ++ [⟨capsuleID, nextRolloutID w.rollouts capsuleID, rc, st, 0⟩] ∧
      (∀ id, (newRollout ctx capsuleID cs w).1 = .ok id →
        id = nextRolloutID w.rollouts capsuleID) ∧
      rc.Replicas = (lastReplicas cs).getD (baseConfig w capsuleID).Replicas ∧
      rc.BuildId = (lastBuildId cs).getD (baseConfig w capsuleID).BuildId ∧
      rc.Network = ((lastNetwork cs).map some).getD (baseConfig w capsuleID).Network ∧
      rc.ContainerSettings =
        ((lastContainerSettings cs).map some).getD (baseConfig w capsuleID).ContainerSettings ∧
      rc.AutoAddRigServiceAccounts =
        (lastAutoAdd cs).getD (baseConfig w capsuleID).AutoAddRigServiceAccounts ∧
      rc.Changes = cs := by
  rcases newRollout_stored ctx capsuleID cs w with ⟨hsame, hfail⟩ | ⟨rc, hrc, hrows, hid⟩
  · rcases h with h | ⟨id, h⟩
    · exact absurd hsame h
    · exact absurd h (hfail id)
  · obtain ⟨h1, h2, h3, h4, h5, h6, -, -⟩ := applyChanges_fields cs _ rc hrc
    exact ⟨applyChanges_recognized cs _ rc hrc, rc, initialStatus w.now, hrows, hid,
      h1, h2, h3, h4, h5, h6⟩

/-! ### `AbortRollout` -/

theorem UpdateRolloutStatus_eq (cid : UUID) (rid : Nat) (st : Status) (w : World)
    (r : RolloutRow) (hf : w.nextFault = none) (hr : findRollout w.rollouts cid rid = some r) :
    UpdateRolloutStatus cid rid r.version st w =
      (none, { w.tick with rollouts := setStatus w.rollouts cid rid st }) := by
  unfold UpdateRolloutStatus
  rw [hf, hr]
  simp only [if_true]

theorem CreateEvent_eq (cid : UUID) (rid : Nat) (m : String) (k : EventKind) (w : World)
    (hf : w.nextFault = none) :
    CreateEvent cid rid m k w =
      (none, { w.tick with events := w.events ++ [⟨cid, rid, m, k, w.now⟩] }) := by
  unfold CreateEvent
  rw [hf]

/-- C7 (abort): (1) for every stored rollout, when the load and the
compare-and-set write of `AbortRollout` succeed, the write is issued with the
version that was read, the stored row afterwards has the loaded status with
state ABORTED and `scheduled_at` empty and every other field as loaded (the
config too) at the next version, and what remains of the call is exactly one
append of an ABORT event, which, the event log accepting it, leaves the log
one ABORT event longer and the call without error; (2) if the load or the
write fails, the call returns an error, no row is written and no event is
appended. -/
theorem AbortRollout_spec (capsuleID : UUID) (rolloutID : Nat) (w : World) :
    (∀ r, w.calm 2 → findRollout w.rollouts capsuleID rolloutID = some r →
      AbortRollout capsuleID rolloutID w =
        CreateEvent capsuleID rolloutID "rollout aborted" .Abort
          (UpdateRolloutStatus capsuleID rolloutID r.version
            { r.status with State := .ABORTED, ScheduledAt := none } w.tick).2 ∧
      (AbortRollout capsuleID rolloutID w).2.rollouts =
        setStatus w.rollouts capsuleID rolloutID
          { r.status with State := .ABORTED, ScheduledAt := none } ∧
      findRollout (AbortRollout capsuleID rolloutID w).2.rollouts capsuleID rolloutID =
        some { r with
          status := { r.status with State := .ABORTED, ScheduledAt := none }
          version := r.version + 1 } ∧
      (w.calm 3 →
        (AbortRollout capsuleID rolloutID w).1 = none ∧
        (AbortRollout capsuleID rolloutID w).2.events =
          w.events ++ [⟨capsuleID, rolloutID, "rollout aborted", .Abort, w.now⟩])) ∧
    (¬ (w.calm 2 ∧ ∃ r, findRollout w.rollouts capsuleID rolloutID = some r) →
      (AbortRollout capsuleID rolloutID w).1 ≠ none ∧
      (AbortRollout capsuleID rolloutID w).2.rollouts = w.rollouts ∧
      (AbortRollout capsuleID rolloutID w).2.events = w.events) := by
  constructor
  · intro r hcalm hr
    obtain ⟨hf1, hf2, -⟩ := hcalm
    have e1 := GetRollout_eq capsuleID rolloutID w r hf1 hr
    have e2 := UpdateRolloutStatus_eq capsuleID rolloutID
      { r.status with State := .ABORTED, ScheduledAt := none } w.tick r hf2 hr
    have hres : AbortRollout capsuleID rolloutID w =
        CreateEvent capsuleID rolloutID "rollout aborted" .Abort
          (UpdateRolloutStatus capsuleID rolloutID r.version
            { r.status with State := .ABORTED, ScheduledAt := none } w.tick).2 := by
      unfold AbortRollout
      rw [e1]
      simp only []
      rw [e2]
    have hrows : (AbortRollout capsuleID rolloutID w).2.rollouts =
        setStatus w.rollouts capsuleID rolloutID
          { r.status with State := .ABORTED, ScheduledAt := none } := by
      rw [hres, (durable_fields (CreateEvent_durable _ _ _ _ _)).2.1, e2]
      rfl
    refine ⟨hres, hrows, ?_, ?_⟩
    · rw [hrows, findRollout_setStatus_same, hr]; rfl
    · intro hcalm3
      obtain ⟨-, -, hf3, -⟩ := hcalm3
      have e3 := CreateEvent_eq capsuleID rolloutID "rollout aborted" .Abort
        { w.tick.tick with rollouts := (setStatus w.tick.rollouts capsuleID rolloutID
            { r.status with State := .ABORTED, ScheduledAt := none }) } hf3
      constructor
      · rw [hres, e2, e3]
      · rw [hres, e2, e3]; rfl
  · intro hnot
    unfold AbortRollout
    rcases hg : GetRollout capsuleID rolloutID w with ⟨res, w1⟩
    cases res with
    | error e =>
      have hd := GetRollout_durable capsuleID rolloutID w
      have hev : w1.events = w.events := by
        unfold GetRollout at hg
        split at hg
        · simp only [Prod.mk.injEq] at hg; rw [← hg.2]; rfl
        · split at hg
          · simp at hg
          · simp only [Prod.mk.injEq] at hg; rw [← hg.2]; rfl
      rw [hg] at hd
      exact ⟨by simp, (durable_fields hd).2.1, hev⟩
    | ok x =>
      obtain ⟨rc, rs, v⟩ := x
      obtain ⟨hw1, hf1, r, hr, -, -, -⟩ := GetRollout_ok _ _ _ _ _ _ _ hg
      have hf2 : w.tick.nextFault ≠ none := fun h => hnot ⟨⟨hf1, h, trivial⟩, r, hr⟩
      simp only []
      subst hw1
      have hu : ∃ e, UpdateRolloutStatus capsuleID rolloutID v
          { rs with State := .ABORTED, ScheduledAt := none } w.tick = (some e, w.tick.tick) := by
        unfold UpdateRolloutStatus
        cases hnf : w.tick.nextFault with
        | none => exact absurd hnf hf2
        | some e => exact ⟨e, rfl⟩
      obtain ⟨e, hu⟩ := hu
      rw [hu]
      exact ⟨by simp, rfl, rfl⟩

/-! ### The claims on concrete worlds -/

/-- C1 (single active rollout) fails on the code: on a capsule with no
rollouts, a `newRollout` whose `CreateRollout` succeeds and whose capsule
`Update` fails returns the error and leaves `current_rollout` at 0 with the
created rollout stored PENDING; the next `newRollout` passes the in-progress
check and creates a second rollout, so the capsule has two rollouts in
state PENDING. -/
theorem newRollout_update_failure_two_active :
    (newRollout ctx0 "c1" [.BuildId "b1"]
      { world0 with faults := [none, none, none, none, some conflict] }).1 = .error conflict ∧
    findCapsule worldA "c1" = some ⟨"c1", "web", 0⟩ ∧
    (newRollout ctx0 "c1" [.BuildId "b1"] worldA).1 = .ok 2 ∧
    (activeRollouts worldB "c1").map (fun r => (r.rolloutID, r.status.State)) =
      [(1, .PENDING), (2, .PENDING)] ∧
    ¬ (activeRollouts worldB "c1").length ≤ 1 := by
  refine ⟨rfl, rfl, rfl, rfl, by decide⟩

/-- C2 (terminal implies not scheduled) fails on the code: `AbortRollout`
leaves rollout 1 stored ABORTED with `scheduled_at` empty; the turn that
follows finds the status unchanged by the dispatch, writes it with
`scheduled_at = now + 3` and queues a further job at that time. -/
theorem Run_aborted_reschedules :
    (findRollout worldAborted.rollouts "c1" 1).map (fun r => r.status) =
      some ⟨.ABORTED, "waiting for new instances", some 100, none, none⟩ ∧
    (Run ctx0 job1 worldAborted).1 = none ∧
    (findRollout (Run ctx0 job1 worldAborted).2.rollouts "c1" 1).map (fun r => r.status) =
      some ⟨.ABORTED, "waiting for new instances", some 100, some 203, none⟩ ∧
    (Run ctx0 job1 worldAborted).2.queue = [⟨"p1", "c1", 1, 203⟩] := by
  refine ⟨rfl, rfl, rfl, rfl⟩

/-- C10 (build disappears) fails on the code: on a rollout stored DEPLOYING
whose build is gone, the turn returns the Aborted error "build not
available", keeps the state DEPLOYING, sets `scheduled_at = now + 3` and
queues the job at that time, but the stored message stays "deploying rollout
to cluster" and no event is appended. -/
theorem Run_build_missing :
    (Run ctx0 job1 worldDeploying).1 = some ⟨.Aborted, "build not available"⟩ ∧
    (findRollout (Run ctx0 job1 worldDeploying).2.rollouts "c1" 1).map (fun r => r.status) =
      some ⟨.DEPLOYING, "deploying rollout to cluster", some 100, some 203, none⟩ ∧
    (Run ctx0 job1 worldDeploying).2.events = [] ∧
    (Run ctx0 job1 worldDeploying).2.queue = [⟨"p1", "c1", 1, 203⟩] := by
  refine ⟨rfl, rfl, rfl, rfl⟩

/-- C3 at concrete worlds: rollout 1 of "c1" is PENDING in `worldC`, so a new
rollout is rejected; `world0` has no rollout, so the error is not returned. -/
theorem newRollout_in_progress_witness :
    ((newRollout ctx0 "c1" [.Replicas 3] worldC).1 = .error inProgress ∧
      (newRollout ctx0 "c1" [.Replicas 3] worldC).2.rollouts = worldC.rollouts ∧
      (newRollout ctx0 "c1" [.Replicas 3] worldC).2.capsules = worldC.capsules ∧
      (newRollout ctx0 "c1" [.Replicas 3] worldC).2.queue = worldC.queue) ∧
    (newRollout ctx0 "c1" [.Replicas 3] world0).1 ≠ .error inProgress :=
  ⟨(newRollout_in_progress ctx0 "c1" [.Replicas 3] worldC).1 ⟨"c1", "web", 1⟩
      ⟨"c1", 1, config1, initialStatus 100, 0⟩ ⟨rfl, rfl, trivial⟩ rfl (by decide) rfl
      (by unfold Terminal initialStatus; simp),
    (newRollout_in_progress ctx0 "c1" [.Replicas 3] world0).2
      (by intro f hf; simp [world0] at hf)
      (by
        intro c r hc hcur
        have h0 : findCapsule world0 "c1" = some ⟨"c1", "web", 0⟩ := rfl
        rw [h0] at hc
        simp only [Option.some.injEq] at hc
        subst hc
        exact absurd rfl hcur)⟩

/-- C4 fails on the code as stated: `world0` has the capsule "c1" with no
rollout at all and the change list holds the config-file change of the mount
command; the load of the capsule succeeds and the author lookup, which
`newRollout` does before it looks at the changes, fails with an Unavailable
error; the call returns that error, which is not an InvalidArgument error. -/
theorem newRollout_author_before_changes :
    (∃ x ∈ [Change.SetConfigFile "/etc/app.conf" [104, 105] false], x.recognized = false) ∧
    findCapsule worldAuthorDown "c1" = some ⟨"c1", "web", 0⟩ ∧
    worldAuthorDown.rollouts = [] ∧
    (newRollout ctx0 "c1" [.SetConfigFile "/etc/app.conf" [104, 105] false]
      worldAuthorDown).1 = .error authorDown ∧
    authorDown.kind ≠ .InvalidArgument :=
  ⟨⟨_, List.mem_singleton.mpr rfl, rfl⟩, rfl, rfl, rfl, by decide⟩

/-- C4 as amended at concrete worlds: the config-file change of the mount
command on `world0`, and on `worldAuthorDown`, where the author lookup fails. -/
theorem newRollout_unknown_change_witness :
    (∃ e, (newRollout ctx0 "c1" [.SetConfigFile "/etc/app.conf" [104, 105] false] world0).1 =
      .error e) ∧
    (newRollout ctx0 "c1" [.SetConfigFile "/etc/app.conf" [104, 105] false] world0).2.rollouts =
      world0.rollouts ∧
    (∃ msg, (newRollout ctx0 "c1" [.SetConfigFile "/etc/app.conf" [104, 105] false] world0).1 =
      .error ⟨.InvalidArgument, msg⟩) ∧
    (newRollout ctx0 "c1" [.SetConfigFile "/etc/app.conf" [104, 105] false]
      worldAuthorDown).1 = .error authorDown :=
  have h := newRollout_unknown_change ctx0 "c1"
    [.SetConfigFile "/etc/app.conf" [104, 105] false] world0
    ⟨_, List.mem_singleton.mpr rfl, rfl⟩
  have h2 := newRollout_unknown_change ctx0 "c1"
    [.SetConfigFile "/etc/app.conf" [104, 105] false] worldAuthorDown
    ⟨_, List.mem_singleton.mpr rfl, rfl⟩
  ⟨h.1, h.2.1,
    h.2.2.2.2.1 ⟨"c1", "web", 0⟩ rfl (fun hne => absurd rfl hne) ⟨rfl, rfl, trivial⟩,
    h2.2.2.2.2.2 ⟨"c1", "web", 0⟩ authorDown rfl (fun hne => absurd rfl hne) ⟨rfl, trivial⟩
      rfl⟩

/-- C5 at a concrete world: the first rollout of "c1" in `world0`. -/
theorem newRollout_success_witness :
    (newRollout ctx0 "c1" [.BuildId "b1"] world0).1 = .ok 1 ∧
    (newRollout ctx0 "c1" [.BuildId "b1"] world0).2.rollouts =
      [⟨"c1", 1, config1, initialStatus 100, 0⟩] ∧
    findCapsule (newRollout ctx0 "c1" [.BuildId "b1"] world0).2 "c1" = some ⟨"c1", "web", 1⟩ ∧
    (newRollout ctx0 "c1" [.BuildId "b1"] world0).2.queue = [⟨"p1", "c1", 1, 100⟩] :=
  have h := newRollout_success ctx0 "c1" [.BuildId "b1"] world0 ⟨"c1", "web", 0⟩ config1
    ⟨"c1", "b1", "img"⟩ "p1" (by intro f hf; simp [world0] at hf) rfl
    (fun hne => absurd rfl hne) rfl rfl rfl
  ⟨h.1, h.2.1, h.2.2.2.1, h.2.2.2.2.1⟩

/-- C6 at a concrete world: of two Replicas changes the later one is stored. -/
theorem newRollout_config_witness :
    ∃ rc st, (newRollout ctx0 "c1" [.Replicas 2, .BuildId "b1", .Replicas 5] world0).2.rollouts =
        world0.rollouts ++ [⟨"c1", 1, rc, st, 0⟩] ∧
      rc.Replicas = 5 ∧ rc.BuildId = "b1" ∧ rc.AutoAddRigServiceAccounts = false ∧
      rc.Changes = [.Replicas 2, .BuildId "b1", .Replicas 5] :=
  have h := (newRollout_config ctx0 "c1" [.Replicas 2, .BuildId "b1", .Replicas 5] world0
    (Or.inr ⟨1, rfl⟩)).2
  match h with
  | ⟨rc, st, h1, _, h2, h3, _, _, h6, h7⟩ => ⟨rc, st, h1, h2, h3, h6, h7⟩

/-- C7 at concrete worlds: the abort of the OBSERVING rollout of
`worldObserving`, and the abort of a rollout that `world0` does not have. -/
theorem AbortRollout_spec_witness :
    ((AbortRollout "c1" 1 worldObserving).1 = none ∧
      findRollout (AbortRollout "c1" 1 worldObserving).2.rollouts "c1" 1 =
        some ⟨"c1", 1, config1,
          ⟨.ABORTED, "waiting for new instances", some 100, none, none⟩, 4⟩ ∧
      (AbortRollout "c1" 1 worldObserving).2.events =
        [⟨"c1", 1, "rollout aborted", .Abort, 200⟩]) ∧
    ((AbortRollout "c1" 1 world0).1 ≠ none ∧
      (AbortRollout "c1" 1 world0).2.rollouts = world0.rollouts ∧
      (AbortRollout "c1" 1 world0).2.events = world0.events) :=
  have h := (AbortRollout_spec "c1" 1 worldObserving).1
    ⟨"c1", 1, config1, ⟨.OBSERVING, "waiting for new instances", some 100, some 100, none⟩, 3⟩
    ⟨rfl, rfl, trivial⟩ rfl
  have h3 := h.2.2.2 ⟨rfl, rfl, rfl, trivial⟩
  ⟨⟨h3.1, h.2.2.1, h3.2⟩,
    (AbortRollout_spec "c1" 1 world0).2 (by
      rintro ⟨-, r, hr⟩
      change none = some r at hr
      cases hr)⟩

/-- C8 at a concrete run: a turn loads rollout 1 in OBSERVING, the rollout is
aborted, then the rest of that turn runs; the stored state stays ABORTED. -/
theorem abort_sticky_witness :
    ∃ r, findRollout sysAfter.world.rollouts "c1" 1 = some r ∧ r.status.State = .ABORTED :=
  abort_sticky sysStart sysLoaded sysAfter [] "c1" 1 rfl
    (Relation.ReflTransGen.single (Step.load sysStart [] loaded1 worldObserving rfl))
    rfl
    (Relation.ReflTransGen.single
      (Step.turn ⟨(AbortRollout "c1" 1 { sysLoaded.world with faults := [] }).2, [loaded1]⟩ []
        ctx0 loaded1 (List.mem_singleton.mpr rfl)))

/-- C9 at a concrete world: a turn on the OBSERVING rollout of
`worldObserving`. -/
theorem Run_monotone_witness :
    ∃ r', findRollout (Run ctx0 job1 worldObserving).2.rollouts "c1" 1 = some r' ∧
      (r'.status.State = .OBSERVING ∨ Later .OBSERVING r'.status.State ∨
        Terminal r'.status.State) ∧
      ¬ Later r'.status.State .OBSERVING :=
  Run_monotone ctx0 job1 worldObserving
    ⟨"c1", 1, config1, ⟨.OBSERVING, "waiting for new instances", some 100, some 100, none⟩, 3⟩
    rfl (Or.inr (Or.inr (Or.inr rfl)))

/-! ### Atomicity of the dispatch -/

/-- C17 (dispatch is atomic on the status): for every status, config and
world (so every outcome of the collaborators), (1) whenever `run` returns an
error, the status it leaves is the status it was given; (2) consequently the
rest of the turn behaves as `Run_turn_atomic`: on every dispatch error it
takes the branch of the unchanged status and only sets `scheduled_at` to
`now + 3`, it never assigns state FAILED, and it calls `updateError` (message
and ERROR event) only after the write of `updateContinue` failed. -/
theorem run_atomic (ctx : Ctx) (j : rolloutJob) (c : Capsule) (rc : RolloutConfig)
    (rs : Status) (v : Nat) (w : World) :
    ((run j c rc rs v w).1.2 ≠ none → (run j c rc rs v w).1.1 = rs) ∧
    Run_turn ctx j c rc rs v w =
      Run_turn_atomic ctx j c rc rs v (run j c rc rs v w).1.1 (run j c rc rs v w).1.2
        (run j c rc rs v w).2 := by
  have hat := run_error_unchanged j c rc rs v w
  refine ⟨hat, ?_⟩
  unfold Run_turn Run_turn_atomic
  rcases hrun : run j c rc rs v w with ⟨⟨rs1, err⟩, w1⟩
  rw [hrun] at hat
  simp only [] at hat ⊢
  cases err with
  | some e =>
    have h1 : rs1 = rs := hat (by simp)
    subst h1
    simp only [if_true]
    try rfl
  | none =>
    by_cases heq : rs1 = rs
    · subst heq
      simp only [if_true]
      try rfl
    · simp only [heq, if_false, IsInvalidArgument, Bool.false_eq_true]
      try rfl

/-! ### The write of the outcome -/

theorem rest_fields {w w' : World} (h : w'.rest = w.rest) :
    w'.secrets = w.secrets ∧ w'.accounts = w.accounts ∧ w'.queue = w.queue ∧ w'.now = w.now ∧
    w'.capsules = w.capsules := by
  simp only [World.rest, Prod.mk.injEq] at h
  exact ⟨h.2.2.1, h.2.2.2.1, h.2.2.2.2.2.2.2.1, h.2.2.2.2.2.2.2.2.1, h.1⟩

theorem UpdateRolloutStatus_rest (cid : UUID) (rid : Nat) (v : Nat) (st : Status) (w : World) :
    (UpdateRolloutStatus cid rid v st w).2.rest = w.rest ∧
    (UpdateRolloutStatus cid rid v st w).2.events = w.events := by
  rcases UpdateRolloutStatus_spec cid rid v st w with h | h
  · rw [h.2]; exact ⟨rfl, rfl⟩
  · rw [h.2.2.2]; exact ⟨rfl, rfl⟩

theorem CreateEvent_rest (cid : UUID) (rid : Nat) (m : String) (k : EventKind) (w : World) :
    (CreateEvent cid rid m k w).2.rest = w.rest := by
  unfold CreateEvent; split <;> rfl

theorem updateContinue_rest (j : rolloutJob) (rc : RolloutConfig) (rs : Status) (v : Nat)
    (w : World) :
    (updateContinue j rc rs v w).2.rest = w.rest ∧
    (updateContinue j rc rs v w).2.events = w.events := by
  unfold updateContinue
  simp only []
  have h := UpdateRolloutStatus_rest j.capsuleID j.rolloutID v
    (if isRolloutTerminated rs = true then { rs with ScheduledAt := none }
      else { rs with ScheduledAt := some w.now }) w
  split
  · next e w1 hu => rw [hu] at h; exact h
  · next w1 hu => rw [hu] at h; exact h

theorem updateError_rest (j : rolloutJob) (rc : RolloutConfig) (rs : Status) (v : Nat)
    (e : Err) (w : World) : (updateError j rc rs v e w).2.rest = w.rest := by
  unfold updateError
  simp only []
  rw [CreateEvent_rest, (UpdateRolloutStatus_rest _ _ _ _ _).1]

theorem Run_queue_eq (ctx : Ctx) (j : rolloutJob) (rs : Status) (err : Option Err) (w : World)
    (p : UUID) (hp : ctx.projectID = some p) :
    Run_queue ctx j rs err w =
      (err, match rs.ScheduledAt with
            | some ts => AddJob ⟨p, j.capsuleID, j.rolloutID⟩ ts w
            | none => w) := by
  unfold Run_queue queueRolloutJob GetProjectID
  rw [hp]
  cases rs.ScheduledAt <;> rfl

/-- What a turn does when its status write is rejected with an error `e` (a
stale version or any other): after a dispatch that left the status
unchanged it returns `e` and the queue is untouched; after a dispatch that
changed the status it returns `e` too, but `updateError` has set
`scheduled_at = now + 3` and the job is added to the queue for that time. -/
theorem Run_turn_rejected (ctx : Ctx) (j : rolloutJob) (c : Capsule) (rc : RolloutConfig)
    (oldRS : Status) (v : Nat) (w : World) (e : Err) (p : UUID)
    (hp : ctx.projectID = some p) :
    ((run j c rc oldRS v w).1.1 = oldRS →
      (UpdateRolloutStatus j.capsuleID j.rolloutID v
        { oldRS with ScheduledAt := some ((run j c rc oldRS v w).2.now + 3) }
        (run j c rc oldRS v w).2).1 = some e →
      (Run_turn ctx j c rc oldRS v w).1 = some e ∧
      (Run_turn ctx j c rc oldRS v w).2.queue = w.queue) ∧
    ((run j c rc oldRS v w).1.1 ≠ oldRS →
      (updateContinue j rc (run j c rc oldRS v w).1.1 v (run j c rc oldRS v w).2).1.2 = some e →
      (Run_turn ctx j c rc oldRS v w).1 = some e ∧
      (Run_turn ctx j c rc oldRS v w).2.queue =
        w.queue.filter (fun q => !(q.capsuleID == j.capsuleID && q.rolloutID == j.rolloutID))
          ++ [⟨p, j.capsuleID, j.rolloutID, w.now + 3⟩]) := by
  have hd := durable_fields (run_durable j c rc oldRS v w)
  have hat := run_error_unchanged j c rc oldRS v w
  unfold Run_turn
  rcases hrun : run j c rc oldRS v w with ⟨⟨rs, err⟩, w1⟩
  rw [hrun] at hd hat
  simp only [] at hd hat ⊢
  obtain ⟨-, -, hq, hn⟩ := hd
  constructor
  · intro heq hrej
    subst heq
    simp only [if_true]
    have hr := UpdateRolloutStatus_rest j.capsuleID j.rolloutID v
      { rs with ScheduledAt := some (w1.now + 3) } w1
    rcases hu : UpdateRolloutStatus j.capsuleID j.rolloutID v
      { rs with ScheduledAt := some (w1.now + 3) } w1 with ⟨ue, w2⟩
    rw [hu] at hrej hr
    simp only [] at hrej
    subst hrej
    simp only []
    exact ⟨trivial, (rest_fields hr.1).2.2.1.trans hq⟩
  · intro hne hrej
    cases err with
    | some e1 => exact absurd (hat (by simp)) hne
    | none =>
      simp only [hne, if_false, IsInvalidArgument, Bool.false_eq_true]
      have hr := updateContinue_rest j rc rs v w1
      rcases hu : updateContinue j rc rs v w1 with ⟨⟨rs2, ue⟩, w2⟩
      rw [hu] at hrej hr
      simp only [] at hrej
      subst hrej
      simp only []
      have hue := updateError_spec j rc rs2 v e w2
      have hre := updateError_rest j rc rs2 v e w2
      rcases hu2 : updateError j rc rs2 v e w2 with ⟨rs3, w3⟩
      rw [hu2] at hue hre
      simp only [] at hue hre ⊢
      rw [Run_queue_eq ctx j rs3 (some e) w3 p hp, hue.1]
      simp only []
      refine ⟨trivial, ?_⟩
      show List.filter _ w3.queue ++ _ = _
      rw [(rest_fields hre).2.2.1, (rest_fields hr.1).2.2.1, (rest_fields hr.1).2.2.2.1, hq, hn]

/-- C13 (invalid state) fails on the code: on a rollout stored with a state
that is none of the seven named states the dispatch returns the
InvalidArgument error without touching the status, so the turn takes the
branch of the unchanged status: the state stored afterwards is the unknown
state, not FAILED, `scheduled_at` is `now + 3`, and the job is queued again. -/
theorem Run_invalid_state :
    (run job1 ⟨"c1", "web", 1⟩ config1 ⟨.other 0, "", some 100, some 100, none⟩ 1
      worldUnknown.tick.tick).1 =
      (⟨.other 0, "", some 100, some 100, none⟩, some ⟨.InvalidArgument, "invalid state 0"⟩) ∧
    (Run ctx0 job1 worldUnknown).1 = some ⟨.InvalidArgument, "invalid state 0"⟩ ∧
    (findRollout (Run ctx0 job1 worldUnknown).2.rollouts "c1" 1).map (fun r => r.status) =
      some ⟨.other 0, "", some 100, some 203, none⟩ ∧
    (Run ctx0 job1 worldUnknown).2.queue = [⟨"p1", "c1", 1, 203⟩] := by
  refine ⟨rfl, rfl, rfl, rfl⟩

/-- C14 (stale write) fails on the code: a turn on the PENDING rollout of
`worldC` whose dispatch changes the status and whose writes are rejected
with StaleVersion returns that error, yet the job of the rollout, queued for
100 before, is afterwards queued for `now + 3`: the turn has called `AddJob`
after the rejected write, which the branch of the unchanged status does
not. -/
theorem Run_stale_requeues :
    (Run ctx0 job1 { worldC with faults := [none, none, none, some stale, some stale] }).1 =
      some stale ∧
    (findRollout (Run ctx0 job1
      { worldC with faults := [none, none, none, some stale, some stale] }).2.rollouts
        "c1" 1).map (fun r => r.status.State) = some .PENDING ∧
    worldC.queue = [⟨"p1", "c1", 1, 100⟩] ∧
    (Run ctx0 job1 { worldC with faults := [none, none, none, some stale, some stale] }).2.queue =
      [⟨"p1", "c1", 1, 103⟩] ∧
    ¬ ((Run ctx0 job1
      { worldC with faults := [none, none, none, some stale, some stale] }).2.queue =
        worldC.queue) := by
  refine ⟨rfl, rfl, rfl, rfl, by decide⟩

/-! ### OBSERVING -/

theorem quiet_of_faults {w w' : World} (h : w'.faults = w.faults) (hq : w.quiet) : w'.quiet :=
  fun f hf => hq f (h ▸ hf)

/-- C17 at a concrete world: the DEPLOYING turn of `worldDeploying`, whose
dispatch fails because the build is gone. -/
theorem run_atomic_witness :
    (run job1 ⟨"c1", "web", 1⟩ config1
      ⟨.DEPLOYING, "deploying rollout to cluster", some 100, some 100, none⟩ 2
      worldDeploying).1.2 = some ⟨.Aborted, "build not available"⟩ ∧
    (run job1 ⟨"c1", "web", 1⟩ config1
      ⟨.DEPLOYING, "deploying rollout to cluster", some 100, some 100, none⟩ 2
      worldDeploying).1.1 =
      ⟨.DEPLOYING, "deploying rollout to cluster", some 100, some 100, none⟩ :=
  ⟨rfl, (run_atomic ctx0 job1 ⟨"c1", "web", 1⟩ config1
    ⟨.DEPLOYING, "deploying rollout to cluster", some 100, some 100, none⟩ 2
    worldDeploying).1 (fun h => Option.noConfusion h)⟩

/-- The two branches of a rejected write at concrete worlds: the OBSERVING
turn of `worldWaitingStale`, whose dispatch leaves the status unchanged, and
the PENDING turn of `worldPendingStale`, whose dispatch changes it. -/
theorem Run_turn_rejected_witness :
    ((Run_turn ctx0 job1 ⟨"c1", "web", 1⟩ config1
        ⟨.OBSERVING, "waiting for new instances", some 100, some 100, none⟩ 3
        worldWaitingStale).1 = some stale ∧
      (Run_turn ctx0 job1 ⟨"c1", "web", 1⟩ config1
        ⟨.OBSERVING, "waiting for new instances", some 100, some 100, none⟩ 3
        worldWaitingStale).2.queue = worldWaitingStale.queue) ∧
    ((Run_turn ctx0 job1 ⟨"c1", "web", 1⟩ config1 (initialStatus 100) 0 worldPendingStale).1 =
        some stale ∧
      (Run_turn ctx0 job1 ⟨"c1", "web", 1⟩ config1 (initialStatus 100) 0
        worldPendingStale).2.queue =
        worldPendingStale.queue.filter
          (fun q => !(q.capsuleID == job1.capsuleID && q.rolloutID == job1.rolloutID))
          ++ [⟨"p1", job1.capsuleID, job1.rolloutID, worldPendingStale.now + 3⟩]) :=
  ⟨(Run_turn_rejected ctx0 job1 ⟨"c1", "web", 1⟩ config1
      ⟨.OBSERVING, "waiting for new instances", some 100, some 100, none⟩ 3
      worldWaitingStale stale "p1" rfl).1 rfl rfl,
   (Run_turn_rejected ctx0 job1 ⟨"c1", "web", 1⟩ config1 (initialStatus 100) 0
      worldPendingStale stale "p1" rfl).2
      (fun h => RolloutState.noConfusion (congrArg Status.State h)) rfl⟩

theorem getEnv_setEnv_same (m : List (String × String)) (k v : String) :
    getEnv (setEnv m k v) k = some v := by
  simp [getEnv, setEnv]

theorem getEnv_filter_other (m : List (String × String)) (k k' : String) (h : k' ≠ k) :
    getEnv (m.filter (fun kv => kv.1 != k)) k' = getEnv m k' := by
  unfold getEnv
  induction m with
  | nil => rfl
  | cons a rest ih =>
    by_cases ha : a.1 = k
    · have h1 : (a.1 != k) = false := by simp [ha]
      have h2 : (a.1 == k') = false := by
        rw [ha]; exact beq_false_of_ne (Ne.symm h)
      simp only [List.filter_cons, h1, Bool.false_eq_true, if_false, List.find?_cons, h2]
      exact ih
    · have h1 : (a.1 != k) = true := by simp [ha]
      simp only [List.filter_cons, h1, if_true, List.find?_cons]
      cases hq : (a.1 == k')
      · simp only []; exact ih
      · rfl

theorem getEnv_setEnv_other (m : List (String × String)) (k k' v : String) (h : k' ≠ k) :
    getEnv (setEnv m k v) k' = getEnv m k' := by
  have h2 : (k == k') = false := beq_false_of_ne (Ne.symm h)
  have h3 := getEnv_filter_other m k k' h
  unfold getEnv at h3 ⊢
  unfold setEnv
  simp only [List.find?_cons, h2]
  exact h3

theorem SecretGet_ok (id : UUID) (w w1 : World) (s : String)
    (h : SecretGet id w = (.ok s, w1)) : storedSecret w id = some s ∧ w1 = w.tick := by
  unfold SecretGet at h
  unfold storedSecret
  split at h
  · simp at h
  · split at h
    · next x hx =>
      simp only [Prod.mk.injEq, Except.ok.injEq] at h
      rw [hx]; exact ⟨by rw [← h.1]; rfl, h.2.symm⟩
    · simp at h

/-- The settings `deployEnv` returns: the config's settings with the
environment of `specEnv`. -/
theorem deployEnv_ok (j : rolloutJob) (rc : RolloutConfig) (rs : Status) (w w1 : World)
    (settings : ContainerSettings) (h : deployEnv j rc rs w = (.ok settings, w1)) :
    (∀ k, getEnv settings.EnvironmentVariables k = specEnv j rc rs w k) ∧
    (rc.AutoAddRigServiceAccounts = true →
      ∃ s, storedSecret w rs.GetClientSecretKey = some s) ∧
    (∀ s, rc.ContainerSettings = some s → settings.rest = s.rest) := by
  unfold deployEnv at h
  simp only [] at h
  by_cases ha : rc.AutoAddRigServiceAccounts = true
  · simp only [ha, if_true] at h
    split at h
    · simp at h
    · next secretKey w2 hs =>
      simp only [Prod.mk.injEq, Except.ok.injEq] at h
      obtain ⟨hst, -⟩ := SecretGet_ok _ _ _ _ hs
      refine ⟨fun k => ?_, fun _ => ⟨secretKey, hst⟩, fun s hs' => ?_⟩
      · rw [← h.1]
        unfold specEnv
        simp only [ha, true_and]
        by_cases k1 : k = "RIG_CLIENT_SECRET"
        · rw [if_pos k1, k1, hst]
          exact getEnv_setEnv_same _ _ _
        · rw [if_neg k1]
          show getEnv (setEnv _ "RIG_CLIENT_SECRET" secretKey) k = _
          rw [getEnv_setEnv_other _ _ _ _ k1]
          by_cases k2 : k = "RIG_CLIENT_ID"
          · rw [if_pos k2, k2]
            exact getEnv_setEnv_same _ _ _
          · rw [if_neg k2, getEnv_setEnv_other _ _ _ _ k2]
            by_cases k3 : k = "RIG_PROJECT_ID"
            · rw [if_pos k3, k3]
              exact getEnv_setEnv_same _ _ _
            · rw [if_neg k3, getEnv_setEnv_other _ _ _ _ k3]
              unfold configEnv; cases rc.ContainerSettings <;> rfl
      · rw [← h.1, hs']
  · simp only [ha, Bool.false_eq_true, if_false, Prod.mk.injEq, Except.ok.injEq] at h
    refine ⟨fun k => ?_, fun hh => absurd hh ha, fun s hs' => ?_⟩
    · rw [← h.1]
      unfold specEnv
      simp only [ha, false_and, if_false]
      show getEnv (setEnv _ "RIG_PROJECT_ID" j.projectID) k = _
      by_cases k3 : k = "RIG_PROJECT_ID"
      · rw [if_pos k3, k3]
        exact getEnv_setEnv_same _ _ _
      · rw [if_neg k3, getEnv_setEnv_other _ _ _ _ k3]
        unfold configEnv; cases rc.ContainerSettings <;> rfl
    · rw [← h.1, hs']

theorem GetBuild_world (cid : UUID) (b : String) (w : World) : (GetBuild cid b w).2 = w.tick := by
  unfold GetBuild
  split
  · rfl
  · split <;> rfl

/-- C11 fails on the code as stated: the rollout of `worldUser` has
auto-binding off and a config environment that sets `RIG_CLIENT_ID`; its
DEPLOYING turn succeeds and the environment of the capsule it upserts still
has the key `RIG_CLIENT_ID`. -/
theorem Run_keeps_client_id :
    configUser.AutoAddRigServiceAccounts = false ∧
    (Run ctx0 job1 worldUser).1 = none ∧
    (Run ctx0 job1 worldUser).2.cluster.map
      (fun x => (x.1, getEnv x.2.ContainerSettings.EnvironmentVariables "RIG_CLIENT_ID")) =
      [("web", some "mine")] :=
  ⟨rfl, rfl, rfl⟩

/-- C11 as amended: whenever a DEPLOYING dispatch gets as far as the upsert
(the build is found, the environment is built, the event is appended), the
desired capsule it passes to `UpsertCapsule` under the capsule name carries
settings whose environment is, key by key, `specEnv`: `RIG_PROJECT_ID` is the
project id always; with auto-binding on `RIG_CLIENT_ID` is the client id of
the status and `RIG_CLIENT_SECRET` the bytes stored under
`client_secret_key`, which exist; with auto-binding off these two keys are
as in the config's environment (present if and only if the config sets
them); every other key is as in the config's environment.  When the upsert
succeeds the cluster holds that capsule under the name. -/
theorem deploy_env (j : rolloutJob) (c : Capsule) (rc : RolloutConfig) (rs : Status)
    (w : World) (b : Build) (w1 : World) (settings : ContainerSettings) (w2 w3 : World)
    (hb : GetBuild j.capsuleID rc.BuildId w = (.ok b, w1))
    (he : deployEnv j rc rs w1 = (.ok settings, w2))
    (hc : CreateEvent j.capsuleID j.rolloutID "configuring cluster resources" .Rollout w2 =
      (none, w3)) :
    (∃ m, deploy j c rc rs w =
      match UpsertCapsule c.Name
        ⟨j.capsuleID, b.Image, settings, rc.BuildId, rc.Replicas, j.projectID, rc.Network, m⟩
        w3 with
      | (some e, w4) => ((rs, some e), w4)
      | (none, w4) =>
        (({ rs with State := .OBSERVING, Message := "waiting for new instances" }, none), w4)) ∧
    (∀ k, getEnv settings.EnvironmentVariables k = specEnv j rc rs w k) ∧
    (rc.AutoAddRigServiceAccounts = true →
      ∃ s, storedSecret w rs.GetClientSecretKey = some s) ∧
    ((deploy j c rc rs w).1.2 = none →
      ∃ cc, (deploy j c rc rs w).2.cluster.find? (fun x => x.1 == c.Name) = some (c.Name, cc) ∧
        cc.ContainerSettings = settings) := by
  have hw1 : w1 = w.tick := by
    have := GetBuild_world j.capsuleID rc.BuildId w
    rw [hb] at this; exact this
  subst hw1
  have henv := deployEnv_ok j rc rs w.tick w2 settings he
  have hdep : ∃ m, deploy j c rc rs w =
      match UpsertCapsule c.Name
        ⟨j.capsuleID, b.Image, settings, rc.BuildId, rc.Replicas, j.projectID, rc.Network, m⟩
        w3 with
      | (some e, w4) => ((rs, some e), w4)
      | (none, w4) =>
        (({ rs with State := .OBSERVING, Message := "waiting for new instances" }, none),
          w4) := by
    unfold deploy
    rw [hb]
    simp only []
    rw [he]
    simp only []
    rw [hc]
    exact ⟨_, rfl⟩
  refine ⟨hdep, henv.1, henv.2.1, ?_⟩
  obtain ⟨m, hm⟩ := hdep
  rw [hm]
  unfold UpsertCapsule
  cases hf : w3.nextFault with
  | some e => intro h; simp at h
  | none =>
    intro _
    refine ⟨⟨j.capsuleID, b.Image, settings, rc.BuildId, rc.Replicas, j.projectID, rc.Network,
      m⟩, ?_, rfl⟩
    simp [List.find?_cons]

/-- C11 as amended at a concrete world: the DEPLOYING dispatch on the bound
rollout of `worldBound`. -/
theorem deploy_env_witness :
    getEnv [("RIG_CLIENT_SECRET", "hush"), ("RIG_CLIENT_ID", "client-1"), ("RIG_PROJECT_ID", "p1")]
        "RIG_CLIENT_SECRET" =
      specEnv job1 configBound statusBound worldBound "RIG_CLIENT_SECRET" ∧
    ∃ s, storedSecret worldBound statusBound.GetClientSecretKey = some s :=
  ⟨(deploy_env job1 ⟨"c1", "web", 1⟩ configBound statusBound worldBound ⟨"c1", "b1", "img"⟩
      worldBound.tick
      ⟨[("RIG_CLIENT_SECRET", "hush"), ("RIG_CLIENT_ID", "client-1"), ("RIG_PROJECT_ID", "p1")],
        0⟩
      worldBound.tick.tick
      { worldBound.tick.tick.tick with
        events := [⟨"c1", 1, "configuring cluster resources", .Rollout, 200⟩] }
      rfl rfl rfl).2.1 "RIG_CLIENT_SECRET",
   (deploy_env job1 ⟨"c1", "web", 1⟩ configBound statusBound worldBound ⟨"c1", "b1", "img"⟩
      worldBound.tick
      ⟨[("RIG_CLIENT_SECRET", "hush"), ("RIG_CLIENT_ID", "client-1"), ("RIG_PROJECT_ID", "p1")],
        0⟩
      worldBound.tick.tick
      { worldBound.tick.tick.tick with
        events := [⟨"c1", 1, "configuring cluster resources", .Rollout, 200⟩] }
      rfl rfl rfl).2.2.1 rfl⟩

/-! ### The service-account collision -/

/-- When no call fails, the loop over the listed accounts ends without error
and has deleted exactly the accounts that share their id with a listed
account of the target name. -/
theorem deleteNamed_quiet (ccName : String) (it : List ServiceAccountEntry) (w : World)
    (hq : w.quiet) :
    ∃ w1, deleteNamed ccName it w = (none, w1) ∧ w1.quiet ∧
      w1.accounts = w.accounts.filter (fun a =>
        !(it.any (fun s => s.Name == ccName && s.ServiceAccountId == a.ServiceAccountId))) ∧
      w1.uuidCounter = w.uuidCounter ∧ w1.secrets = w.secrets ∧ w1.durable = w.durable ∧
      w1.events = w.events := by
  induction it generalizing w with
  | nil =>
    unfold deleteNamed
    rw [quiet_nextFault hq]
    refine ⟨w.tick, rfl, quiet_tick hq, ?_, rfl, rfl, rfl, rfl⟩
    show w.accounts = _
    simp
  | cons sa rest ih =>
    unfold deleteNamed
    rw [quiet_nextFault hq]
    simp only []
    by_cases hn : (sa.Name == ccName) = true
    · simp only [hn, if_true]
      unfold DeleteServiceAccount
      rw [quiet_nextFault (quiet_tick hq)]
      simp only []
      obtain ⟨w1, he, hq1, hacc, hu, hs, hd, hev⟩ :=
        ih { w.tick.tick with
          accounts := w.tick.accounts.filter (fun a => a.ServiceAccountId != sa.ServiceAccountId) }
          (quiet_of_faults (w := w.tick.tick) rfl (quiet_tick (quiet_tick hq)))
      refine ⟨w1, he, hq1, ?_, hu, hs, hd, hev⟩
      rw [hacc]
      show List.filter _ (List.filter _ w.accounts) = _
      rw [List.filter_filter]
      apply List.filter_congr
      intro a _
      simp only [List.any_cons, hn, Bool.true_and, Bool.not_or, bne]
      rw [Bool.and_comm]
      congr 2
      exact Bool.eq_iff_iff.mpr ⟨fun h => (beq_iff_eq.mp h).symm ▸ beq_self_eq_true _,
        fun h => (beq_iff_eq.mp h).symm ▸ beq_self_eq_true _⟩
    · simp only [hn, Bool.false_eq_true, if_false]
      obtain ⟨w1, he, hq1, hacc, hu, hs, hd, hev⟩ := ih w.tick (quiet_tick hq)
      refine ⟨w1, he, hq1, ?_, hu, hs, hd, hev⟩
      rw [hacc]
      show List.filter _ w.accounts = _
      apply List.filter_congr
      intro a _
      simp only [Bool.not_eq_true] at hn
      simp only [List.any_cons, hn, Bool.false_and, Bool.false_or]

/-- In a registry whose ids are distinct, the accounts that share their id
with an account of the target name are the accounts of the target name. -/
theorem filter_by_id_eq_filter_by_name (ccName : String) (acc : List ServiceAccountEntry)
    (hnd : (acc.map (fun a => a.ServiceAccountId)).Nodup) :
    acc.filter (fun a =>
      !(acc.any (fun s => s.Name == ccName && s.ServiceAccountId == a.ServiceAccountId))) =
    acc.filter (fun a => a.Name != ccName) := by
  apply List.filter_congr
  intro a ha
  have hinj := List.inj_on_of_nodup_map hnd
  simp only [bne]
  congr 1
  apply Bool.eq_iff_iff.mpr
  constructor
  · intro h
    obtain ⟨s, hs, hp⟩ := List.any_eq_true.mp h
    simp only [Bool.and_eq_true, beq_iff_eq] at hp
    have : s = a := hinj hs ha hp.2
    rw [← this]; exact beq_iff_eq.mpr hp.1
  · intro h
    exact List.any_eq_true.mpr ⟨a, ha, by simp [beq_iff_eq.mp h]⟩

/-- The account creation when the first `CreateServiceAccount` answers
AlreadyExists and no later call fails. -/
theorem createAccount_collision (ccName : String) (w : World) (e0 : Err)
    (hcoll : (w.nextFault = some e0 ∧ e0.kind = .AlreadyExists) ∨
      (w.nextFault = none ∧ w.accounts.any (fun a => a.Name == ccName) = true))
    (hq : w.tick.quiet)
    (hnd : (w.accounts.map (fun a => a.ServiceAccountId)).Nodup) :
    ∃ w1, createAccount ccName w =
        (.ok (mkUUID (w.uuidCounter + 1), mkUUID (w.uuidCounter + 2)), w1) ∧
      w1.quiet ∧
      w1.accounts = w.accounts.filter (fun a => a.Name != ccName) ++
        [⟨mkUUID w.uuidCounter, ccName, mkUUID (w.uuidCounter + 1)⟩] ∧
      w1.uuidCounter = w.uuidCounter + 3 ∧ w1.secrets = w.secrets ∧ w1.durable = w.durable ∧
      w1.events = w.events := by
  have hfirst : ∃ e, CreateServiceAccount ccName true w = (.error e, w.tick) ∧
      IsAlreadyExists e = true := by
    unfold CreateServiceAccount
    rcases hcoll with ⟨hf, hk⟩ | ⟨hf, hany⟩
    · rw [hf]; exact ⟨e0, rfl, by simp [IsAlreadyExists, hk]⟩
    · rw [hf]; simp only [hany, if_true]; exact ⟨_, rfl, rfl⟩
  obtain ⟨e, hce, hae⟩ := hfirst
  obtain ⟨w3, hdel, hq3, hacc3, hu3, hs3, hd3, hev3⟩ :=
    deleteNamed_quiet ccName w.accounts w.tick.tick (quiet_tick hq)
  have hacc3' : w3.accounts = w.accounts.filter (fun a => a.Name != ccName) := by
    rw [hacc3]; exact filter_by_id_eq_filter_by_name ccName w.accounts hnd
  have hnone : w3.accounts.any (fun a => a.Name == ccName) = false := by
    rw [hacc3']
    apply Bool.eq_false_iff.mpr
    intro h
    obtain ⟨a, ha, hp⟩ := List.any_eq_true.mp h
    have := (List.mem_filter.mp ha).2
    simp only [bne, hp, Bool.not_true] at this
    exact absurd this (by decide)
  refine ⟨{ w3.tick with
      accounts := w3.accounts ++ [⟨mkUUID w3.uuidCounter, ccName, mkUUID (w3.uuidCounter + 1)⟩]
      uuidCounter := w3.uuidCounter + 3 }, ?_, ?_, ?_, ?_, ?_, ?_, ?_⟩
  · unfold createAccount
    rw [hce]
    simp only [hae, if_true]
    unfold ListServiceAccounts
    rw [quiet_nextFault hq]
    simp only []
    rw [show w.tick.accounts = w.accounts from rfl, hdel]
    simp only []
    unfold CreateServiceAccount
    rw [quiet_nextFault hq3]
    simp only [hnone, Bool.false_eq_true, if_false]
    rw [hu3]
    rfl
  · exact quiet_of_faults (w := w3.tick) rfl (quiet_tick hq3)
  · show w3.accounts ++ _ = _
    rw [hacc3', hu3]; rfl
  · show w3.uuidCounter + 3 = _
    rw [hu3]; rfl
  · exact hs3
  · exact hd3
  · exact hev3

/-- The reconciliation of PREPARING when auto-binding is on, the binding is
empty, the event append succeeds, the first `CreateServiceAccount` answers
AlreadyExists and no later call fails. -/
theorem reconcile_collision (j : rolloutJob) (c : Capsule) (rc : RolloutConfig) (rs : Status)
    (w : World) (e0 : Err)
    (ha : rc.AutoAddRigServiceAccounts = true) (hb : rs.GetClientId = "")
    (hf : w.nextFault = none)
    (hcoll : (w.tick.nextFault = some e0 ∧ e0.kind = .AlreadyExists) ∨
      (w.tick.nextFault = none ∧
        w.accounts.any (fun a => a.Name == "rig-capsule-" ++ c.Name) = true))
    (hq : w.tick.tick.quiet)
    (hnd : (w.accounts.map (fun a => a.ServiceAccountId)).Nodup) :
    ∃ w1, reconcile j c rc rs w =
        (({ rs with
            RigServiceAccount := some ⟨mkUUID (w.uuidCounter + 1), mkUUID (w.uuidCounter + 3)⟩ },
          none), w1) ∧
      w1.quiet ∧
      w1.accounts = w.accounts.filter (fun a => a.Name != "rig-capsule-" ++ c.Name) ++
        [⟨mkUUID w.uuidCounter, "rig-capsule-" ++ c.Name, mkUUID (w.uuidCounter + 1)⟩] ∧
      w1.secrets = (mkUUID (w.uuidCounter + 3), mkUUID (w.uuidCounter + 2)) ::
        w.secrets.filter (fun s => s.1 != mkUUID (w.uuidCounter + 3)) ∧
      w1.uuidCounter = w.uuidCounter + 4 ∧
      w1.durable = w.durable := by
  have hE : ∃ wE, CreateEvent j.capsuleID j.rolloutID "creating service-account" .Rollout w =
      (none, wE) ∧ wE.tick.quiet ∧ wE.nextFault = w.tick.nextFault ∧ wE.accounts = w.accounts ∧
      wE.uuidCounter = w.uuidCounter ∧ wE.secrets = w.secrets ∧ wE.durable = w.durable :=
    ⟨_, CreateEvent_eq _ _ _ _ w hf, hq, rfl, rfl, rfl, rfl, rfl⟩
  obtain ⟨wE, hce, hqE, hfE, haE, huE, hsE, hdE⟩ := hE
  rw [← hfE, ← haE] at hcoll
  rw [← haE] at hnd
  obtain ⟨w2, hca, hq2, hacc2, hu2, hs2, hd2, -⟩ :=
    createAccount_collision ("rig-capsule-" ++ c.Name) wE e0 hcoll hqE hnd
  rw [haE, huE] at hacc2
  rw [huE] at hu2 hca
  have hf3 : ({ w2 with uuidCounter := w2.uuidCounter + 1 } : World).nextFault = none :=
    quiet_nextFault (quiet_of_faults (w := w2) rfl hq2)
  have hrec : reconcile j c rc rs w =
      (({ rs with
          RigServiceAccount := some ⟨mkUUID (w.uuidCounter + 1), mkUUID w2.uuidCounter⟩ }, none),
        { ({ w2 with uuidCounter := w2.uuidCounter + 1 } : World).tick with
          secrets := ((mkUUID w2.uuidCounter, mkUUID (w.uuidCounter + 2)) ::
            w2.secrets.filter (fun s => s.1 != mkUUID w2.uuidCounter)) }) := by
    unfold reconcile
    have hb' : (rs.GetClientId == "") = true := by rw [hb]; rfl
    simp only [ha, hb', if_true]
    rw [hce]
    simp only []
    rw [hca]
    simp only []
    unfold SecretCreate
    rw [hf3]
  refine ⟨{ ({ w2 with uuidCounter := w2.uuidCounter + 1 } : World).tick with
      secrets := ((mkUUID w2.uuidCounter, mkUUID (w.uuidCounter + 2)) ::
        w2.secrets.filter (fun s => s.1 != mkUUID w2.uuidCounter)) }, hrec.trans ?_, ?_, ?_, ?_,
    ?_, ?_⟩
  · rw [hu2]
  · exact quiet_of_faults (w := w2.tick) rfl (quiet_tick hq2)
  · exact hacc2
  · show (mkUUID w2.uuidCounter, _) :: List.filter _ w2.secrets = _
    rw [hu2, hs2, hsE]
  · show w2.uuidCounter + 1 = _
    rw [hu2]
  · exact hd2.trans hdE

theorem run_preparing (j : rolloutJob) (c : Capsule) (rc : RolloutConfig) (rs : Status)
    (v : Nat) (w : World) (hs : rs.State = .PREPARING) :
    run j c rc rs v w =
      match reconcile j c rc rs w with
      | ((rs1, some e), w1) => ((rs1, some e), w1)
      | ((rs1, none), w1) =>
        (({ rs1 with State := .DEPLOYING, Message := "deploying rollout to cluster" }, none),
          w1) := by
  unfold run
  rw [hs]
  try rfl

/-- C16 (service-account collision, S6): for a status in PREPARING with
auto-binding on and an empty binding, when the event append succeeds, the
first `CreateServiceAccount` answers AlreadyExists (by its own answer or
because an account of the name is registered) and no later call fails, in a
registry whose ids are distinct: (1) the dispatch returns no error and leaves
the state DEPLOYING with the binding {returned client id, id of the new
secret}; (2) the registry afterwards is the old one without the accounts
named "rig-capsule-" + capsule name, followed by the account created anew,
so (3) it holds exactly one account of that name and (4) every account of
another name is still there; (5) the Secret Store holds the returned client
secret under the id drawn for it; (6) on the stored row the turn persists
that status with `scheduled_at = now` and returns no error. -/
theorem run_collision (ctx : Ctx) (j : rolloutJob) (c : Capsule) (rc : RolloutConfig)
    (rs : Status) (w : World) (e0 : Err) (p : UUID) (r : RolloutRow)
    (hs : rs.State = .PREPARING) (ha : rc.AutoAddRigServiceAccounts = true)
    (hb : rs.GetClientId = "")
    (hf : w.nextFault = none)
    (hcoll : (w.tick.nextFault = some e0 ∧ e0.kind = .AlreadyExists) ∨
      (w.tick.nextFault = none ∧
        w.accounts.any (fun a => a.Name == "rig-capsule-" ++ c.Name) = true))
    (hq : w.tick.tick.quiet)
    (hnd : (w.accounts.map (fun a => a.ServiceAccountId)).Nodup) :
    (run j c rc rs r.version w).1 =
      ({ rs with
          State := .DEPLOYING
          Message := "deploying rollout to cluster"
          RigServiceAccount := some ⟨mkUUID (w.uuidCounter + 1), mkUUID (w.uuidCounter + 3)⟩ },
        none) ∧
    (run j c rc rs r.version w).2.accounts =
      w.accounts.filter (fun a => a.Name != "rig-capsule-" ++ c.Name) ++
        [⟨mkUUID w.uuidCounter, "rig-capsule-" ++ c.Name, mkUUID (w.uuidCounter + 1)⟩] ∧
    ((run j c rc rs r.version w).2.accounts.filter
      (fun a => a.Name == "rig-capsule-" ++ c.Name)).length = 1 ∧
    (∀ a ∈ w.accounts, a.Name ≠ "rig-capsule-" ++ c.Name →
      a ∈ (run j c rc rs r.version w).2.accounts) ∧
    storedSecret (run j c rc rs r.version w).2 (mkUUID (w.uuidCounter + 3)) =
      some (mkUUID (w.uuidCounter + 2)) ∧
    (ctx.projectID = some p → findRollout w.rollouts j.capsuleID j.rolloutID = some r →
      (Run_turn ctx j c rc rs r.version w).1 = none ∧
      findRollout (Run_turn ctx j c rc rs r.version w).2.rollouts j.capsuleID j.rolloutID =
        some { r with
          status :=
            { rs with
              State := .DEPLOYING
              Message := "deploying rollout to cluster"
              ScheduledAt := some w.now
              RigServiceAccount :=
                some ⟨mkUUID (w.uuidCounter + 1), mkUUID (w.uuidCounter + 3)⟩ }
          version := r.version + 1 }) := by
  obtain ⟨w1, hrec, hq1, hacc, hsec, -, hd⟩ :=
    reconcile_collision j c rc rs w e0 ha hb hf hcoll hq hnd
  have hrun : run j c rc rs r.version w =
      (({ rs with
          State := .DEPLOYING
          Message := "deploying rollout to cluster"
          RigServiceAccount := some ⟨mkUUID (w.uuidCounter + 1), mkUUID (w.uuidCounter + 3)⟩ },
        none), w1) := by
    rw [run_preparing j c rc rs r.version w hs, hrec]
  have hdf := durable_fields hd
  refine ⟨by rw [hrun], by rw [hrun]; exact hacc, ?_, ?_, ?_, ?_⟩
  · rw [hrun]
    show (List.filter _ w1.accounts).length = 1
    rw [hacc, List.filter_append, List.filter_filter]
    have hnil : List.filter (fun a : ServiceAccountEntry =>
        (a.Name == "rig-capsule-" ++ c.Name) && (a.Name != "rig-capsule-" ++ c.Name))
        w.accounts = [] := by
      apply List.filter_eq_nil_iff.mpr
      intro a _
      simp [bne]
    rw [hnil]
    simp
  · intro a hmem hne
    rw [hrun]
    show a ∈ w1.accounts
    rw [hacc]
    apply List.mem_append_left
    exact List.mem_filter.mpr ⟨hmem, by simp [bne, hne]⟩
  · rw [hrun]
    show storedSecret w1 _ = _
    unfold storedSecret
    rw [hsec]
    simp [List.find?_cons]
  · intro hp hr
    have hne : ¬ ({ rs with
        State := RolloutState.DEPLOYING
        Message := "deploying rollout to cluster"
        RigServiceAccount :=
          some ⟨mkUUID (w.uuidCounter + 1), mkUUID (w.uuidCounter + 3)⟩ } : Status) = rs := by
      intro h
      have := congrArg Status.State h
      simp only [hs] at this
      cases this
    have hw := UpdateRolloutStatus_eq j.capsuleID j.rolloutID
      { rs with
        State := .DEPLOYING
        Message := "deploying rollout to cluster"
        ScheduledAt := some w1.now
        RigServiceAccount := some ⟨mkUUID (w.uuidCounter + 1), mkUUID (w.uuidCounter + 3)⟩ }
      w1 r (quiet_nextFault hq1) (by rw [hdf.2.1]; exact hr)
    have hres : Run_turn ctx j c rc rs r.version w =
        (none, AddJob ⟨p, j.capsuleID, j.rolloutID⟩ w1.now
          { w1.tick with rollouts := (setStatus w1.rollouts j.capsuleID j.rolloutID
            { rs with
              State := .DEPLOYING
              Message := "deploying rollout to cluster"
              ScheduledAt := some w1.now
              RigServiceAccount :=
                some ⟨mkUUID (w.uuidCounter + 1), mkUUID (w.uuidCounter + 3)⟩ }) }) := by
      unfold Run_turn
      rw [hrun]
      simp only [hne, if_false, IsInvalidArgument, Bool.false_eq_true]
      unfold updateContinue
      simp only [isRolloutTerminated, Bool.false_eq_true, if_false]
      rw [hw]
      simp only []
      rw [Run_queue_eq ctx j _ none _ p hp]
    rw [hres]
    refine ⟨rfl, ?_⟩
    show findRollout (setStatus w1.rollouts _ _ _) _ _ = _
    rw [findRollout_setStatus_same, hdf.2.1, hr, hdf.2.2.2]
    rfl

/-- C16 at a concrete world: the PREPARING turn of `worldCollision`. -/
theorem run_collision_witness :
    (run job1 ⟨"c1", "web", 1⟩ configBound statusPreparing 1 worldCollision).1 =
      (⟨.DEPLOYING, "deploying rollout to cluster", some 100, some 100,
        some ⟨mkUUID 1, mkUUID 3⟩⟩, none) ∧
    (run job1 ⟨"c1", "web", 1⟩ configBound statusPreparing 1 worldCollision).2.accounts =
      [⟨"sa-2", "ci-bot", "client-9"⟩, ⟨mkUUID 0, "rig-capsule-web", mkUUID 1⟩] ∧
    ((run job1 ⟨"c1", "web", 1⟩ configBound statusPreparing 1 worldCollision).2.accounts.filter
      (fun a => a.Name == "rig-capsule-" ++ "web")).length = 1 :=
  have h := run_collision ctx0 job1 ⟨"c1", "web", 1⟩ configBound statusPreparing worldCollision
    conflict "p1" ⟨"c1", 1, configBound, statusPreparing, 1⟩ rfl rfl rfl rfl
    (Or.inr ⟨rfl, by decide⟩) (fun f hf => absurd hf (List.not_mem_nil f)) (by decide)
  ⟨h.1, h.2.1, h.2.2.1⟩

/-! ### The Secret Store during a turn -/

theorem Run_queue_secrets (ctx : Ctx) (j : rolloutJob) (rs : Status) (err : Option Err)
    (w : World) :
    (Run_queue ctx j rs err w).2.secrets = w.secrets ∧
    (err ≠ none → (Run_queue ctx j rs err w).1 ≠ none) := by
  unfold Run_queue queueRolloutJob
  cases rs.ScheduledAt with
  | none => exact ⟨rfl, fun h => h⟩
  | some ts =>
    simp only []
    cases GetProjectID ctx with
    | error e => exact ⟨rfl, fun _ => by simp⟩
    | ok p => exact ⟨rfl, fun h => h⟩

/-- What a turn leaves behind of its dispatch: the Secret Store as the
dispatch left it; the rollout rows either untouched, the turn then returning
an error, or with a status written on the row of the job whose binding is the
one the dispatch left; and no error only when the dispatch returned none. -/
theorem Run_turn_written (ctx : Ctx) (j : rolloutJob) (c : Capsule) (rc : RolloutConfig)
    (oldRS : Status) (v : Nat) (w : World) :
    (Run_turn ctx j c rc oldRS v w).2.secrets = (run j c rc oldRS v w).2.secrets ∧
    (((Run_turn ctx j c rc oldRS v w).2.rollouts = w.rollouts ∧
        (Run_turn ctx j c rc oldRS v w).1 ≠ none) ∨
      ∃ st, TurnWrote j v w.rollouts (Run_turn ctx j c rc oldRS v w).2.rollouts st ∧
        st.RigServiceAccount = (run j c rc oldRS v w).1.1.RigServiceAccount) ∧
    ((Run_turn ctx j c rc oldRS v w).1 = none → (run j c rc oldRS v w).1.2 = none) := by
  unfold Run_turn
  have hd := durable_fields (run_durable j c rc oldRS v w)
  have hat := run_error_unchanged j c rc oldRS v w
  rcases hrun : run j c rc oldRS v w with ⟨⟨rs, err⟩, w1⟩
  rw [hrun] at hd hat
  simp only [] at hd hat ⊢
  obtain ⟨-, hr, -, -⟩ := hd
  split
  · -- the status is unchanged
    next heq =>
    have hrest := UpdateRolloutStatus_rest j.capsuleID j.rolloutID v
      { rs with ScheduledAt := some (w1.now + 3) } w1
    rcases UpdateRolloutStatus_spec j.capsuleID j.rolloutID v
      { rs with ScheduledAt := some (w1.now + 3) } w1 with h | h
    · rcases hu : UpdateRolloutStatus j.capsuleID j.rolloutID v
        { rs with ScheduledAt := some (w1.now + 3) } w1 with ⟨ue, w2⟩
      rw [hu] at h hrest
      cases ue with
      | none => exact absurd rfl h.1
      | some e =>
        simp only [] at h hrest ⊢
        refine ⟨(rest_fields hrest.1).1, Or.inl ⟨?_, by simp⟩, fun hn => by simp at hn⟩
        rw [h.2]; exact hr
    · rcases hu : UpdateRolloutStatus j.capsuleID j.rolloutID v
        { rs with ScheduledAt := some (w1.now + 3) } w1 with ⟨ue, w2⟩
      rw [hu] at h hrest
      obtain ⟨hnone, -, hfound, hw⟩ := h
      simp only [] at hnone hw hrest
      subst hnone
      simp only []
      have hq := Run_queue_frame ctx j { rs with ScheduledAt := some (w1.now + 3) } err w2
      have hqs := Run_queue_secrets ctx j { rs with ScheduledAt := some (w1.now + 3) } err w2
      refine ⟨hqs.1.trans (rest_fields hrest.1).1,
        Or.inr ⟨{ rs with ScheduledAt := some (w1.now + 3) }, ?_, rfl⟩, fun hn => ?_⟩
      · unfold TurnWrote
        refine ⟨?_, ?_⟩
        · rw [← hr]; exact hfound
        · rw [hq.1, hw]
          show setStatus w1.rollouts _ _ _ = _
          rw [hr]
      · by_contra hne
        exact hqs.2 hne hn
  · -- the status is changed: the dispatch returned no error
    next hneq =>
    cases err with
    | some e => exact absurd (hat (by simp)) hneq
    | none =>
      simp only [IsInvalidArgument, Bool.false_eq_true, if_false]
      unfold updateContinue
      simp only []
      generalize hrs2 : (if isRolloutTerminated rs = true then { rs with ScheduledAt := none }
        else { rs with ScheduledAt := some w1.now }) = rs2
      have hrs2b : rs2.RigServiceAccount = rs.RigServiceAccount := by
        rw [← hrs2]; split <;> rfl
      have hrest := UpdateRolloutStatus_rest j.capsuleID j.rolloutID v rs2 w1
      rcases UpdateRolloutStatus_spec j.capsuleID j.rolloutID v rs2 w1 with h | h
      · rcases hu : UpdateRolloutStatus j.capsuleID j.rolloutID v rs2 w1 with ⟨ue, w2⟩
        rw [hu] at h hrest
        cases ue with
        | none => exact absurd rfl h.1
        | some e =>
          simp only [] at h hrest ⊢
          have hw2 : w2 = w1.tick := h.2
          have hue := updateError_spec j rc rs2 v e w2
          have hre := updateError_rest j rc rs2 v e w2
          rcases hue2 : updateError j rc rs2 v e w2 with ⟨rs3, w3⟩
          rw [hue2] at hue hre
          simp only [] at hue hre ⊢
          have hq := Run_queue_frame ctx j rs3 (some e) w3
          have hqs := Run_queue_secrets ctx j rs3 (some e) w3
          refine ⟨hqs.1.trans ((rest_fields hre).1.trans (rest_fields hrest.1).1), ?_,
            fun hn => absurd hn (hqs.2 (by simp))⟩
          rcases hue.2.2.2 with h3 | h3
          · left
            refine ⟨?_, hqs.2 (by simp)⟩
            rw [hq.1, h3, hw2]; exact hr
          · right
            unfold TurnWrote at h3
            refine ⟨{ rs2 with ScheduledAt := some (w2.now + 3), Message := e.msg }, ?_, hrs2b⟩
            unfold TurnWrote
            refine ⟨?_, ?_⟩
            · have := h3.1; rw [hw2] at this; rw [← hr]; exact this
            · have := h3.2; rw [hq.1, this, hw2]
              show setStatus w1.rollouts _ _ _ = _
              rw [hr]
      · rcases hu : UpdateRolloutStatus j.capsuleID j.rolloutID v rs2 w1 with ⟨ue, w2⟩
        rw [hu] at h hrest
        obtain ⟨hnone, -, hfound, hw⟩ := h
        simp only [] at hnone hw hrest
        subst hnone
        simp only []
        have hq := Run_queue_frame ctx j rs2 none w2
        have hqs := Run_queue_secrets ctx j rs2 none w2
        refine ⟨hqs.1.trans (rest_fields hrest.1).1, Or.inr ⟨rs2, ?_, hrs2b⟩, fun _ => trivial⟩
        unfold TurnWrote
        refine ⟨?_, ?_⟩
        · rw [← hr]; exact hfound
        · rw [hq.1, hw]
          show setStatus w1.rollouts _ _ _ = _
          rw [hr]

/-! ### The binding is only there when the config asks for it -/

theorem reconcile_noop (j : rolloutJob) (c : Capsule) (rc : RolloutConfig) (rs : Status)
    (w : World) (ha : rc.AutoAddRigServiceAccounts = false) (hb : rs.GetClientId = "") :
    reconcile j c rc rs w = ((rs, none), w) := by
  unfold reconcile
  have hb' : (rs.GetClientId != "") = false := by rw [hb]; rfl
  simp only [ha, hb', Bool.false_eq_true, if_false]

/-- Outside the two branches of PREPARING that touch it, the dispatch leaves
the binding alone. -/
theorem run_keeps_binding (j : rolloutJob) (c : Capsule) (rc : RolloutConfig) (rs : Status)
    (v : Nat) (w : World)
    (h : rs.State ≠ .PREPARING ∨ (rc.AutoAddRigServiceAccounts = false ∧ rs.GetClientId = "")) :
    (run j c rc rs v w).1.1.RigServiceAccount = rs.RigServiceAccount := by
  by_cases herr : (run j c rc rs v w).1.2 = none
  · unfold run at herr ⊢
    split
    · split
      · rfl
      · rfl
    · next hs =>
      rcases h with h | ⟨ha, hb⟩
      · exact absurd hs h
      · rw [reconcile_noop j c rc rs w ha hb]
    · next hs =>
      simp only [hs] at herr
      rw [(deploy_spec j c rc rs w).2.2 herr]
    · next hs =>
      simp only [hs] at herr
      rw [(observe_spec j c rc rs w).2.2 herr]
    · rfl
    · rfl
    · rfl
    · rfl
  · rw [run_error_unchanged j c rc rs v w herr]

theorem GetClientId_congr {a b : Status} (h : a.RigServiceAccount = b.RigServiceAccount) :
    a.GetClientId = b.GetClientId := by
  unfold Status.GetClientId; rw [h]

/-- A status the dispatch leaves with a client id had one before, or the
config asks for the binding. -/
theorem run_binding (j : rolloutJob) (c : Capsule) (rc : RolloutConfig) (rs : Status)
    (v : Nat) (w : World) (h : (run j c rc rs v w).1.1.GetClientId ≠ "") :
    rs.GetClientId ≠ "" ∨ rc.AutoAddRigServiceAccounts = true := by
  by_cases ha : rc.AutoAddRigServiceAccounts = true
  · exact Or.inr ha
  · left
    intro hb
    have ha' : rc.AutoAddRigServiceAccounts = false := by simpa using ha
    have := run_keeps_binding j c rc rs v w (Or.inr ⟨ha', hb⟩)
    exact h ((GetClientId_congr this).trans hb)

theorem findRollout_append_cases (rows : List RolloutRow) (x : RolloutRow) (cid : UUID)
    (rid : Nat) (r : RolloutRow) (h : findRollout (rows ++ [x]) cid rid = some r) :
    findRollout rows cid rid = some r ∨ r = x := by
  unfold findRollout at *
  rw [List.find?_append] at h
  cases hf : rows.find? (fun r => r.capsuleID == cid && r.rolloutID == rid) with
  | some r' => rw [hf] at h; left; simpa using h
  | none =>
    rw [hf] at h
    right
    simp only [Option.none_or, List.find?_cons] at h
    split at h
    · simp only [Option.some.injEq] at h; exact h.symm
    · simp at h

/-- A status write whose status has a client id only when the config of the
written row asks for the binding keeps the invariant on the rows. -/
theorem binding_setStatus (rows : List RolloutRow) (cid : UUID) (rid : Nat) (st : Status)
    (hinv : ∀ cid' rid' r, findRollout rows cid' rid' = some r →
      r.status.GetClientId ≠ "" → r.config.AutoAddRigServiceAccounts = true)
    (hst : ∀ r, findRollout rows cid rid = some r → st.GetClientId ≠ "" →
      r.config.AutoAddRigServiceAccounts = true) :
    ∀ cid' rid' r, findRollout (setStatus rows cid rid st) cid' rid' = some r →
      r.status.GetClientId ≠ "" → r.config.AutoAddRigServiceAccounts = true := by
  intro cid' rid' r hr hne
  by_cases hk : cid' = cid ∧ rid' = rid
  · obtain ⟨h1, h2⟩ := hk
    subst h1; subst h2
    rw [findRollout_setStatus_same] at hr
    cases hf : findRollout rows cid' rid' with
    | none => rw [hf] at hr; simp at hr
    | some r0 =>
      rw [hf] at hr
      simp only [Option.map_some', Option.some.injEq] at hr
      subst hr
      exact hst r0 hf hne
  · rw [findRollout_setStatus_other _ _ _ _ _ _ hk] at hr
    exact hinv cid' rid' r hr hne

/-- A status write keeps the config of every stored row. -/
theorem config_setStatus (rows : List RolloutRow) (cid cid' : UUID) (rid rid' : Nat)
    (st : Status) (rc : RolloutConfig)
    (h : ∃ r, findRollout rows cid' rid' = some r ∧ r.config = rc) :
    ∃ r, findRollout (setStatus rows cid rid st) cid' rid' = some r ∧ r.config = rc := by
  obtain ⟨r, hr, hc⟩ := h
  by_cases hk : cid' = cid ∧ rid' = rid
  · obtain ⟨h1, h2⟩ := hk
    subst h1; subst h2
    rw [findRollout_setStatus_same, hr]
    exact ⟨_, rfl, hc⟩
  · rw [findRollout_setStatus_other _ _ _ _ _ _ hk]
    exact ⟨r, hr, hc⟩

/-- Every step keeps the invariant of the binding. -/
theorem Step.bindingRequested {s s' : Sys} (h : Step s s') (hi : s.BindingRequested) :
    s'.BindingRequested := by
  obtain ⟨hrows, hloads⟩ := hi
  cases h with
  | load f l w1 hl =>
    have hs := Run_load_spec l.j { s.world with faults := f }
    rw [hl] at hs
    have hrw : w1.rollouts = s.world.rollouts := (durable_fields hs.1).2.1
    obtain ⟨r, hr, hrc, hrs, -⟩ := hs.2 _ _ _ _ rfl
    have hr' : findRollout s.world.rollouts l.j.capsuleID l.j.rolloutID = some r := hr
    refine ⟨?_, ?_⟩
    · show ∀ cid rid r, findRollout w1.rollouts cid rid = some r → _
      rw [hrw]; exact hrows
    · intro l' hl'
      show (_ → _) ∧ ∃ r, findRollout w1.rollouts _ _ = some r ∧ _
      rw [hrw]
      rcases List.mem_cons.mp hl' with h | h
      · subst h
        refine ⟨fun hne => ?_, r, hr', hrc.symm⟩
        rw [hrc]
        exact hrows _ _ r hr' (by rw [← hrs]; exact hne)
      · exact hloads l' h
  | turn f ctx l hl =>
    obtain ⟨hl2, r0, hr0, hc0⟩ := hloads l hl
    rcases (Run_turn_written ctx l.j l.c l.rc l.oldRS l.version
      { s.world with faults := f }).2.1 with h | ⟨st, hw, hb⟩
    · refine ⟨?_, ?_⟩
      · show ∀ cid rid r, findRollout (Run_turn _ _ _ _ _ _ _).2.rollouts cid rid = some r → _
        rw [h.1]; exact hrows
      · intro l' hl'
        show (_ → _) ∧ ∃ r, findRollout (Run_turn _ _ _ _ _ _ _).2.rollouts _ _ = some r ∧ _
        rw [h.1]; exact hloads l' hl'
    · have hst : ∀ r, findRollout s.world.rollouts l.j.capsuleID l.j.rolloutID = some r →
          st.GetClientId ≠ "" → r.config.AutoAddRigServiceAccounts = true := by
        intro r hr hne
        have hr' : findRollout s.world.rollouts l.j.capsuleID l.j.rolloutID = some r0 := hr0
        rw [hr] at hr'
        simp only [Option.some.injEq] at hr'
        subst hr'
        rw [hc0]
        have hne' : (run l.j l.c l.rc l.oldRS l.version
            { s.world with faults := f }).1.1.GetClientId ≠ "" := by
          rw [← GetClientId_congr hb]; exact hne
        rcases run_binding _ _ _ _ _ _ hne' with h1 | h1
        · exact hl2 h1
        · exact h1
      refine ⟨?_, ?_⟩
      · show ∀ cid rid r, findRollout (Run_turn _ _ _ _ _ _ _).2.rollouts cid rid = some r → _
        rw [hw.2]
        exact binding_setStatus _ _ _ _ hrows hst
      · intro l' hl'
        show (_ → _) ∧ ∃ r, findRollout (Run_turn _ _ _ _ _ _ _).2.rollouts _ _ = some r ∧ _
        rw [hw.2]
        exact ⟨(hloads l' hl').1, config_setStatus _ _ _ _ _ _ _ (hloads l' hl').2⟩
  | abort f cid rid =>
    rcases AbortRollout_rows cid rid { s.world with faults := f } with h | ⟨r, hr, hw⟩
    · refine ⟨?_, ?_⟩
      · show ∀ cid rid r, findRollout (AbortRollout _ _ _).2.rollouts cid rid = some r → _
        rw [h.2]; exact hrows
      · intro l' hl'
        show (_ → _) ∧ ∃ r, findRollout (AbortRollout _ _ _).2.rollouts _ _ = some r ∧ _
        rw [h.2]; exact hloads l' hl'
    · have hr' : findRollout s.world.rollouts cid rid = some r := hr
      refine ⟨?_, ?_⟩
      · show ∀ cid rid r, findRollout (AbortRollout _ _ _).2.rollouts cid rid = some r → _
        rw [hw]
        refine binding_setStatus _ _ _ _ hrows ?_
        intro r1 hr1 hne
        rw [hr'] at hr1
        simp only [Option.some.injEq] at hr1
        subst hr1
        exact hrows _ _ r hr' hne
      · intro l' hl'
        show (_ → _) ∧ ∃ r, findRollout (AbortRollout _ _ _).2.rollouts _ _ = some r ∧ _
        rw [hw]
        exact ⟨(hloads l' hl').1, config_setStatus _ _ _ _ _ _ _ (hloads l' hl').2⟩
  | create f ctx cid cs =>
    rcases newRollout_stored ctx cid cs { s.world with faults := f } with h | ⟨rc, -, h, -⟩
    · refine ⟨?_, ?_⟩
      · show ∀ cid rid r, findRollout (newRollout _ _ _ _).2.rollouts cid rid = some r → _
        rw [h.1]; exact hrows
      · intro l' hl'
        show (_ → _) ∧ ∃ r, findRollout (newRollout _ _ _ _).2.rollouts _ _ = some r ∧ _
        rw [h.1]; exact hloads l' hl'
    · refine ⟨?_, ?_⟩
      · show ∀ cid rid r, findRollout (newRollout _ _ _ _).2.rollouts cid rid = some r → _
        rw [h]
        intro cid' rid' r hr hne
        rcases findRollout_append_cases _ _ _ _ _ hr with h1 | h1
        · exact hrows _ _ r h1 hne
        · subst h1; exact absurd rfl hne
      · intro l' hl'
        show (_ → _) ∧ ∃ r, findRollout (newRollout _ _ _ _).2.rollouts _ _ = some r ∧ _
        rw [h]
        obtain ⟨h1, r, hr, hc⟩ := hloads l' hl'
        exact ⟨h1, r, findRollout_append _ _ _ _ _ hr, hc⟩
  | env w1 hw =>
    refine ⟨?_, ?_⟩
    · show ∀ cid rid r, findRollout w1.rollouts cid rid = some r → _
      rw [hw]; exact hrows
    · intro l' hl'
      show (_ → _) ∧ ∃ r, findRollout w1.rollouts _ _ = some r ∧ _
      rw [hw]; exact hloads l' hl'

theorem steps_bindingRequested {s s' : Sys} (h : Relation.ReflTransGen Step s s')
    (hi : s.BindingRequested) : s'.BindingRequested := by
  induction h with
  | refl => exact hi
  | tail _ hstep ih => exact hstep.bindingRequested ih

/-- C18 (the binding is only there when requested): start from any world
without rollouts and with no turn in flight, and run any steps (new rollouts,
loads of turns, the rest of turns, aborts, changes of the environment that
keep the rollout rows, each with arbitrary faults).  Then (1) every stored
status with a non-empty client id belongs to a row whose config has
auto-binding on; (2) no turn in flight has loaded a config with auto-binding
off together with a status that has a client id, which is the guard of the
branch of PREPARING that deletes the secret and the service accounts; (3) so
for every turn in flight whose config has auto-binding off the reconciliation
of PREPARING does nothing at all; (4) every rollout `newRollout` returns is
stored without binding. -/
theorem binding_only_if_requested (s0 s : Sys) (h0 : s0.world.rollouts = [])
    (hl0 : s0.loaded = []) (hsteps : Relation.ReflTransGen Step s0 s) :
    (∀ cid rid r, findRollout s.world.rollouts cid rid = some r →
      r.status.GetClientId ≠ "" → r.config.AutoAddRigServiceAccounts = true) ∧
    (∀ l ∈ s.loaded, ¬ (l.rc.AutoAddRigServiceAccounts = false ∧ l.oldRS.GetClientId ≠ "")) ∧
    (∀ l ∈ s.loaded, l.rc.AutoAddRigServiceAccounts = false →
      ∀ w, reconcile l.j l.c l.rc l.oldRS w = ((l.oldRS, none), w)) ∧
    (∀ ctx cid cs f id, (newRollout ctx cid cs { s.world with faults := f }).1 = .ok id →
      ∃ r, findRollout (newRollout ctx cid cs { s.world with faults := f }).2.rollouts cid id =
          some r ∧ r.status.RigServiceAccount = none) := by
  have hinit : s0.BindingRequested := by
    refine ⟨?_, ?_⟩
    · intro cid rid r hr
      rw [h0] at hr
      simp [findRollout] at hr
    · intro l hl
      rw [hl0] at hl
      simp at hl
  obtain ⟨hrows, hloads⟩ := steps_bindingRequested hsteps hinit
  have hguard : ∀ l ∈ s.loaded,
      ¬ (l.rc.AutoAddRigServiceAccounts = false ∧ l.oldRS.GetClientId ≠ "") := by
    intro l hl hg
    have := (hloads l hl).1 hg.2
    rw [hg.1] at this
    exact absurd this (by decide)
  refine ⟨hrows, hguard, ?_, ?_⟩
  · intro l hl ha w
    apply reconcile_noop _ _ _ _ _ ha
    by_contra hb
    exact hguard l hl ⟨ha, hb⟩
  · intro ctx cid cs f id hid
    rcases newRollout_stored ctx cid cs { s.world with faults := f } with h | ⟨rc, -, h, hnext⟩
    · exact absurd hid (h.2 id)
    · rw [h, hnext id hid]
      exact ⟨_, findRollout_created _ _ _ _, rfl⟩

/-- C18 at a concrete run: a rollout is created in `sysEmpty` and a turn
loads it. -/
theorem binding_only_if_requested_witness :
    (∀ cid rid r, findRollout sysLoadedC.world.rollouts cid rid = some r →
      r.status.GetClientId ≠ "" → r.config.AutoAddRigServiceAccounts = true) ∧
    reconcile job1 ⟨"c1", "web", 1⟩ config1 (initialStatus 100) world0 =
      ((initialStatus 100, none), world0) :=
  have h := binding_only_if_requested sysEmpty sysLoadedC rfl rfl
    (Relation.ReflTransGen.tail
      (Relation.ReflTransGen.single (Step.create sysEmpty [] ctx0 "c1" [.BuildId "b1"]))
      (Step.load sysCreated [] loadedC sysLoadedC.world rfl))
  ⟨h.1, h.2.2.1 loadedC (List.mem_singleton.mpr rfl) rfl world0⟩

/-! ### Secret lifetime -/

/-- Why the lifetime is stated on the rows the service itself stores: the
row of `worldTeardown` has a binding while its config has auto-binding off,
which no run of the service produces (`steps_bindingRequested`).  On it the
turn enters the branch of PREPARING that removes the binding, deletes the
secret, fails on the listing of the service accounts and writes the status
with the binding it had; after the turn the stored key is still "sec-1" and
the Secret Store is empty. -/
theorem Run_teardown_dangling :
    SecretLive worldTeardown "sec-1" ∧
    (findRollout worldTeardown.rollouts "c1" 1).map (fun r => r.status.GetClientSecretKey) =
      some "sec-1" ∧
    (Run ctx0 job1 worldTeardown).1 = some conflict ∧
    (findRollout (Run ctx0 job1 worldTeardown).2.rollouts "c1" 1).map
      (fun r => r.status.GetClientSecretKey) = some "sec-1" ∧
    (Run ctx0 job1 worldTeardown).2.secrets = [] ∧
    ¬ SecretLive (Run ctx0 job1 worldTeardown).2 "sec-1" := by
  refine ⟨Or.inr ⟨("sec-1", "hush"), List.mem_cons_self _ _, rfl⟩, rfl, rfl, rfl, rfl, ?_⟩
  intro h
  rcases h with h | ⟨s, hs, -⟩
  · exact absurd h (by decide)
  · have he : (Run ctx0 job1 worldTeardown).2.secrets = [] := rfl
    rw [he] at hs
    exact absurd hs (List.not_mem_nil s)

end Rig
